import Mathlib

/-!
Verification of the `vox` compiler front end (lexer, parser, analyzer,
code generator) against its natural-language specification.

The Rust sources are shallowly embedded: each Rust function used by a claim
is transcribed into a Lean definition of the same name (module prefixes become
namespaces).  Machine integers (`i64`, `usize`) are modelled as `Int`/`Nat`;
the places where Rust parsing can overflow are modelled explicitly.  Rust
`HashSet<String>` becomes `Finset String`; `HashMap<String, HashSet<String>>`
is modelled by its lookup function `String → Finset String` with the empty set
standing for an absent key (the analyzer only ever observes a map through
`get`/`entry().or_default()`, so this quotient is faithful).  Rust iterator
loops become structural recursions.  Source-location bookkeeping (line/column
tracking, `find_symbol_location`) is not modelled: no claim mentions
locations, only messages, which are modelled as structured values since the
Rust format strings are injective in their arguments.
-/

set_option maxHeartbeats 1000000
set_option maxRecDepth 20000

namespace Vox

/-! ### errors.rs: Levenshtein distance and keyword suggestions -/

/-- ASCII lowercasing of a character sequence, modelling `str::to_lowercase`
on the ASCII strings used by the compiler. -/
def lowerStr (s : List Char) : List Char := s.map Char.toLower

/-- `str::to_lowercase` as a `String` operation (ASCII fragment), written over
the character list so that it reduces inside the kernel. -/
def strToLower (s : String) : String := String.mk (lowerStr s.data)

/-- One row update of the Levenshtein dynamic program (the inner `for j` loop
of `levenshtein_distance`): walking along `b`, `pd` is `dp[i-1][j-1]`, the head
of the remaining previous row, `pj` is `dp[i-1][j]`, and `cur` is `dp[i][j-1]`. -/
def levRow (x : Char) : List Char → List Nat → Nat → List Nat
  | y :: ys, pd :: prow, cur =>
    let pj := prow.headD 0
    let c := min (min (pj + 1) (cur + 1)) (pd + (if x = y then 0 else 1))
    c :: levRow x ys prow c
  | _, _, _ => []

/-- The outer `for i` loop of `levenshtein_distance`: fold the rows, where each
new row starts with its border value `dp[i][0] = i`. -/
def levRows (bC : List Char) : List Char → Nat → List Nat → List Nat
  | [], _, prev => prev
  | x :: xs, i, prev => levRows bC xs (i + 1) ((i + 1) :: levRow x bC prev (i + 1))

/-- `errors.rs::levenshtein_distance`: case-insensitive edit distance via the
row-by-row dynamic program, with the two early returns for empty strings. -/
def levenshtein_distance (a b : String) : Nat :=
  let aC := lowerStr a.data
  let bC := lowerStr b.data
  if aC.length = 0 then bC.length
  else if bC.length = 0 then aC.length
  else (levRows bC aC 0 (List.range (bC.length + 1))).getLastD 0

/-- Absolute difference of lengths, modelling
`(word.len() as isize - keyword.len() as isize).abs() as usize`. -/
def lenDiff (a b : Nat) : Nat := if a ≤ b then b - a else a - b

/-- The `best_match` update of `find_similar_keyword`: keep the closer match,
first match wins ties. -/
def updateBest (best : Option (String × Nat)) (kw : String) (d : Nat) :
    Option (String × Nat) :=
  match best with
  | some (b, bd) => if d < bd then some (kw, d) else some (b, bd)
  | none => some (kw, d)

/-- The keyword loop of `errors.rs::find_similar_keyword`, carrying the
`best_match : Option<(String, usize)>` accumulator. -/
def fskGo (word : String) (maxd : Nat) : List String → Option (String × Nat) → Option String
  | [], best => best.map Prod.fst
  | kw :: rest, best =>
    if lenDiff word.length kw.length > 2 then fskGo word maxd rest best
    else
      let d := levenshtein_distance word kw
      if d = 0 then none
      else if d ≤ maxd then fskGo word maxd rest (updateBest best kw d)
      else fskGo word maxd rest best

/-- `errors.rs::find_similar_keyword`. -/
def find_similar_keyword (word : String) (keywords : List String) : Option String :=
  if word.length ≤ 2 then none
  else fskGo word (if 4 ≤ word.length then 2 else 1) keywords none

/-- `errors.rs::ENGLISH_KEYWORDS`. -/
def ENGLISH_KEYWORDS : List String :=
  ["print", "set", "create", "add", "subtract", "multiply", "divide",
   "increment", "decrement", "call", "allocate", "free",
   "open", "read", "write", "close", "delete", "exists", "resize", "seek",
   "if", "when", "then", "else", "but", "otherwise", "while", "until",
   "for", "each", "every", "loop", "repeat", "times", "break", "continue",
   "return", "exit", "with", "called", "modulo",
   "is", "are", "equals", "equal", "greater", "less", "than", "not", "and", "or",
   "from", "to", "between", "through", "in", "of", "on", "the", "a", "an", "all", "by",
   "treating", "as",
   "number", "text", "boolean", "list", "true", "false",
   "buffer", "file", "bytes", "size", "into", "reading", "writing", "appending",
   "standard", "input", "output",
   "even", "odd", "positive", "negative", "zero", "empty",
   "capacity", "length", "first", "last", "count",
   "error", "stderr", "auto", "catching", "enable", "disable",
   "see", "library", "version",
   "argument", "arguments", "environment", "variable",
   "define", "function", "end", "returning", "taking"]

/-! ### lexer/mod.rs: tokens and the tokenizer

The `Token` enum is transcribed constructor for constructor.  `FloatLiteral`
carries the literal's source text instead of an `f64` (no claim inspects a
float's numeric value).  Line/column tracking (`TokenInfo`) is not modelled:
`tokenize` returns the bare token sequence. -/

inductive Token where
  | Print | Set | Create | Add | Subtract | Multiply | Divide | Increment | Decrement
  | Call | Allocate | Free
  | Open | Read | Write | Close | Delete | Exists | Resize
  | If | When | Then | Else | But | Otherwise | While | Until | For | Each | Every
  | Loop | Repeat | Times | Break | Continue | Return | Exit
  | With | Called | Modulo
  | Is | Are | Equals | Equal | Greater | Less | Than | Not | And | Or
  | From | To | Between | Through | In | Of | On | The | A | An | All | By | Treating
  | Number | Float | Int | Text | Boolean | List | True | False
  | Buffer | File | Bytes | Size | Into | Reading | Writing | Appending | Standard | Input
  | Even | Odd | Positive | Negative | Zero | Empty
  | Apostrophe | Capacity | Descriptor | Modified | Accessed | Permissions
  | Readable | Writable | Full | First | Last | Absolute | Sign
  | Error | Stderr | Auto | Catching | Enable | Disable
  | See | Library | Version
  | Argument | Arguments | Environment | Variable | Count
  | Wait | Sleep | Timer | Stop | Begin | Finish
  | Get | Current | Time | Second | Seconds | Millisecond | Milliseconds
  | Duration | Elapsed | Hour | Minute | Day | Month | Year | Unix
  | Running | As
  | BitAnd | BitOr | BitXor | BitNot | BitShiftLeft | BitShiftRight
  | Byte | Element | Without
  | IntegerLiteral (n : Int)
  | FloatLiteral (text : String)
  | StringLiteral (s : String)
  | Identifier (name : String)
  | Period | Comma | Colon | OpenBracket | CloseBracket | Minus
  | Newline | ParagraphBreak | EOF


/-- Code type for `Token.encode` (constructor index plus payloads). -/
abbrev TokenCode : Type := Nat × Int × String

/-- Injective code of a token, used to obtain decidable equality without the
quadratic cost of a derived instance on a 150-constructor enum. -/
def Token.encode : Token → TokenCode
  | .Print => (0, 0, "")
  | .Set => (1, 0, "")
  | .Create => (2, 0, "")
  | .Add => (3, 0, "")
  | .Subtract => (4, 0, "")
  | .Multiply => (5, 0, "")
  | .Divide => (6, 0, "")
  | .Increment => (7, 0, "")
  | .Decrement => (8, 0, "")
  | .Call => (9, 0, "")
  | .Allocate => (10, 0, "")
  | .Free => (11, 0, "")
  | .Open => (12, 0, "")
  | .Read => (13, 0, "")
  | .Write => (14, 0, "")
  | .Close => (15, 0, "")
  | .Delete => (16, 0, "")
  | .Exists => (17, 0, "")
  | .Resize => (18, 0, "")
  | .If => (19, 0, "")
  | .When => (20, 0, "")
  | .Then => (21, 0, "")
  | .Else => (22, 0, "")
  | .But => (23, 0, "")
  | .Otherwise => (24, 0, "")
  | .While => (25, 0, "")
  | .Until => (26, 0, "")
  | .For => (27, 0, "")
  | .Each => (28, 0, "")
  | .Every => (29, 0, "")
  | .Loop => (30, 0, "")
  | .Repeat => (31, 0, "")
  | .Times => (32, 0, "")
  | .Break => (33, 0, "")
  | .Continue => (34, 0, "")
  | .Return => (35, 0, "")
  | .Exit => (36, 0, "")
  | .With => (37, 0, "")
  | .Called => (38, 0, "")
  | .Modulo => (39, 0, "")
  | .Is => (40, 0, "")
  | .Are => (41, 0, "")
  | .Equals => (42, 0, "")
  | .Equal => (43, 0, "")
  | .Greater => (44, 0, "")
  | .Less => (45, 0, "")
  | .Than => (46, 0, "")
  | .Not => (47, 0, "")
  | .And => (48, 0, "")
  | .Or => (49, 0, "")
  | .From => (50, 0, "")
  | .To => (51, 0, "")
  | .Between => (52, 0, "")
  | .Through => (53, 0, "")
  | .In => (54, 0, "")
  | .Of => (55, 0, "")
  | .On => (56, 0, "")
  | .The => (57, 0, "")
  | .A => (58, 0, "")
  | .An => (59, 0, "")
  | .All => (60, 0, "")
  | .By => (61, 0, "")
  | .Treating => (62, 0, "")
  | .Number => (63, 0, "")
  | .Float => (64, 0, "")
  | .Int => (65, 0, "")
  | .Text => (66, 0, "")
  | .Boolean => (67, 0, "")
  | .List => (68, 0, "")
  | .True => (69, 0, "")
  | .False => (70, 0, "")
  | .Buffer => (71, 0, "")
  | .File => (72, 0, "")
  | .Bytes => (73, 0, "")
  | .Size => (74, 0, "")
  | .Into => (75, 0, "")
  | .Reading => (76, 0, "")
  | .Writing => (77, 0, "")
  | .Appending => (78, 0, "")
  | .Standard => (79, 0, "")
  | .Input => (80, 0, "")
  | .Even => (81, 0, "")
  | .Odd => (82, 0, "")
  | .Positive => (83, 0, "")
  | .Negative => (84, 0, "")
  | .Zero => (85, 0, "")
  | .Empty => (86, 0, "")
  | .Apostrophe => (87, 0, "")
  | .Capacity => (88, 0, "")
  | .Descriptor => (89, 0, "")
  | .Modified => (90, 0, "")
  | .Accessed => (91, 0, "")
  | .Permissions => (92, 0, "")
  | .Readable => (93, 0, "")
  | .Writable => (94, 0, "")
  | .Full => (95, 0, "")
  | .First => (96, 0, "")
  | .Last => (97, 0, "")
  | .Absolute => (98, 0, "")
  | .Sign => (99, 0, "")
  | .Error => (100, 0, "")
  | .Stderr => (101, 0, "")
  | .Auto => (102, 0, "")
  | .Catching => (103, 0, "")
  | .Enable => (104, 0, "")
  | .Disable => (105, 0, "")
  | .See => (106, 0, "")
  | .Library => (107, 0, "")
  | .Version => (108, 0, "")
  | .Argument => (109, 0, "")
  | .Arguments => (110, 0, "")
  | .Environment => (111, 0, "")
  | .Variable => (112, 0, "")
  | .Count => (113, 0, "")
  | .Wait => (114, 0, "")
  | .Sleep => (115, 0, "")
  | .Timer => (116, 0, "")
  | .Stop => (117, 0, "")
  | .Begin => (118, 0, "")
  | .Finish => (119, 0, "")
  | .Get => (120, 0, "")
  | .Current => (121, 0, "")
  | .Time => (122, 0, "")
  | .Second => (123, 0, "")
  | .Seconds => (124, 0, "")
  | .Millisecond => (125, 0, "")
  | .Milliseconds => (126, 0, "")
  | .Duration => (127, 0, "")
  | .Elapsed => (128, 0, "")
  | .Hour => (129, 0, "")
  | .Minute => (130, 0, "")
  | .Day => (131, 0, "")
  | .Month => (132, 0, "")
  | .Year => (133, 0, "")
  | .Unix => (134, 0, "")
  | .Running => (135, 0, "")
  | .As => (136, 0, "")
  | .BitAnd => (137, 0, "")
  | .BitOr => (138, 0, "")
  | .BitXor => (139, 0, "")
  | .BitNot => (140, 0, "")
  | .BitShiftLeft => (141, 0, "")
  | .BitShiftRight => (142, 0, "")
  | .Byte => (143, 0, "")
  | .Element => (144, 0, "")
  | .Without => (145, 0, "")
  | .IntegerLiteral n => (146, n, "")
  | .FloatLiteral t => (147, 0, t)
  | .StringLiteral t => (148, 0, t)
  | .Identifier t => (149, 0, t)
  | .Period => (150, 0, "")
  | .Comma => (151, 0, "")
  | .Colon => (152, 0, "")
  | .OpenBracket => (153, 0, "")
  | .CloseBracket => (154, 0, "")
  | .Minus => (155, 0, "")
  | .Newline => (156, 0, "")
  | .ParagraphBreak => (157, 0, "")
  | .EOF => (158, 0, "")

/-- Left inverse of `Token.encode`. -/
def Token.decode (k : TokenCode) : Token :=
  if k.1 = 0 then .Print
  else if k.1 = 1 then .Set
  else if k.1 = 2 then .Create
  else if k.1 = 3 then .Add
  else if k.1 = 4 then .Subtract
  else if k.1 = 5 then .Multiply
  else if k.1 = 6 then .Divide
  else if k.1 = 7 then .Increment
  else if k.1 = 8 then .Decrement
  else if k.1 = 9 then .Call
  else if k.1 = 10 then .Allocate
  else if k.1 = 11 then .Free
  else if k.1 = 12 then .Open
  else if k.1 = 13 then .Read
  else if k.1 = 14 then .Write
  else if k.1 = 15 then .Close
  else if k.1 = 16 then .Delete
  else if k.1 = 17 then .Exists
  else if k.1 = 18 then .Resize
  else if k.1 = 19 then .If
  else if k.1 = 20 then .When
  else if k.1 = 21 then .Then
  else if k.1 = 22 then .Else
  else if k.1 = 23 then .But
  else if k.1 = 24 then .Otherwise
  else if k.1 = 25 then .While
  else if k.1 = 26 then .Until
  else if k.1 = 27 then .For
  else if k.1 = 28 then .Each
  else if k.1 = 29 then .Every
  else if k.1 = 30 then .Loop
  else if k.1 = 31 then .Repeat
  else if k.1 = 32 then .Times
  else if k.1 = 33 then .Break
  else if k.1 = 34 then .Continue
  else if k.1 = 35 then .Return
  else if k.1 = 36 then .Exit
  else if k.1 = 37 then .With
  else if k.1 = 38 then .Called
  else if k.1 = 39 then .Modulo
  else if k.1 = 40 then .Is
  else if k.1 = 41 then .Are
  else if k.1 = 42 then .Equals
  else if k.1 = 43 then .Equal
  else if k.1 = 44 then .Greater
  else if k.1 = 45 then .Less
  else if k.1 = 46 then .Than
  else if k.1 = 47 then .Not
  else if k.1 = 48 then .And
  else if k.1 = 49 then .Or
  else if k.1 = 50 then .From
  else if k.1 = 51 then .To
  else if k.1 = 52 then .Between
  else if k.1 = 53 then .Through
  else if k.1 = 54 then .In
  else if k.1 = 55 then .Of
  else if k.1 = 56 then .On
  else if k.1 = 57 then .The
  else if k.1 = 58 then .A
  else if k.1 = 59 then .An
  else if k.1 = 60 then .All
  else if k.1 = 61 then .By
  else if k.1 = 62 then .Treating
  else if k.1 = 63 then .Number
  else if k.1 = 64 then .Float
  else if k.1 = 65 then .Int
  else if k.1 = 66 then .Text
  else if k.1 = 67 then .Boolean
  else if k.1 = 68 then .List
  else if k.1 = 69 then .True
  else if k.1 = 70 then .False
  else if k.1 = 71 then .Buffer
  else if k.1 = 72 then .File
  else if k.1 = 73 then .Bytes
  else if k.1 = 74 then .Size
  else if k.1 = 75 then .Into
  else if k.1 = 76 then .Reading
  else if k.1 = 77 then .Writing
  else if k.1 = 78 then .Appending
  else if k.1 = 79 then .Standard
  else if k.1 = 80 then .Input
  else if k.1 = 81 then .Even
  else if k.1 = 82 then .Odd
  else if k.1 = 83 then .Positive
  else if k.1 = 84 then .Negative
  else if k.1 = 85 then .Zero
  else if k.1 = 86 then .Empty
  else if k.1 = 87 then .Apostrophe
  else if k.1 = 88 then .Capacity
  else if k.1 = 89 then .Descriptor
  else if k.1 = 90 then .Modified
  else if k.1 = 91 then .Accessed
  else if k.1 = 92 then .Permissions
  else if k.1 = 93 then .Readable
  else if k.1 = 94 then .Writable
  else if k.1 = 95 then .Full
  else if k.1 = 96 then .First
  else if k.1 = 97 then .Last
  else if k.1 = 98 then .Absolute
  else if k.1 = 99 then .Sign
  else if k.1 = 100 then .Error
  else if k.1 = 101 then .Stderr
  else if k.1 = 102 then .Auto
  else if k.1 = 103 then .Catching
  else if k.1 = 104 then .Enable
  else if k.1 = 105 then .Disable
  else if k.1 = 106 then .See
  else if k.1 = 107 then .Library
  else if k.1 = 108 then .Version
  else if k.1 = 109 then .Argument
  else if k.1 = 110 then .Arguments
  else if k.1 = 111 then .Environment
  else if k.1 = 112 then .Variable
  else if k.1 = 113 then .Count
  else if k.1 = 114 then .Wait
  else if k.1 = 115 then .Sleep
  else if k.1 = 116 then .Timer
  else if k.1 = 117 then .Stop
  else if k.1 = 118 then .Begin
  else if k.1 = 119 then .Finish
  else if k.1 = 120 then .Get
  else if k.1 = 121 then .Current
  else if k.1 = 122 then .Time
  else if k.1 = 123 then .Second
  else if k.1 = 124 then .Seconds
  else if k.1 = 125 then .Millisecond
  else if k.1 = 126 then .Milliseconds
  else if k.1 = 127 then .Duration
  else if k.1 = 128 then .Elapsed
  else if k.1 = 129 then .Hour
  else if k.1 = 130 then .Minute
  else if k.1 = 131 then .Day
  else if k.1 = 132 then .Month
  else if k.1 = 133 then .Year
  else if k.1 = 134 then .Unix
  else if k.1 = 135 then .Running
  else if k.1 = 136 then .As
  else if k.1 = 137 then .BitAnd
  else if k.1 = 138 then .BitOr
  else if k.1 = 139 then .BitXor
  else if k.1 = 140 then .BitNot
  else if k.1 = 141 then .BitShiftLeft
  else if k.1 = 142 then .BitShiftRight
  else if k.1 = 143 then .Byte
  else if k.1 = 144 then .Element
  else if k.1 = 145 then .Without
  else if k.1 = 146 then .IntegerLiteral k.2.1
  else if k.1 = 147 then .FloatLiteral k.2.2
  else if k.1 = 148 then .StringLiteral k.2.2
  else if k.1 = 149 then .Identifier k.2.2
  else if k.1 = 150 then .Period
  else if k.1 = 151 then .Comma
  else if k.1 = 152 then .Colon
  else if k.1 = 153 then .OpenBracket
  else if k.1 = 154 then .CloseBracket
  else if k.1 = 155 then .Minus
  else if k.1 = 156 then .Newline
  else if k.1 = 157 then .ParagraphBreak
  else if k.1 = 158 then .EOF
  else .EOF

lemma Token.decode_encode : ∀ t : Token, Token.decode (Token.encode t) = t := by
  intro t
  cases t <;> rfl

instance : DecidableEq Token := fun a b =>
  if h : Token.encode a = Token.encode b then
    isTrue (by rw [← Token.decode_encode a, ← Token.decode_encode b, h])
  else isFalse (fun he => h (he ▸ rfl))

/-- `Token::string_is_keyword`: canonical keyword name for a reserved word or
any of its synonyms, matched case-insensitively. -/
def Token.string_is_keyword (s : String) : Option String :=
  let lw := strToLower s
  if lw ∈ ["print", "say", "display", "output", "show"] then some "print"
  else if lw ∈ ["set", "assign", "let", "make", "put"] then some "set"
  else if lw ∈ ["create", "declare", "define"] then some "create"
  else if lw ∈ ["add", "plus"] then some "add"
  else if lw ∈ ["subtract", "minus"] then some "subtract"
  else if lw ∈ ["multiply", "times"] then some "multiply"
  else if lw ∈ ["divide", "over"] then some "divide"
  else if lw ∈ ["increment", "increase"] then some "increment"
  else if lw ∈ ["decrement", "decrease"] then some "decrement"
  else if lw ∈ ["call", "invoke", "run", "execute"] then some "call"
  else if lw = "allocate" then some "allocate"
  else if lw ∈ ["free", "deallocate", "release"] then some "free"
  else if lw ∈ ["modulo", "mod", "remainder"] then some "modulo"
  else if lw = "if" then some "if"
  else if lw = "when" then some "when"
  else if lw = "then" then some "then"
  else if lw = "else" then some "else"
  else if lw = "but" then some "but"
  else if lw = "otherwise" then some "otherwise"
  else if lw = "while" then some "while"
  else if lw = "until" then some "until"
  else if lw = "for" then some "for"
  else if lw = "each" then some "each"
  else if lw = "every" then some "every"
  else if lw ∈ ["loop", "repeat"] then some "loop"
  else if lw = "break" then some "break"
  else if lw = "stop" then some "stop"
  else if lw ∈ ["continue", "skip"] then some "continue"
  else if lw ∈ ["return", "give", "respond", "reply"] then some "return"
  else if lw ∈ ["exit", "quit", "terminate", "end", "halt", "abort"] then some "exit"
  else if lw ∈ ["with", "using", "given", "taking"] then some "with"
  else if lw ∈ ["called", "named"] then some "called"
  else if lw ∈ ["is", "equals", "equal", "=="] then some "is"
  else if lw = "are" then some "are"
  else if lw ∈ ["greater", "more", "larger", "bigger", "higher", "above"] then some "greater"
  else if lw ∈ ["less", "smaller", "lower", "below", "fewer"] then some "less"
  else if lw = "than" then some "than"
  else if lw ∈ ["not", "!"] then some "not"
  else if lw ∈ ["and", "&&"] then some "and"
  else if lw ∈ ["or", "||"] then some "or"
  else if lw ∈ ["from", "starting"] then some "from"
  else if lw ∈ ["to", "up"] then some "to"
  else if lw = "between" then some "between"
  else if lw = "through" then some "through"
  else if lw ∈ ["in", "inside", "within"] then some "in"
  else if lw = "of" then some "of"
  else if lw ∈ ["on", "at"] then some "on"
  else if lw = "the" then some "the"
  else if lw = "a" then some "a"
  else if lw = "an" then some "an"
  else if lw = "all" then some "all"
  else if lw = "by" then some "by"
  else if lw ∈ ["treating", "treat"] then some "treating"
  else if lw ∈ ["number", "numbers"] then some "number"
  else if lw ∈ ["float", "decimal", "real"] then some "float"
  else if lw ∈ ["int", "integer"] then some "int"
  else if lw ∈ ["text", "string", "message"] then some "text"
  else if lw ∈ ["boolean", "bool", "flag"] then some "boolean"
  else if lw ∈ ["list", "array", "collection"] then some "list"
  else if lw ∈ ["true", "yes"] then some "true"
  else if lw ∈ ["false", "no"] then some "false"
  else if lw = "buffer" then some "buffer"
  else if lw = "file" then some "file"
  else if lw = "bytes" then some "bytes"
  else if lw = "byte" then some "byte"
  else if lw ∈ ["size", "length"] then some "size"
  else if lw = "into" then some "into"
  else if lw = "reading" then some "reading"
  else if lw = "writing" then some "writing"
  else if lw = "appending" then some "appending"
  else if lw = "standard" then some "standard"
  else if lw = "input" then some "input"
  else if lw ∈ ["open", "opened"] then some "open"
  else if lw = "read" then some "read"
  else if lw = "write" then some "write"
  else if lw ∈ ["close", "closed"] then some "close"
  else if lw ∈ ["delete", "remove"] then some "delete"
  else if lw ∈ ["exists", "exist"] then some "exists"
  else if lw ∈ ["resize", "reallocate", "grow", "shrink"] then some "resize"
  else if lw = "even" then some "even"
  else if lw = "odd" then some "odd"
  else if lw = "positive" then some "positive"
  else if lw = "negative" then some "negative"
  else if lw = "zero" then some "zero"
  else if lw ∈ ["empty", "nothing", "null", "nil"] then some "empty"
  else if lw = "capacity" then some "capacity"
  else if lw ∈ ["descriptor", "fd"] then some "descriptor"
  else if lw = "modified" then some "modified"
  else if lw = "accessed" then some "accessed"
  else if lw ∈ ["permissions", "perms"] then some "permissions"
  else if lw = "readable" then some "readable"
  else if lw = "writable" then some "writable"
  else if lw = "full" then some "full"
  else if lw = "first" then some "first"
  else if lw = "last" then some "last"
  else if lw ∈ ["absolute", "abs"] then some "absolute"
  else if lw = "sign" then some "sign"
  else if lw = "error" then some "error"
  else if lw = "stderr" then some "stderr"
  else if lw ∈ ["auto", "automatic"] then some "auto"
  else if lw = "catching" then some "catching"
  else if lw ∈ ["enable", "enabled"] then some "enable"
  else if lw ∈ ["disable", "disabled"] then some "disable"
  else if lw ∈ ["see", "import", "include", "require"] then some "see"
  else if lw ∈ ["library", "lib"] then some "library"
  else if lw ∈ ["version", "ver"] then some "version"
  else if lw ∈ ["argument", "arg", "param", "parameter"] then some "argument"
  else if lw ∈ ["arguments", "args", "params", "parameters"] then some "arguments"
  else if lw ∈ ["environment", "env"] then some "environment"
  else if lw ∈ ["variable", "var"] then some "variable"
  else if lw = "count" then some "count"
  else if lw ∈ ["wait", "pause"] then some "wait"
  else if lw ∈ ["sleep", "delay"] then some "sleep"
  else if lw ∈ ["timer", "stopwatch"] then some "timer"
  else if lw = "begin" then some "begin"
  else if lw = "finish" then some "stop"
  else if lw ∈ ["get", "fetch", "retrieve"] then some "get"
  else if lw = "current" then some "current"
  else if lw = "time" then some "time"
  else if lw = "second" then some "second"
  else if lw = "seconds" then some "seconds"
  else if lw = "millisecond" then some "millisecond"
  else if lw ∈ ["milliseconds", "ms"] then some "milliseconds"
  else if lw = "duration" then some "duration"
  else if lw = "elapsed" then some "elapsed"
  else if lw ∈ ["hour", "hours"] then some "hour"
  else if lw ∈ ["minute", "minutes"] then some "minute"
  else if lw ∈ ["day", "days"] then some "day"
  else if lw ∈ ["month", "months"] then some "month"
  else if lw ∈ ["year", "years"] then some "year"
  else if lw ∈ ["unix", "unixtime", "timestamp"] then some "unix"
  else if lw = "running" then some "running"
  else if lw = "as" then some "as"
  else none

/-- `Token::as_keyword`: the keyword name of a reserved-keyword token; `none`
for identifiers, literals, punctuation and the special tokens. -/
def Token.as_keyword : Token → Option String
  | .Print => some "print"
  | .Set => some "set"
  | .Create => some "create"
  | .Add => some "add"
  | .Subtract => some "subtract"
  | .Multiply => some "multiply"
  | .Divide => some "divide"
  | .Increment => some "increment"
  | .Decrement => some "decrement"
  | .Call => some "call"
  | .Allocate => some "allocate"
  | .Free => some "free"
  | .Open => some "open"
  | .Read => some "read"
  | .Write => some "write"
  | .Close => some "close"
  | .Delete => some "delete"
  | .Exists => some "exists"
  | .Resize => some "resize"
  | .If => some "if"
  | .When => some "when"
  | .Then => some "then"
  | .Else => some "else"
  | .But => some "but"
  | .Otherwise => some "otherwise"
  | .While => some "while"
  | .Until => some "until"
  | .For => some "for"
  | .Each => some "each"
  | .Every => some "every"
  | .Loop => some "loop"
  | .Repeat => some "repeat"
  | .Times => some "times"
  | .Break => some "break"
  | .Continue => some "continue"
  | .Return => some "return"
  | .Exit => some "exit"
  | .With => some "with"
  | .Called => some "called"
  | .Modulo => some "modulo"
  | .Is => some "is"
  | .Are => some "are"
  | .Equals => some "equals"
  | .Equal => some "equal"
  | .Greater => some "greater"
  | .Less => some "less"
  | .Than => some "than"
  | .Not => some "not"
  | .And => some "and"
  | .Or => some "or"
  | .From => some "from"
  | .To => some "to"
  | .Between => some "between"
  | .Through => some "through"
  | .In => some "in"
  | .Of => some "of"
  | .On => some "on"
  | .The => some "the"
  | .A => some "a"
  | .An => some "an"
  | .All => some "all"
  | .By => some "by"
  | .Treating => some "treating"
  | .Number => some "number"
  | .Float => some "float"
  | .Int => some "int"
  | .Text => some "text"
  | .Boolean => some "boolean"
  | .List => some "list"
  | .True => some "true"
  | .False => some "false"
  | .Buffer => some "buffer"
  | .File => some "file"
  | .Bytes => some "bytes"
  | .Size => some "size"
  | .Into => some "into"
  | .Reading => some "reading"
  | .Writing => some "writing"
  | .Appending => some "appending"
  | .Standard => some "standard"
  | .Input => some "input"
  | .Even => some "even"
  | .Odd => some "odd"
  | .Positive => some "positive"
  | .Negative => some "negative"
  | .Zero => some "zero"
  | .Empty => some "empty"
  | .Apostrophe => none
  | .Capacity => some "capacity"
  | .Descriptor => some "descriptor"
  | .Modified => some "modified"
  | .Accessed => some "accessed"
  | .Permissions => some "permissions"
  | .Readable => some "readable"
  | .Writable => some "writable"
  | .Full => some "full"
  | .First => some "first"
  | .Last => some "last"
  | .Absolute => some "absolute"
  | .Sign => some "sign"
  | .Error => some "error"
  | .Stderr => some "stderr"
  | .Auto => some "auto"
  | .Catching => some "catching"
  | .Enable => some "enable"
  | .Disable => some "disable"
  | .See => some "see"
  | .Library => some "library"
  | .Version => some "version"
  | .Argument => some "argument"
  | .Arguments => some "arguments"
  | .Environment => some "environment"
  | .Variable => some "variable"
  | .Count => some "count"
  | .Wait => some "wait"
  | .Sleep => some "sleep"
  | .Timer => some "timer"
  | .Stop => some "stop"
  | .Begin => some "begin"
  | .Finish => some "finish"
  | .Get => some "get"
  | .Current => some "current"
  | .Time => some "time"
  | .Second => some "second"
  | .Seconds => some "seconds"
  | .Millisecond => some "millisecond"
  | .Milliseconds => some "milliseconds"
  | .Duration => some "duration"
  | .Elapsed => some "elapsed"
  | .Hour => some "hour"
  | .Minute => some "minute"
  | .Day => some "day"
  | .Month => some "month"
  | .Year => some "year"
  | .Unix => some "unix"
  | .Running => some "running"
  | .As => some "as"
  | .BitAnd => some "bit-and"
  | .BitOr => some "bit-or"
  | .BitXor => some "bit-xor"
  | .BitNot => some "bit-not"
  | .BitShiftLeft => some "bit-shift-left"
  | .BitShiftRight => some "bit-shift-right"
  | .Byte => some "byte"
  | .Element => some "element"
  | .Without => some "without"
  | .IntegerLiteral _ => none
  | .FloatLiteral _ => none
  | .StringLiteral _ => none
  | .Identifier _ => none
  | .Period => none
  | .Comma => none
  | .Colon => none
  | .OpenBracket => none
  | .CloseBracket => none
  | .Minus => none
  | .Newline => none
  | .ParagraphBreak => none
  | .EOF => none

/-- The keyword table of `Lexer::read_word`, mapping a completed word to its
token.  This is a distinct table from `Token::string_is_keyword`. -/
def read_word_token (word : String) : Token :=
  let lw := strToLower word
  if lw ∈ ["print", "prints", "display", "show"] then .Print
  else if lw ∈ ["set", "store", "assign"] then .Set
  else if lw ∈ ["create", "make", "define"] then .Create
  else if lw ∈ ["add", "plus"] then .Add
  else if lw ∈ ["subtract", "minus"] then .Subtract
  else if lw = "multiply" then .Multiply
  else if lw = "divide" then .Divide
  else if lw = "increment" then .Increment
  else if lw = "decrement" then .Decrement
  else if lw ∈ ["call", "invoke", "run"] then .Call
  else if lw = "allocate" then .Allocate
  else if lw ∈ ["free", "release", "deallocate"] then .Free
  else if lw = "if" then .If
  else if lw = "when" then .When
  else if lw = "then" then .Then
  else if lw = "else" then .Else
  else if lw = "but" then .But
  else if lw = "otherwise" then .Otherwise
  else if lw = "while" then .While
  else if lw = "until" then .Until
  else if lw = "for" then .For
  else if lw = "each" then .Each
  else if lw = "every" then .Every
  else if lw = "loop" then .Loop
  else if lw = "repeat" then .Repeat
  else if lw = "times" then .Times
  else if lw = "break" then .Break
  else if lw = "stop" then .Stop
  else if lw ∈ ["exit", "quit", "terminate"] then .Exit
  else if lw ∈ ["continue", "skip"] then .Continue
  else if lw ∈ ["return", "returns", "give"] then .Return
  else if lw = "to" then .To
  else if lw = "with" then .With
  else if lw ∈ ["called", "named"] then .Called
  else if lw ∈ ["modulo", "mod", "remainder"] then .Modulo
  else if lw ∈ ["is", "it\x27s"] then .Is
  else if lw = "it" then .Identifier "it"
  else if lw ∈ ["are", "they\x27re"] then .Are
  else if lw ∈ ["equals", "equal"] then .Equals
  else if lw ∈ ["greater", "more", "bigger", "larger"] then .Greater
  else if lw ∈ ["less", "fewer", "smaller"] then .Less
  else if lw = "than" then .Than
  else if lw ∈ ["not", "isn\x27t", "aren\x27t", "doesn\x27t", "don\x27t"] then .Not
  else if lw = "and" then .And
  else if lw = "or" then .Or
  else if lw ∈ ["from", "starting"] then .From
  else if lw = "up" then .To
  else if lw = "between" then .Between
  else if lw = "through" then .Through
  else if lw ∈ ["in", "inside", "within"] then .In
  else if lw = "of" then .Of
  else if lw ∈ ["on", "at"] then .On
  else if lw = "the" then .The
  else if lw = "a" then .A
  else if lw = "an" then .An
  else if lw = "all" then .All
  else if lw = "by" then .By
  else if lw ∈ ["number", "numbers"] then .Number
  else if lw ∈ ["float", "decimal", "real"] then .Float
  else if lw ∈ ["int", "integer"] then .Int
  else if lw ∈ ["text", "string", "message"] then .Text
  else if lw ∈ ["boolean", "bool", "flag"] then .Boolean
  else if lw ∈ ["list", "array", "collection"] then .List
  else if lw ∈ ["true", "yes"] then .True
  else if lw ∈ ["false", "no"] then .False
  else if lw = "even" then .Even
  else if lw = "odd" then .Odd
  else if lw = "positive" then .Positive
  else if lw = "negative" then .Negative
  else if lw = "zero" then .Zero
  else if lw ∈ ["empty", "nothing", "null", "nil"] then .Empty
  else if lw ∈ ["open", "opened"] then .Open
  else if lw = "read" then .Read
  else if lw = "write" then .Write
  else if lw ∈ ["close", "closed"] then .Close
  else if lw ∈ ["delete", "remove"] then .Delete
  else if lw ∈ ["exists", "exist"] then .Exists
  else if lw ∈ ["resize", "reallocate", "grow", "shrink"] then .Resize
  else if lw = "buffer" then .Buffer
  else if lw = "file" then .File
  else if lw = "bytes" then .Bytes
  else if lw ∈ ["size", "length"] then .Size
  else if lw = "capacity" then .Capacity
  else if lw = "into" then .Into
  else if lw = "reading" then .Reading
  else if lw = "writing" then .Writing
  else if lw = "appending" then .Appending
  else if lw = "standard" then .Standard
  else if lw = "input" then .Input
  else if lw = "error" then .Error
  else if lw = "stderr" then .Stderr
  else if lw ∈ ["auto", "automatic"] then .Auto
  else if lw = "catching" then .Catching
  else if lw ∈ ["enable", "enabled"] then .Enable
  else if lw ∈ ["disable", "disabled"] then .Disable
  else if lw ∈ ["descriptor", "fd"] then .Descriptor
  else if lw = "modified" then .Modified
  else if lw = "accessed" then .Accessed
  else if lw ∈ ["permissions", "perms"] then .Permissions
  else if lw = "readable" then .Readable
  else if lw = "writable" then .Writable
  else if lw = "full" then .Full
  else if lw = "first" then .First
  else if lw = "last" then .Last
  else if lw ∈ ["absolute", "abs"] then .Absolute
  else if lw = "sign" then .Sign
  else if lw ∈ ["see", "import", "include", "require"] then .See
  else if lw ∈ ["library", "lib"] then .Library
  else if lw ∈ ["version", "ver"] then .Version
  else if lw ∈ ["argument", "arg", "param", "parameter"] then .Argument
  else if lw ∈ ["arguments", "args", "params", "parameters"] then .Arguments
  else if lw ∈ ["environment", "env"] then .Environment
  else if lw ∈ ["variable", "var"] then .Variable
  else if lw = "count" then .Count
  else if lw ∈ ["treating", "treat"] then .Treating
  else if lw ∈ ["wait", "pause"] then .Wait
  else if lw ∈ ["sleep", "delay"] then .Sleep
  else if lw ∈ ["timer", "stopwatch"] then .Timer
  else if lw = "start" then .Identifier "start"
  else if lw = "begin" then .Begin
  else if lw = "finish" then .Finish
  else if lw ∈ ["get", "fetch", "retrieve"] then .Get
  else if lw = "current" then .Current
  else if lw = "time" then .Time
  else if lw = "second" then .Second
  else if lw = "seconds" then .Seconds
  else if lw = "millisecond" then .Millisecond
  else if lw ∈ ["milliseconds", "ms"] then .Milliseconds
  else if lw = "duration" then .Duration
  else if lw = "elapsed" then .Elapsed
  else if lw ∈ ["hour", "hours"] then .Hour
  else if lw ∈ ["minute", "minutes"] then .Minute
  else if lw ∈ ["day", "days"] then .Day
  else if lw ∈ ["month", "months"] then .Month
  else if lw ∈ ["year", "years"] then .Year
  else if lw ∈ ["unix", "unixtime", "timestamp"] then .Unix
  else if lw = "running" then .Running
  else if lw = "as" then .As
  else if lw = "bit-and" then .BitAnd
  else if lw = "bit-or" then .BitOr
  else if lw = "bit-xor" then .BitXor
  else if lw = "bit-not" then .BitNot
  else if lw = "bit-shift-left" then .BitShiftLeft
  else if lw = "bit-shift-right" then .BitShiftRight
  else if lw = "byte" then .Byte
  else if lw = "element" then .Element
  else if lw = "without" then .Without
  else .Identifier word

/-- Character class of `Lexer::read_word`'s collection loop:
`ch.is_alphanumeric() || ch == '_' || ch == '-'` (ASCII fragment). -/
def isWordChar (c : Char) : Bool := c.isAlphanum || c = '_' || c = '-'

/-- The collection loop of `Lexer::read_word`: take the maximal run of word
characters. -/
def readWordRun : List Char → (List Char × List Char)
  | [] => ([], [])
  | c :: rest =>
    if isWordChar c then
      let (w, r) := readWordRun rest
      (c :: w, r)
    else ([], c :: rest)

/-- `Lexer::read_word`: collect the word starting with `first`, then map it
through the keyword table. -/
def read_word (first : Char) (input : List Char) : Token × List Char :=
  let (w, rest) := readWordRun input
  (read_word_token (String.mk (first :: w)), rest)

/-- The character class `is_ascii_hexdigit`. -/
def isHexDigitChar (c : Char) : Bool :=
  c.isDigit || (decide ('a' ≤ c) && decide (c ≤ 'f')) || (decide ('A' ≤ c) && decide (c ≤ 'F'))

/-- Numeric value of a digit character in a given base (`0`–`9`, `a`–`f`,
`A`–`F`). -/
def digitVal (c : Char) : Nat :=
  if c.isDigit then c.toNat - '0'.toNat
  else if 'a' ≤ c ∧ c ≤ 'f' then c.toNat - 'a'.toNat + 10
  else if 'A' ≤ c ∧ c ≤ 'F' then c.toNat - 'A'.toNat + 10
  else 0

/-- Value denoted by a digit string in a given base. -/
def digitsVal (base : Nat) (ds : List Char) : Nat :=
  ds.foldl (fun acc c => acc * base + digitVal c) 0

/-- Largest `i64` value. -/
def i64Max : Nat := 2 ^ 63 - 1

/-- Model of Rust `i64::from_str` / `i64::from_str_radix` on an unsigned digit
string: the denoted value when it fits into an `i64`, `none` on overflow. -/
def rustParseI64 (base : Nat) (ds : List Char) : Option Int :=
  if ds.isEmpty then none
  else if digitsVal base ds ≤ i64Max then some (digitsVal base ds) else none

/-- The digit-collection loop of `Lexer::read_number`: gathers digits and at
most one decimal point, a dot being consumed only when the next character is
again a digit.  Returns the collected literal text, the float flag and the
rest of the input. -/
def readNumRun : List Char → List Char → Bool → (List Char × Bool × List Char)
  | [], acc, isFloat => (acc, isFloat, [])
  | c :: rest, acc, isFloat =>
    if c.isDigit then readNumRun rest (acc ++ [c]) isFloat
    else if c = '.' ∧ isFloat = false then
      match rest with
      | d :: _ =>
        if d.isDigit then readNumRun rest (acc ++ [c]) true
        else (acc, isFloat, c :: rest)
      | [] => (acc, isFloat, c :: rest)
    else (acc, isFloat, c :: rest)

/-- `Lexer::read_hex_number`: consume hex digits; an out-of-range or empty
literal silently becomes `IntegerLiteral(0)` via `unwrap_or(0)`. -/
def read_hex_number (input : List Char) : Token × List Char :=
  let digits := input.takeWhile isHexDigitChar
  let rest := input.dropWhile isHexDigitChar
  if digits.isEmpty then (.IntegerLiteral 0, rest)
  else (.IntegerLiteral ((rustParseI64 16 digits).getD 0), rest)

/-- `Lexer::read_binary_number`: consume binary digits with the same
`unwrap_or(0)` behaviour. -/
def read_binary_number (input : List Char) : Token × List Char :=
  let digits := input.takeWhile (fun c => decide (c = '0') || decide (c = '1'))
  let rest := input.dropWhile (fun c => decide (c = '0') || decide (c = '1'))
  if digits.isEmpty then (.IntegerLiteral 0, rest)
  else (.IntegerLiteral ((rustParseI64 2 digits).getD 0), rest)

/-- `Lexer::read_number`: dispatch on a `0x`/`0b` prefix (the early returns of
the Rust function), otherwise collect a decimal or float literal; integer
parses fall back to 0 via `unwrap_or(0)`. -/
def read_number (first : Char) (input : List Char) : Token × List Char :=
  let hexbin : Option (Token × List Char) :=
    if first = '0' then
      match input with
      | c :: rest =>
        if c = 'x' ∨ c = 'X' then some (read_hex_number rest)
        else if c = 'b' ∨ c = 'B' then some (read_binary_number rest)
        else none
      | [] => none
    else none
  match hexbin with
  | some r => r
  | none =>
    let (num, isFloat, r) := readNumRun input [first] false
    if isFloat then (.FloatLiteral (String.mk num), r)
    else (.IntegerLiteral ((rustParseI64 10 num).getD 0), r)

/-- Escape mapping shared by the string readers and character literals. -/
def escChar (quote : Char) (c : Char) : Char :=
  if c = 'n' then '\n'
  else if c = 't' then '\t'
  else if c = 'r' then '\r'
  else if c = '\\' then '\\'
  else if c = quote then quote
  else c

/-- `Lexer::read_string`: read up to the closing double quote, decoding
escapes. -/
def read_string : List Char → (String × List Char)
  | [] => ("", [])
  | c :: rest =>
    if c = '"' then ("", rest)
    else if c = '\\' then
      match rest with
      | [] => ("", [])
      | e :: rest2 =>
        let (s, r) := read_string rest2
        (String.mk (escChar '"' e :: s.data), r)
    else
      let (s, r) := read_string rest
      (String.mk (c :: s.data), r)

/-- `Lexer::read_single_quoted_string`: like `read_string` with a single-quote
terminator. -/
def read_single_quoted_string : List Char → (String × List Char)
  | [] => ("", [])
  | c :: rest =>
    if c = '\x27' then ("", rest)
    else if c = '\\' then
      match rest with
      | [] => ("", [])
      | e :: rest2 =>
        let (s, r) := read_single_quoted_string rest2
        (String.mk (escChar '\x27' e :: s.data), r)
    else
      let (s, r) := read_single_quoted_string rest
      (String.mk (c :: s.data), r)

/-- `Lexer::skip_comment` with the running paren depth made explicit. -/
def skip_comment : List Char → Nat → List Char
  | [], _ => []
  | c :: rest, depth =>
    if c = '(' then skip_comment rest (depth + 1)
    else if c = ')' then
      if depth = 1 then rest else skip_comment rest (depth - 1)
    else skip_comment rest depth

/-- `Lexer::skip_whitespace`: spaces, tabs and carriage returns. -/
def skip_whitespace : List Char → List Char
  | [] => []
  | c :: rest =>
    if c = ' ' ∨ c = '\t' ∨ c = '\r' then skip_whitespace rest else c :: rest

/-- `Lexer::is_char_literal` on the input following the opening quote. -/
def is_char_literal (input : List Char) : Bool :=
  match input with
  | '\\' :: _ :: close :: _ => close = '\x27'
  | '\\' :: _ => false
  | _ :: close :: _ => close = '\x27'
  | _ => false

/-- The scanning loop of `Lexer::is_single_quoted_identifier`. -/
def sqScan : List Char → Nat → Bool
  | [], _ => false
  | c :: rest, count =>
    if c = '\x27' then decide (count > 0)
    else if c = '\n' then false
    else sqScan rest (count + 1)

/-- `Lexer::is_single_quoted_identifier` on the input following the quote. -/
def is_single_quoted_identifier (input : List Char) : Bool :=
  match input with
  | c :: rest =>
    if c = 's' ∨ c = 'S' then
      match rest with
      | c2 :: _ =>
        if c2.isWhitespace ∨ c2 = '.' ∨ c2 = ',' ∨ c2 = '\x27' then false
        else sqScan input 0
      | [] => false
    else sqScan input 0
  | [] => false

/-- `Lexer::read_char_literal` on the input following the opening quote:
yields the character's code point, consuming a closing quote when present. -/
def read_char_literal (input : List Char) : Token × List Char :=
  let (ch, rest) :=
    match input with
    | '\\' :: e :: r =>
      (if e = 'n' then '\n'
       else if e = 't' then '\t'
       else if e = 'r' then '\r'
       else if e = '\\' then '\\'
       else if e = '\x27' then '\x27'
       else if e = '0' then Char.ofNat 0
       else e, r)
    | '\\' :: [] => (Char.ofNat 0, [])
    | c :: r => (c, r)
    | [] => (Char.ofNat 0, [])
  match rest with
  | '\x27' :: r2 => (.IntegerLiteral ch.toNat, r2)
  | _ => (.IntegerLiteral ch.toNat, rest)

/-- The newline-collapsing loop inside `Lexer::tokenize`: count consecutive
newlines, skipping interleaved spaces, tabs and carriage returns. -/
def newlineRun : List Char → Nat → (Nat × List Char)
  | [], count => (count, [])
  | c :: rest, count =>
    if c = '\n' then newlineRun rest (count + 1)
    else if c = ' ' ∨ c = '\t' ∨ c = '\r' then newlineRun rest count
    else (count, c :: rest)

/-- The dispatch loop of `Lexer::tokenize`, with explicit fuel (each iteration
consumes at least one character, so `length + 1` fuel suffices).  Positions
are not tracked. -/
def tokenizeGo : Nat → List Char → List Token
  | 0, _ => []
  | fuel + 1, input =>
    match skip_whitespace input with
    | [] => [.EOF]
    | ch :: rest =>
      if ch = '\n' then
        let (count, r) := newlineRun rest 1
        (if count ≥ 2 then Token.ParagraphBreak else Token.Newline) :: tokenizeGo fuel r
      else if ch = '.' then .Period :: tokenizeGo fuel rest
      else if ch = ',' then .Comma :: tokenizeGo fuel rest
      else if ch = ':' then .Colon :: tokenizeGo fuel rest
      else if ch = '(' then tokenizeGo fuel (skip_comment rest 1)
      else if ch = ')' then tokenizeGo fuel rest
      else if ch = '[' then .OpenBracket :: tokenizeGo fuel rest
      else if ch = ']' then .CloseBracket :: tokenizeGo fuel rest
      else if ch = '-' then .Minus :: tokenizeGo fuel rest
      else if ch = '\x27' then
        if is_char_literal rest then
          let (t, r) := read_char_literal rest
          t :: tokenizeGo fuel r
        else if is_single_quoted_identifier rest then
          let (s, r) := read_single_quoted_string rest
          .Identifier s :: tokenizeGo fuel r
        else .Apostrophe :: tokenizeGo fuel rest
      else if ch = '"' then
        let (s, r) := read_string rest
        .StringLiteral s :: tokenizeGo fuel r
      else if ch.isDigit then
        let (t, r) := read_number ch rest
        t :: tokenizeGo fuel r
      else if ch.isAlpha then
        let (t, r) := read_word ch rest
        t :: tokenizeGo fuel r
      else tokenizeGo fuel rest

/-- `Lexer::tokenize` (ASCII fragment; `is_alphabetic`/`is_alphanumeric`
restricted to their ASCII parts). -/
def tokenize (s : String) : List Token :=
  tokenizeGo (s.data.length + 1) s.data


/-- All synonym strings accepted by `Token::string_is_keyword`, one entry per
string pattern of its table, in table order. -/
def keywordSynonyms : List String :=
  [
   "print", "say", "display", "output", "show", "set", "assign", "let",
   "make", "put", "create", "declare", "define", "add", "plus", "subtract",
   "minus", "multiply", "times", "divide", "over", "increment", "increase", "decrement",
   "decrease", "call", "invoke", "run", "execute", "allocate", "free", "deallocate",
   "release", "modulo", "mod", "remainder", "if", "when", "then", "else",
   "but", "otherwise", "while", "until", "for", "each", "every", "loop",
   "repeat", "break", "stop", "continue", "skip", "return", "give", "respond",
   "reply", "exit", "quit", "terminate", "end", "halt", "abort", "with",
   "using", "given", "taking", "called", "named", "is", "equals", "equal",
   "==", "are", "greater", "more", "larger", "bigger", "higher", "above",
   "less", "smaller", "lower", "below", "fewer", "than", "not", "!",
   "and", "&&", "or", "||", "from", "starting", "to", "up",
   "between", "through", "in", "inside", "within", "of", "on", "at",
   "the", "a", "an", "all", "by", "treating", "treat", "number",
   "numbers", "float", "decimal", "real", "int", "integer", "text", "string",
   "message", "boolean", "bool", "flag", "list", "array", "collection", "true",
   "yes", "false", "no", "buffer", "file", "bytes", "byte", "size",
   "length", "into", "reading", "writing", "appending", "standard", "input", "open",
   "opened", "read", "write", "close", "closed", "delete", "remove", "exists",
   "exist", "resize", "reallocate", "grow", "shrink", "even", "odd", "positive",
   "negative", "zero", "empty", "nothing", "null", "nil", "capacity", "descriptor",
   "fd", "modified", "accessed", "permissions", "perms", "readable", "writable", "full",
   "first", "last", "absolute", "abs", "sign", "error", "stderr", "auto",
   "automatic", "catching", "enable", "enabled", "disable", "disabled", "see", "import",
   "include", "require", "library", "lib", "version", "ver", "argument", "arg",
   "param", "parameter", "arguments", "args", "params", "parameters", "environment", "env",
   "variable", "var", "count", "wait", "pause", "sleep", "delay", "timer",
   "stopwatch", "begin", "finish", "get", "fetch", "retrieve", "current", "time",
   "second", "seconds", "millisecond", "milliseconds", "ms", "duration", "elapsed", "hour",
   "hours", "minute", "minutes", "day", "days", "month", "months", "year",
   "years", "unix", "unixtime", "timestamp", "running", "as"]

/-- The synonyms of `Token::string_is_keyword` whose token under
`Lexer::read_word` differs from their canonical form's token. -/
def divergentSynonyms : List String :=
  ["say", "output", "let", "make", "put", "declare", "times", "over",
   "increase", "decrease", "execute", "repeat", "respond", "reply", "end",
   "halt", "abort", "using", "given", "taking", "equals", "equal", "==",
   "higher", "above", "lower", "below", "!", "&&", "||", "finish"]

/-- C2 as stated by the spec: every synonym tokenizes to the same token as its
canonical keyword. -/
def keywordClosureClaim : Prop :=
  ∀ s c, Token.string_is_keyword s = some c → tokenize s = tokenize c

/-! ### parser/ast.rs: the AST fragment used by the claims

The mutually inductive lists (`ExprList`, `StmtList`, …) stand for Rust
`Vec`s of the nested node type; explicit mutual inductives keep all
recursions structural (and hence kernel-computable).  Only the constructors
exercised by the claims are present; the parser maps source arms outside this
fragment to the distinguished `CompileError.unmodeled`. -/

inductive UnaryOperator where
  | Negate | Not
deriving DecidableEq

inductive BinaryOperator where
  | Add | Subtract | Multiply | Divide | Modulo
  | Equal | NotEqual | Greater | Less | GreaterEqual | LessEqual
  | And | Or | BitAnd | BitOr | BitXor | ShiftLeft | ShiftRight
deriving DecidableEq

inductive Property where
  | Even | Odd | Positive | Negative | Zero | Empty
deriving DecidableEq

inductive VType where
  | Integer | Float | String | Boolean | ListT | Buffer | Unknown
deriving DecidableEq

/-- The per-synonym check behind the amended C2 theorem: either the synonym
is one of the divergent ones, or it tokenizes like its canonical form. -/
def synOkB (s : String) : Bool :=
  decide (s ∈ divergentSynonyms) ||
  (match Token.string_is_keyword s with
   | some c => decide (tokenize s = tokenize c)
   | none => true)

mutual
inductive Expr where
  | IntegerLit (n : Int)
  | FloatLit (text : String)
  | StringLit (s : String)
  | BoolLit (b : Bool)
  | Identifier (name : String)
  | BinaryOp (left : Expr) (op : BinaryOperator) (right : Expr)
  | UnaryOp (op : UnaryOperator) (operand : Expr)
  | PropertyCheck (value : Expr) (property : Property)
  | FunctionCall (name : String) (args : ExprList)
  | FormatString (parts : FormatPartList)
  | ListAccess (list : Expr) (index : Expr)
  | ElementAccess (list : Expr) (index : Expr)

inductive ExprList where
  | nil
  | cons (head : Expr) (tail : ExprList)

inductive FormatPart where
  | Literal (s : String)
  | Variable (name : String) (format : Option String)
  | Expression (expr : Expr) (format : Option String)

inductive FormatPartList where
  | nil
  | cons (head : FormatPart) (tail : FormatPartList)
end

mutual
inductive Statement where
  | Print (value : Expr) (without_newline : Bool)
  | VarDecl (name : String) (var_type : Option VType) (value : Option Expr)
  | Assignment (name : String) (value : Expr)
  | If (condition : Expr) (then_block : StmtList) (else_if_blocks : ElifList)
       (else_block : Option StmtList)
  | While (condition : Expr) (body : StmtList)
  | Return (value : Option Expr)
  | Exit (code : Expr)
  | BufferDecl (name : String) (size : Expr)
  | FunctionCallS (name : String) (args : ExprList)

inductive StmtList where
  | nil
  | cons (head : Statement) (tail : StmtList)

inductive ElifList where
  | nil
  | cons (cond : Expr) (block : StmtList) (rest : ElifList)
end

/-- The format spec attached to a format part (`None` on literals). -/
def FormatPart.format : FormatPart → Option String
  | .Literal _ => none
  | .Variable _ f => f
  | .Expression _ f => f

def FormatPartList.isEmptyFP : FormatPartList → Bool
  | .nil => true
  | .cons _ _ => false

/-- `parts.iter().any(|p| matches!(p, Variable | Expression))`. -/
def FormatPartList.anyVarExpr : FormatPartList → Bool
  | .nil => false
  | .cons (.Literal _) rest => rest.anyVarExpr
  | .cons (.Variable _ _) _ => true
  | .cons (.Expression _ _) _ => true

/-! ### parser/mod.rs: the recursive-descent parser fragment

The parser state is the token vector plus the cursor `pos`; every function
returns the parsed node together with the new cursor, or a `CompileError`.
Mutual recursion is made structural on an explicit fuel argument (the Rust
recursion is bounded by the input, so any sufficiently large fuel gives the
source behaviour; `fuelExhausted` never arises for the fuels used in the
theorems).  Source locations and suggestion lookups attached to errors are
not modelled; messages are carried structurally. -/

inductive CompileError where
  | err (message : String)
  | expectedGot (expected : String) (got : Token)
  | expectedToken (expected : String) (actual : Token)
  | reservedKeyword (keyword : String)
  | reservedBufferName (name : String)
  | invalidBufferSize (bufferName : String) (reason : String) (exampleText : String)
  | unmodeled
  | fuelExhausted
deriving DecidableEq

/-- `Parser::current` — the token at the cursor, `EOF` past the end. -/
def currentTok (toks : List Token) (pos : Nat) : Token := toks.getD pos .EOF

def skipNoiseGo : Nat → List Token → Nat → Nat
  | 0, _, pos => pos
  | f + 1, toks, pos =>
    if currentTok toks pos = .Newline then skipNoiseGo f toks (pos + 1) else pos

/-- `Parser::skip_noise`: advance over newline tokens. -/
def skip_noise (toks : List Token) (pos : Nat) : Nat :=
  skipNoiseGo (toks.length + 1) toks pos

/-- `Parser::expect`: consume the expected token if present, reporting
whether it was. -/
def expectTok (toks : List Token) (pos : Nat) (t : Token) : Bool × Nat :=
  if currentTok toks pos = t then (true, pos + 1) else (false, pos)

def hasAreAheadGo (toks : List Token) (pos : Nat) : Nat → Nat → Bool
  | _, 0 => false
  | i, r + 1 =>
    match toks.getD (pos + i) .EOF with
    | .Are => true
    | .Period => false
    | .EOF => false
    | .ParagraphBreak => false
    | .Is => false
    | _ => hasAreAheadGo toks pos (i + 1) r

/-- `Parser::has_are_ahead`: look for `are` within the next 19 tokens,
stopping at sentence boundaries. -/
def has_are_ahead (toks : List Token) (pos : Nat) : Bool :=
  hasAreAheadGo toks pos 1 19

/-- Split a placeholder at the first `:` (`str::find(':')` plus slicing):
the part before it and, when a colon exists, the verbatim suffix. -/
def splitFirstColon : List Char → List Char × Option (List Char)
  | [] => ([], none)
  | c :: rest =>
    if c = ':' then ([], some rest)
    else
      let (a, b) := splitFirstColon rest
      (c :: a, b)

/-- `str::trim` (ASCII whitespace). -/
def trimChars (l : List Char) : List Char :=
  ((l.dropWhile Char.isWhitespace).reverse.dropWhile Char.isWhitespace).reverse

/-- The placeholder-content loop of `parse_format_string`: collect characters
up to and including the closing brace. -/
def collectPlaceholder : List Char → List Char × List Char
  | [] => ([], [])
  | c :: rest =>
    if c = '}' then ([], rest)
    else
      let (a, b) := collectPlaceholder rest
      (c :: a, b)

/-- `s.starts_with("{{")`. -/
def startsWithDoubleBrace (s : String) : Bool :=
  match s.data with
  | c1 :: c2 :: _ => c1 = '{' ∧ c2 = '{'
  | _ => false

/-- The token-class test of the conditional-print / function-call separators. -/
def tokIn (t : Token) (l : List Token) : Bool := l.contains t

/-- The desugaring fold at the end of `parse_conditional_print`: wrap the
collected `(condition, value)` pairs, in reverse, around the default print. -/
def buildChain (conds : List (Expr × Expr)) (default : Expr) : Statement :=
  conds.reverse.foldl
    (fun result cv =>
      .If cv.1 (.cons (.Print cv.2 false) .nil) .nil (some (.cons result .nil)))
    (.Print default false)

/-- An `Identifier` spelling "newline" (case-insensitively). -/
def isNewlineIdent : Token → Bool
  | .Identifier s => strToLower s = "newline"
  | _ => false

/-- Call descriptors for the mutually recursive parser entry points.  The
mutual recursion of the source is defunctionalised into a single
fuel-structural function `parseStep` so that every parse is a closed
kernel-reducible computation; each constructor stands for one source
function (plus its loop states). -/
inductive PCall : Type
  | primary (toks : List Token) (pos : Nat)
  | callArgs (toks : List Token) (pos : Nat)
  | bitwise (toks : List Token) (pos : Nat)
  | bitwiseLoop (toks : List Token) (left : Expr) (pos : Nat)
  | multiplicative (toks : List Token) (pos : Nat)
  | multiplicativeLoop (toks : List Token) (left : Expr) (pos : Nat)
  | additive (toks : List Token) (pos : Nat)
  | additiveLoop (toks : List Token) (left : Expr) (pos : Nat)
  | expression (toks : List Token) (pos : Nat)
  | comparison (toks : List Token) (pos : Nat)
  | andExpr (toks : List Token) (pos : Nat)
  | andLoop (toks : List Token) (left : Expr) (pos : Nat)
  | orExpr (toks : List Token) (pos : Nat)
  | orLoop (toks : List Token) (left : Expr) (pos : Nat)
  | condition (toks : List Token) (pos : Nat)
  | formatGo (chars : List Char) (lit : List Char)
  | placeholder (pc : List Char)
  | tryParse (content : String)
  | reparse (content : String)
  | formatString (s : String)
  | printS (toks : List Token) (pos : Nat)
  | printValue (toks : List Token) (pos : Nat)
  | printTail (toks : List Token) (value : Expr) (wn : Bool) (pos : Nat)
  | condPrint (toks : List Token) (pos : Nat) (default : Expr)
  | collectC (toks : List Token) (pos : Nat) (acc : List (Expr × Expr))

/-- Results of the defunctionalised parser calls, one shape per return type
of the source functions. -/
inductive PRes : Type
  | expr (r : Except CompileError (Expr × Nat))
  | exprList (r : Except CompileError (ExprList × Nat))
  | stmt (r : Except CompileError (Statement × Nat))
  | fparts (r : FormatPartList)
  | fpart (r : FormatPart)
  | oexpr (r : Option Expr)
  | conds (r : Except CompileError (List (Expr × Expr) × Nat))

/-- Extract an expression result (plumbing of the defunctionalisation; the
mismatch default is never hit on the shapes `parseStep` actually produces). -/
def PRes.asExpr : PRes → Except CompileError (Expr × Nat)
  | .expr r => r
  | _ => .error .fuelExhausted

/-- Extract a call-argument-list result. -/
def PRes.asArgs : PRes → Except CompileError (ExprList × Nat)
  | .exprList r => r
  | _ => .error .fuelExhausted

/-- Extract a statement result. -/
def PRes.asStmt : PRes → Except CompileError (Statement × Nat)
  | .stmt r => r
  | _ => .error .fuelExhausted

/-- Extract a condition-list result. -/
def PRes.asConds : PRes → Except CompileError (List (Expr × Expr) × Nat)
  | .conds r => r
  | _ => .error .fuelExhausted

/-- Extract a format-part-list result. -/
def PRes.asParts : PRes → FormatPartList
  | .fparts r => r
  | _ => .nil

/-- Extract a single format-part result. -/
def PRes.asPart : PRes → FormatPart
  | .fpart r => r
  | _ => .Literal ""

/-- Extract an optional-expression result. -/
def PRes.asOExpr : PRes → Option Expr
  | .oexpr r => r
  | _ => none

/-- Fuel-exhausted value of each call shape. -/
def PCall.outOfFuel : PCall → PRes
  | .callArgs _ _ => .exprList (.error .fuelExhausted)
  | .formatGo _ _ => .fparts .nil
  | .formatString _ => .fparts .nil
  | .placeholder _ => .fpart (.Literal "")
  | .tryParse _ => .oexpr none
  | .reparse _ => .oexpr none
  | .printS _ _ => .stmt (.error .fuelExhausted)
  | .printValue _ _ => .stmt (.error .fuelExhausted)
  | .printTail _ _ _ _ => .stmt (.error .fuelExhausted)
  | .condPrint _ _ _ => .stmt (.error .fuelExhausted)
  | .collectC _ _ _ => .conds (.error .fuelExhausted)
  | _ => .expr (.error .fuelExhausted)

/-- One step of the defunctionalised mutually recursive parser.  Each arm is
the body of the corresponding source function; recursive calls go through
`parseStep` at strictly smaller fuel, so the whole parser is structurally
recursive on fuel and reduces inside the kernel.  The per-arm transcription
notes of the original definitions are kept on the wrapper definitions
below. -/
def parseStep : Nat → PCall → PRes
  | 0, c => c.outOfFuel
  | fuel + 1, c =>
    match c with
    | .primary toks pos0 =>
      let pos := skip_noise toks pos0
      .expr (match currentTok toks pos with
      | .Not => do
        let p1 := skip_noise toks (pos + 1)
        let (operand, p2) ← (parseStep fuel (.primary toks p1)).asExpr
        .ok (.UnaryOp .Not operand, p2)
      | .Minus => do
        let p1 := skip_noise toks (pos + 1)
        let (operand, p2) ← (parseStep fuel (.primary toks p1)).asExpr
        .ok (.UnaryOp .Negate operand, p2)
      | .IntegerLiteral n => .ok (.IntegerLit n, pos + 1)
      | .FloatLiteral t => .ok (.FloatLit t, pos + 1)
      | .StringLiteral s =>
        let p1 := skip_noise toks (pos + 1)
        let parts := (parseStep fuel (.formatGo s.data [])).asParts
        if (s.data.contains '{' ∧ ¬ startsWithDoubleBrace s)
            ∧ (¬ parts.isEmptyFP ∧ parts.anyVarExpr) then
          .ok (.FormatString parts, p1)
        else if tokIn (currentTok toks p1) [.Of, .To, .With, .On] then do
          let p2 := skip_noise toks (p1 + 1)
          let (args, p3) ← (parseStep fuel (.callArgs toks p2)).asArgs
          .ok (.FunctionCall s args, p3)
        else if currentTok toks p1 = .Apostrophe then .error .unmodeled
        else .ok (.StringLit s, p1)
      | .True => .ok (.BoolLit true, pos + 1)
      | .False => .ok (.BoolLit false, pos + 1)
      | .Identifier name =>
        let p1 := skip_noise toks (pos + 1)
        if currentTok toks p1 = .Apostrophe then .error .unmodeled
        else .ok (.Identifier name, p1)
      | .Byte => .error .unmodeled
      | .Element => .error .unmodeled
      | .Current => .error .unmodeled
      | .Arguments => .error .unmodeled
      | .Argument => .error .unmodeled
      | .Environment => .error .unmodeled
      | .OpenBracket => .error .unmodeled
      | .All => .error .unmodeled
      | .Number => .error .unmodeled
      | .The => .error .unmodeled
      | .A => .error .unmodeled
      | .An => .error .unmodeled
      | t => .error (.expectedGot "a statement" t))
    | .callArgs toks pos =>
      .exprList (do
      let (arg, p) ← (parseStep fuel (.expression toks pos)).asExpr
      let p1 := skip_noise toks p
      if currentTok toks p1 = .Comma then
        let p2 := skip_noise toks (p1 + 1)
        if currentTok toks p2 = .And then do
          let p3 := skip_noise toks (p2 + 1)
          let (rest, p4) ← (parseStep fuel (.callArgs toks p3)).asArgs
          .ok (.cons arg rest, p4)
        else .ok (.cons arg .nil, p2)
      else if currentTok toks p1 = .And then do
        let p2 := skip_noise toks (p1 + 1)
        let (rest, p3) ← (parseStep fuel (.callArgs toks p2)).asArgs
        .ok (.cons arg rest, p3)
      else .ok (.cons arg .nil, p1))
    | .bitwise toks pos =>
      .expr (do
      let (left, p) ← (parseStep fuel (.primary toks pos)).asExpr
      (parseStep fuel (.bitwiseLoop toks left p)).asExpr)
    | .bitwiseLoop toks left pos =>
      let p := skip_noise toks pos
      let op : Option BinaryOperator :=
        match currentTok toks p with
        | .BitAnd => some .BitAnd
        | .BitOr => some .BitOr
        | .BitXor => some .BitXor
        | .BitShiftLeft => some .ShiftLeft
        | .BitShiftRight => some .ShiftRight
        | _ => none
      .expr (match op with
      | some o => do
        let p1 := skip_noise toks (p + 1)
        let (right, p2) ← (parseStep fuel (.primary toks p1)).asExpr
        (parseStep fuel (.bitwiseLoop toks (.BinaryOp left o right) p2)).asExpr
      | none => .ok (left, p))
    | .multiplicative toks pos =>
      .expr (do
      let (left, p) ← (parseStep fuel (.bitwise toks pos)).asExpr
      (parseStep fuel (.multiplicativeLoop toks left p)).asExpr)
    | .multiplicativeLoop toks left pos =>
      let p := skip_noise toks pos
      let op : Option BinaryOperator :=
        match currentTok toks p with
        | .Multiply => some .Multiply
        | .Divide => some .Divide
        | .Modulo => some .Modulo
        | _ => none
      .expr (match op with
      | some o => do
        let p1 := skip_noise toks (p + 1)
        let (right, p2) ← (parseStep fuel (.bitwise toks p1)).asExpr
        (parseStep fuel (.multiplicativeLoop toks (.BinaryOp left o right) p2)).asExpr
      | none => .ok (left, p))
    | .additive toks pos =>
      .expr (do
      let (left, p) ← (parseStep fuel (.multiplicative toks pos)).asExpr
      (parseStep fuel (.additiveLoop toks left p)).asExpr)
    | .additiveLoop toks left pos =>
      let p := skip_noise toks pos
      let op : Option BinaryOperator :=
        match currentTok toks p with
        | .Add => some .Add
        | .Subtract => some .Subtract
        | _ => none
      .expr (match op with
      | some o => do
        let p1 := skip_noise toks (p + 1)
        let (right, p2) ← (parseStep fuel (.multiplicative toks p1)).asExpr
        (parseStep fuel (.additiveLoop toks (.BinaryOp left o right) p2)).asExpr
      | none => .ok (left, p))
    | .expression toks pos =>
      .expr (do
      let (expr, p) ← (parseStep fuel (.additive toks pos)).asExpr
      let p1 := skip_noise toks p
      if currentTok toks p1 = .As then .error .unmodeled
      else .ok (expr, p1))
    | .comparison toks pos =>
      .expr (do
      let (left, p) ← (parseStep fuel (.expression toks pos)).asExpr
      let p1 := skip_noise toks p
      if currentTok toks p1 = .Comma ∧ has_are_ahead toks p1 then .error .unmodeled
      else if tokIn (currentTok toks p1) [.Is, .Are] then
        let p2 := skip_noise toks (p1 + 1)
        let (negated, p3) :=
          if currentTok toks p2 = .Not then (true, skip_noise toks (p2 + 1))
          else (false, p2)
        let property : Option Property :=
          match currentTok toks p3 with
          | .Even => some .Even
          | .Odd => some .Odd
          | .Positive => some .Positive
          | .Negative => some .Negative
          | .Zero => some .Zero
          | .Empty => some .Empty
          | _ => none
        match property with
        | some prop =>
          let check := Expr.PropertyCheck left prop
          if negated then .ok (.UnaryOp .Not check, p3 + 1) else .ok (check, p3 + 1)
        | none =>
          if tokIn (currentTok toks p3) [.Greater, .Less] then do
            let isGreater := currentTok toks p3 = .Greater
            let p4 := skip_noise toks (p3 + 1)
            let (_, p5) := expectTok toks p4 .Than
            let p6 := skip_noise toks p5
            let (isEqual, p7) :=
              if currentTok toks p6 = .Or then
                let q1 := skip_noise toks (p6 + 1)
                let (_, q2) := expectTok toks q1 .Equal
                let (_, q3) := expectTok toks q2 .Equals
                let (_, q4) := expectTok toks q3 .To
                (true, skip_noise toks q4)
              else (false, p6)
            let (right, p8) ← (parseStep fuel (.expression toks p7)).asExpr
            let op : BinaryOperator :=
              if isGreater then
                if isEqual then (if negated then .Less else .GreaterEqual)
                else (if negated then .LessEqual else .Greater)
              else
                if isEqual then (if negated then .Greater else .LessEqual)
                else (if negated then .GreaterEqual else .Less)
            .ok (.BinaryOp left op right, p8)
          else if tokIn (currentTok toks p3) [.Equals, .Equal] then do
            let p4 := skip_noise toks (p3 + 1)
            let p5 := if currentTok toks p4 = .To then skip_noise toks (p4 + 1) else p4
            let (right, p6) ← (parseStep fuel (.expression toks p5)).asExpr
            .ok (.BinaryOp left (if negated then .NotEqual else .Equal) right, p6)
          else do
            let (right, p4) ← (parseStep fuel (.expression toks p3)).asExpr
            .ok (.BinaryOp left (if negated then .NotEqual else .Equal) right, p4)
      else .ok (left, p1))
    | .andExpr toks pos =>
      .expr (do
      let (left, p) ← (parseStep fuel (.comparison toks pos)).asExpr
      (parseStep fuel (.andLoop toks left p)).asExpr)
    | .andLoop toks left pos =>
      .expr (if currentTok toks pos = .And then do
        let p1 := skip_noise toks (pos + 1)
        let (right, p2) ← (parseStep fuel (.comparison toks p1)).asExpr
        (parseStep fuel (.andLoop toks (.BinaryOp left .And right) p2)).asExpr
      else .ok (left, pos))
    | .orExpr toks pos =>
      .expr (do
      let (left, p) ← (parseStep fuel (.andExpr toks pos)).asExpr
      (parseStep fuel (.orLoop toks left p)).asExpr)
    | .orLoop toks left pos =>
      .expr (if currentTok toks pos = .Or then do
        let p1 := skip_noise toks (pos + 1)
        let (right, p2) ← (parseStep fuel (.andExpr toks p1)).asExpr
        (parseStep fuel (.orLoop toks (.BinaryOp left .Or right) p2)).asExpr
      else .ok (left, pos))
    | .condition toks pos =>
      .expr ((parseStep fuel (.orExpr toks pos)).asExpr)
    | .formatGo chars lit =>
      .fparts (match chars with
      | [] =>
        match lit with
        | [] => .nil
        | _ => .cons (.Literal (String.mk lit)) .nil
      | '{' :: rest =>
        match rest with
        | '{' :: rest2 => (parseStep fuel (.formatGo rest2 (lit ++ ['{']))).asParts
        | _ =>
          let (pc, rest2) := collectPlaceholder rest
          let part := (parseStep fuel (.placeholder pc)).asPart
          let tail := (parseStep fuel (.formatGo rest2 [])).asParts
          match lit with
          | [] => .cons part tail
          | _ => .cons (.Literal (String.mk lit)) (.cons part tail)
      | '}' :: rest =>
        match rest with
        | '}' :: rest2 => (parseStep fuel (.formatGo rest2 (lit ++ ['}']))).asParts
        | _ => (parseStep fuel (.formatGo rest (lit ++ ['}']))).asParts
      | c :: rest => (parseStep fuel (.formatGo rest (lit ++ [c]))).asParts)
    | .placeholder pc =>
      let sp := splitFirstColon pc
      let content := String.mk (trimChars sp.1)
      let fmt := sp.2.map (fun b => String.mk b)
      .fpart (match (parseStep fuel (.tryParse content)).asOExpr with
      | some e => .Expression e fmt
      | none => .Variable content fmt)
    | .tryParse content =>
      .oexpr (if ¬ (content.data.contains ' ')
          ∨ content.data.all (fun c => c.isAlphanum || c = '_') then none
        else (parseStep fuel (.reparse content)).asOExpr)
    | .reparse content =>
      .oexpr (match (parseStep fuel (.andExpr (tokenize content) 0)).asExpr with
      | .ok (e, p) =>
        if currentTok (tokenize content) p = .EOF then some e else none
      | .error _ => none)
    | .formatString s =>
      .fparts ((parseStep fuel (.formatGo s.data [])).asParts)
    | .printS toks pos =>
      let p := skip_noise toks (pos + 1)
      .stmt (if currentTok toks p = .Each then .error .unmodeled
      else
        match currentTok toks p with
        | .StringLiteral _ =>
          let q := skip_noise toks (p + 1)
          if tokIn (currentTok toks q) [.Of, .To, .With, .On] then
            let q2 := skip_noise toks (q + 1)
            if currentTok toks q2 = .Each then .error .unmodeled
            else (parseStep fuel (.printValue toks p)).asStmt
          else (parseStep fuel (.printValue toks p)).asStmt
        | _ => (parseStep fuel (.printValue toks p)).asStmt)
    | .printValue toks pos =>
      .stmt (do
      let (value, p1) ← (parseStep fuel (.expression toks pos)).asExpr
      let p2 := skip_noise toks p1
      let (wn, p3) :=
        if currentTok toks p2 = .Without then
          let q := skip_noise toks (p2 + 1)
          if currentTok toks q = .Newline ∨ isNewlineIdent (currentTok toks q) then
            (true, q + 1)
          else (false, q)
        else (false, p2)
      (parseStep fuel (.printTail toks value wn p3)).asStmt)
    | .printTail toks value wn pos =>
      .stmt (if tokIn (currentTok toks pos) [.But, .Comma] then
        let p1 := skip_noise toks (pos + 1)
        let p2 := if currentTok toks p1 = .But then skip_noise toks (p1 + 1) else p1
        if currentTok toks p2 = .If then
          (parseStep fuel (.condPrint toks p2 value)).asStmt
        else .ok (.Print value wn, pos)
      else .ok (.Print value wn, pos))
    | .condPrint toks pos default =>
      .stmt (do
      let p := skip_noise toks (pos + 1)
      let (cond, p1) ← (parseStep fuel (.condition toks p)).asExpr
      let p2 := skip_noise toks p1
      let (_, p3) := expectTok toks p2 .Print
      let p4 := skip_noise toks p3
      let (val, p5) ← (parseStep fuel (.primary toks p4)).asExpr
      let p6 := skip_noise toks p5
      let (conds, p7) ← (parseStep fuel (.collectC toks p6 [(cond, val)])).asConds
      .ok (buildChain conds default, p7))
    | .collectC toks pos acc =>
      .conds (if ¬ tokIn (currentTok toks pos) [.But, .Comma, .And] then .ok (acc, pos)
      else
        let startedWithComma := currentTok toks pos = .Comma
        let p1 := skip_noise toks (pos + 1)
        let p2 :=
          if startedWithComma ∧ currentTok toks p1 = .But then skip_noise toks (p1 + 1)
          else p1
        if currentTok toks p2 = .If then do
          let p3 := skip_noise toks (p2 + 1)
          let (cond, p4) ← (parseStep fuel (.condition toks p3)).asExpr
          let p5 := skip_noise toks p4
          let (_, p6) := expectTok toks p5 .Print
          let p7 := skip_noise toks p6
          let (val, p8) ← (parseStep fuel (.primary toks p7)).asExpr
          (parseStep fuel (.collectC toks p8 (acc ++ [(cond, val)]))).asConds
        else if tokIn (currentTok toks p2) [.Else, .Otherwise] then do
          let p3 := skip_noise toks (p2 + 1)
          let (_, p4) := expectTok toks p3 .Print
          let p5 := skip_noise toks p4
          let (val, p6) ← (parseStep fuel (.primary toks p5)).asExpr
          .ok (acc ++ [(.BoolLit true, val)], p6)
        else .ok (acc, p2))

/-- `Parser::parse_primary`, restricted to the literal, identifier, boolean,
string/format-string/function-call and unary arms; the remaining source arms
(`byte`/`element` access, `current time`, `arguments`, `environment`,
bracketed lists, `all the numbers`, `the`-phrases, possessive property
access) report `unmodeled`. -/
def parsePrimary (fuel : Nat) (toks : List Token) (pos : Nat) :
    Except CompileError (Expr × Nat) :=
  (parseStep fuel (.primary toks pos)).asExpr

/-- The call-argument loop inside `parse_primary`'s string-literal arm. -/
def parseCallArgs (fuel : Nat) (toks : List Token) (pos : Nat) :
    Except CompileError (ExprList × Nat) :=
  (parseStep fuel (.callArgs toks pos)).asArgs

/-- `Parser::parse_bitwise`. -/
def parseBitwise (fuel : Nat) (toks : List Token) (pos : Nat) :
    Except CompileError (Expr × Nat) :=
  (parseStep fuel (.bitwise toks pos)).asExpr

/-- `Parser::parse_multiplicative`. -/
def parseMultiplicative (fuel : Nat) (toks : List Token) (pos : Nat) :
    Except CompileError (Expr × Nat) :=
  (parseStep fuel (.multiplicative toks pos)).asExpr

/-- `Parser::parse_additive`. -/
def parseAdditive (fuel : Nat) (toks : List Token) (pos : Nat) :
    Except CompileError (Expr × Nat) :=
  (parseStep fuel (.additive toks pos)).asExpr

/-- `Parser::parse_expression`; the `as`-cast arm is unmodelled. -/
def parseExpression (fuel : Nat) (toks : List Token) (pos : Nat) :
    Except CompileError (Expr × Nat) :=
  (parseStep fuel (.expression toks pos)).asExpr

/-- `Parser::parse_comparison`; the multi-subject `x, y are …` expansion is
unmodelled. -/
def parseComparison (fuel : Nat) (toks : List Token) (pos : Nat) :
    Except CompileError (Expr × Nat) :=
  (parseStep fuel (.comparison toks pos)).asExpr

/-- `Parser::parse_and_expr`. -/
def parseAndExpr (fuel : Nat) (toks : List Token) (pos : Nat) :
    Except CompileError (Expr × Nat) :=
  (parseStep fuel (.andExpr toks pos)).asExpr

/-- `Parser::parse_or_expr`. -/
def parseOrExpr (fuel : Nat) (toks : List Token) (pos : Nat) :
    Except CompileError (Expr × Nat) :=
  (parseStep fuel (.orExpr toks pos)).asExpr

/-- `Parser::parse_condition`. -/
def parseCondition (fuel : Nat) (toks : List Token) (pos : Nat) :
    Except CompileError (Expr × Nat) :=
  (parseStep fuel (.condition toks pos)).asExpr

/-- The character walk of `Parser::parse_format_string`, carrying the pending
literal text. -/
def parseFormatGo (fuel : Nat) (chars : List Char) (lit : List Char) :
    FormatPartList :=
  (parseStep fuel (.formatGo chars lit)).asParts

/-- One placeholder of `parse_format_string`: split at the first colon,
keep the format spec verbatim, trim the name part and classify it via
`try_parse_expression`. -/
def processPlaceholder (fuel : Nat) (pc : List Char) : FormatPart :=
  (parseStep fuel (.placeholder pc)).asPart

/-- The unconditional re-tokenize-and-re-parse tail of
`try_parse_expression`: lex the content, parse it with `parse_and_expr` and
succeed only when every token was consumed. -/
def reparseContent (fuel : Nat) (content : String) : Option Expr :=
  (parseStep fuel (.reparse content)).asOExpr

/-- `Parser::try_parse_expression`: bail out unless the content contains a
space and a non-identifier character, otherwise re-tokenize and re-parse. -/
def try_parse_expression (fuel : Nat) (content : String) : Option Expr :=
  (parseStep fuel (.tryParse content)).asOExpr

/-- `Parser::parse_format_string`. -/
def parse_format_string (fuel : Nat) (s : String) : FormatPartList :=
  (parseStep fuel (.formatString s)).asParts

/-- `Parser::parse_print` (cursor on the `Print` token).  The `each … from`
loop expansions are unmodelled; the string-literal function-call lookahead
with its position restore is transcribed. -/
def parsePrint (fuel : Nat) (toks : List Token) (pos : Nat) :
    Except CompileError (Statement × Nat) :=
  (parseStep fuel (.printS toks pos)).asStmt

/-- The value / `without newline` / conditional-continuation tail of
`parse_print`. -/
def parsePrintValue (fuel : Nat) (toks : List Token) (pos : Nat) :
    Except CompileError (Statement × Nat) :=
  (parseStep fuel (.printValue toks pos)).asStmt

/-- The conditional-print check of `parse_print` from `conditional_start_pos`
on: a `but`/comma followed (after an optional `but`) by `if` enters
`parse_conditional_print`; otherwise the parser position is restored so the
separator is left for the enclosing construct. -/
def parsePrintTail (fuel : Nat) (toks : List Token) (value : Expr) (wn : Bool)
    (pos : Nat) : Except CompileError (Statement × Nat) :=
  (parseStep fuel (.printTail toks value wn pos)).asStmt

/-- `Parser::parse_conditional_print` (cursor on the `if` token). -/
def parseConditionalPrint (fuel : Nat) (toks : List Token) (pos : Nat)
    (default : Expr) : Except CompileError (Statement × Nat) :=
  (parseStep fuel (.condPrint toks pos default)).asStmt

/-- The continuation loop of `parse_conditional_print` (`, but if …`,
`and if …`, `otherwise print …`). -/
def collectConds (fuel : Nat) (toks : List Token) (pos : Nat)
    (acc : List (Expr × Expr)) : Except CompileError (List (Expr × Expr) × Nat) :=
  (parseStep fuel (.collectC toks pos acc)).asConds

/-- `Parser::parse_typed_var_decl` (cursor on the `a`/`an` token), restricted
to its `buffer` arm; the other type arms are unmodelled. -/
def parseTypedVarDecl (fuel : Nat) (toks : List Token) (pos : Nat) :
    Except CompileError (Statement × Nat) :=
  match fuel with
  | 0 => .error .fuelExhausted
  | fuel + 1 =>
    let p := skip_noise toks (pos + 1)
    match currentTok toks p with
    | .Buffer =>
      let p1 := skip_noise toks (p + 1)
      if currentTok toks p1 ≠ .Called then
        .error (.err "Missing 'called' after 'buffer'")
      else
        let p2 := skip_noise toks (p1 + 1)
        match Token.as_keyword (currentTok toks p2) with
        | some kw => .error (.reservedKeyword kw)
        | none =>
          let nameRes : Except CompileError (String × Nat) :=
            match currentTok toks p2 with
            | .StringLiteral n =>
              match Token.string_is_keyword n with
              | some _ => .error (.reservedBufferName n)
              | none => .ok (n, p2 + 1)
            | .Identifier n => .ok (n, p2 + 1)
            | _ => .error (.err "Missing buffer name after 'called'")
          match nameRes with
          | .error e => .error e
          | .ok (name, p3) =>
            let p4 := skip_noise toks p3
            let (isThere, p5) := expectTok toks p4 .Is
            if isThere then do
              let p6 := skip_noise toks p5
              let (expr, p7) ← parsePrimary fuel toks p6
              let p8 := skip_noise toks p7
              if currentTok toks p8 = .Bytes then
                let p9 := skip_noise toks (p8 + 1)
                let sizeRes : Except CompileError Nat :=
                  if currentTok toks p9 = .In then
                    let q1 := skip_noise toks (p9 + 1)
                    let (sizeOk, q2) := expectTok toks q1 .Size
                    if sizeOk then .ok q2
                    else .error (.expectedToken "size" (currentTok toks q2))
                  else .ok p9
                match sizeRes with
                | .error e => .error e
                | .ok pEnd =>
                  match expr with
                  | .IntegerLit n =>
                    if n ≤ 0 then
                      .error (.invalidBufferSize name
                        "Buffer size must be a positive integer"
                        "a buffer called \"buf\" is 1024 bytes.")
                    else if n > 1073741824 then
                      .error (.invalidBufferSize name
                        "Buffer size exceeds maximum allowed (1073741824 bytes)"
                        "Consider using smaller buffers or streaming for large data.")
                    else .ok (.BufferDecl name expr, pEnd)
                  | .Identifier _ => .ok (.BufferDecl name expr, pEnd)
                  | _ =>
                    .error (.invalidBufferSize name
                      "Buffer size must be a numeric literal or constant variable"
                      "a buffer called \"buf\" is 1024 bytes.")
              else .ok (.VarDecl name (some .Buffer) (some expr), p8)
            else .ok (.BufferDecl name (.IntegerLit 0), p5)
    | _ => .error .unmodeled

/-! ### analyzer/mod.rs: the scope analyzer fragment

The analyzer state is transcribed with `HashSet String` as `Finset String`
and `HashMap String (HashSet String)` as a total function
`String → Finset String` whose default is `∅` — faithful because the source
only reads the map through `get`/`entry().or_default()` and never stores an
empty set.  Errors are carried structurally (`AErr`); source locations,
`symbol_error_counts` and the dependency flags not touched by the embedded
fragment are not modelled.  The statement fragment is the one produced by
the embedded parser; the `FunctionDef`/global-scope machinery is outside
it.  As with the parser, the mutual recursion of `analyze_expr` /
`analyze_statement` / `analyze_block_in_scope` is defunctionalised into the
fuel-structural `aStep` so every analysis is kernel-reducible. -/

/-- `AnalysisEnv`: the always-visible set and the guarded map. -/
structure AnalysisEnv where
  always : Finset String
  guarded : String → Finset String

/-- The dependency flags touched by the embedded fragment. -/
structure Deps where
  uses_io : Bool
  uses_strings : Bool
  uses_heap : Bool
  uses_funcs : Bool
deriving DecidableEq

/-- Analyzer diagnostics, structurally (the format strings of
`push_unknown_variable` / the unknown-function branch are injective in the
carried data). -/
inductive AErr where
  | unknownVariable (name : String)
  | unknownFunction (name : String) (suggestion : Option String)
deriving DecidableEq

/-- The analyzer state fields read or written by the embedded fragment
(`vars` transcribes the source field `variables`, which is a reserved word
here). -/
structure AState where
  vars : Finset String
  guarded_scopes : String → Finset String
  active_guards : List String
  block_depth : Nat
  functions : Finset String
  errors : List AErr
  used_identifiers : Finset String
  typo_candidates : Finset String
  deps : Deps

/-- The all-empty analyzer state. -/
def AState.empty : AState :=
  ⟨∅, fun _ => ∅, [], 0, ∅, [], ∅, ∅, ⟨false, false, false, false⟩⟩

/-- `Analyzer::current_env`. -/
def currentEnv (st : AState) : AnalysisEnv :=
  ⟨st.vars, st.guarded_scopes⟩

/-- `Analyzer::apply_env`. -/
def applyEnv (st : AState) (env : AnalysisEnv) : AState :=
  { st with vars := env.always, guarded_scopes := env.guarded }

/-- `Analyzer::is_variable_available`. -/
def is_variable_available (st : AState) (name : String) : Bool :=
  decide (name ∈ st.vars)
    || st.active_guards.any (fun g => decide (name ∈ st.guarded_scopes g))

/-- `Analyzer::declare_variable_in_current_scope`. -/
def declare_variable_in_current_scope (st : AState) (name : String) : AState :=
  if st.active_guards.isEmpty then
    { st with vars := insert name st.vars }
  else
    { st with guarded_scopes := fun g =>
        if g ∈ st.active_guards then insert name (st.guarded_scopes g)
        else st.guarded_scopes g }

/-- `Analyzer::push_error` (location lookup not modelled). -/
def push_error (st : AState) (e : AErr) : AState :=
  { st with errors := st.errors ++ [e] }

/-- `Analyzer::push_unknown_variable`. -/
def push_unknown_variable (st : AState) (name : String) : AState :=
  push_error st (.unknownVariable name)

/-- `Analyzer::track_identifier`. -/
def track_identifier (st : AState) (name : String) : AState :=
  { st with used_identifiers := insert name st.used_identifiers }

/-- `Analyzer::track_typo_candidate`. -/
def track_typo_candidate (st : AState) (name : String) : AState :=
  { st with typo_candidates := insert name st.typo_candidates }

/-- `Analyzer::maybe_activate_true_guard`. -/
def maybe_activate_true_guard (st : AState) (name : String)
    (var_type : Option VType) (value : Option Expr) : AState :=
  if st.block_depth = 0 then st
  else
    let is_bool_typed : Bool :=
      match var_type with
      | some t => decide (t = VType.Boolean)
      | none => true
    let is_true : Bool :=
      match value with
      | some (.BoolLit true) => true
      | _ => false
    if is_bool_typed && is_true then
      { st with
          active_guards :=
            if st.active_guards.contains name then st.active_guards
            else st.active_guards ++ [name],
          guarded_scopes := fun g =>
            if g = name then insert name (st.guarded_scopes g)
            else st.guarded_scopes g }
    else st

/-- `Analyzer::merge_continuing_envs`: intersection of the `always` parts
(`retain`), per-key union of the `guarded` parts (`extend`). -/
def merge_continuing_envs (envs : List AnalysisEnv) (fallback : AnalysisEnv) :
    AnalysisEnv :=
  match envs with
  | [] => fallback
  | e0 :: rest =>
    ⟨rest.foldl (fun acc env => acc.filter (fun n => n ∈ env.always)) e0.always,
     fun k => envs.foldl (fun acc env => acc ∪ env.guarded k) ∅⟩

/-- Call descriptors of the defunctionalised analyzer: one constructor per
source function (plus the loop states of the `for` walks and the syntactic
termination test). -/
inductive ACall : Type
  | expr (st : AState) (e : Expr)
  | exprList (st : AState) (es : ExprList)
  | fparts (st : AState) (ps : FormatPartList)
  | stmt (st : AState) (s : Statement)
  | stmts (st : AState) (l : StmtList)
  | blockGo (st : AState) (l : StmtList)
  | blockScope (st : AState) (l : StmtList) (env : AnalysisEnv) (g : Option String)
  | elifGo (st : AState) (benv : AnalysisEnv) (es : ElifList) (acc : List AnalysisEnv)
  | termS (s : Statement)
  | termB (l : StmtList)
  | termE (es : ElifList)
  | guardKey (e : Expr)

/-- Results of the defunctionalised analyzer calls. -/
inductive ARes : Type
  | st (s : AState)
  | stFlag (s : AState) (flag : Bool)
  | stEnvFlag (s : AState) (env : AnalysisEnv) (flag : Bool)
  | stEnvs (s : AState) (envs : List AnalysisEnv)
  | flag (b : Bool)
  | key (k : Option String)

/-- Extract a plain state result. -/
def ARes.asSt : ARes → AState
  | .st s => s
  | _ => AState.empty

/-- Extract a state-and-termination-flag result. -/
def ARes.asSF : ARes → AState × Bool
  | .stFlag s f => (s, f)
  | _ => (AState.empty, false)

/-- Extract a state, resulting-env and termination-flag result. -/
def ARes.asSEF : ARes → AState × AnalysisEnv × Bool
  | .stEnvFlag s e f => (s, e, f)
  | _ => (AState.empty, ⟨∅, fun _ => ∅⟩, false)

/-- Extract a state and continuing-env-list result. -/
def ARes.asSEnvs : ARes → AState × List AnalysisEnv
  | .stEnvs s es => (s, es)
  | _ => (AState.empty, [])

/-- Extract a boolean result. -/
def ARes.asFlag : ARes → Bool
  | .flag b => b
  | _ => false

/-- Extract a guard-key result. -/
def ARes.asKey : ARes → Option String
  | .key k => k
  | _ => none

/-- Fuel-exhausted value of each analyzer call shape. -/
def ACall.outOfFuel : ACall → ARes
  | .expr st _ => .st st
  | .exprList st _ => .st st
  | .fparts st _ => .st st
  | .stmt st _ => .st st
  | .stmts st _ => .st st
  | .blockGo st _ => .stFlag st false
  | .blockScope st _ _ _ => .stEnvFlag st (currentEnv st) false
  | .elifGo st _ _ acc => .stEnvs st acc
  | .termS _ => .flag false
  | .termB _ => .flag false
  | .termE _ => .flag false
  | .guardKey _ => .key none

/-- One step of the defunctionalised analyzer; each arm transcribes the
corresponding source function body, with recursive calls at strictly
smaller fuel. -/
def aStep : Nat → ACall → ARes
  | 0, c => c.outOfFuel
  | fuel + 1, c =>
    match c with
    | .expr st e =>
      .st (match e with
      | .IntegerLit _ => st
      | .FloatLit _ => st
      | .StringLit _ => { st with deps := { st.deps with uses_strings := true } }
      | .BoolLit _ => st
      | .BinaryOp left _ right =>
        (aStep fuel (.expr ((aStep fuel (.expr st left)).asSt) right)).asSt
      | .UnaryOp _ operand => (aStep fuel (.expr st operand)).asSt
      | .PropertyCheck value _ => (aStep fuel (.expr st value)).asSt
      | .FunctionCall name args =>
        let st1 := { st with deps := { st.deps with uses_funcs := true } }
        let st2 :=
          if name ∈ st1.functions then st1
          else push_error st1
            (.unknownFunction name (find_similar_keyword name ENGLISH_KEYWORDS))
        (aStep fuel (.exprList st2 args)).asSt
      | .FormatString parts =>
        let st1 := { st with deps := { st.deps with uses_strings := true } }
        (aStep fuel (.fparts st1 parts)).asSt
      | .ListAccess list index =>
        (aStep fuel (.expr ((aStep fuel (.expr st list)).asSt) index)).asSt
      | .ElementAccess _ _ => st
      | .Identifier name =>
        let st1 := track_identifier st name
        if is_variable_available st1 name = false ∧ name ≠ "_iter" then
          if (find_similar_keyword name ENGLISH_KEYWORDS).isNone then
            push_unknown_variable st1 name
          else track_typo_candidate st1 name
        else st1)
    | .exprList st es =>
      .st (match es with
      | .nil => st
      | .cons e rest =>
        (aStep fuel (.exprList ((aStep fuel (.expr st e)).asSt) rest)).asSt)
    | .fparts st ps =>
      .st (match ps with
      | .nil => st
      | .cons p rest =>
        let st1 :=
          match p with
          | .Expression e _ => (aStep fuel (.expr st e)).asSt
          | .Variable name _ =>
            let s1 := track_identifier st name
            if is_variable_available s1 name = false ∧ name ≠ "_iter" then
              if (find_similar_keyword name ENGLISH_KEYWORDS).isNone then
                push_unknown_variable s1 name
              else track_typo_candidate s1 name
            else s1
          | .Literal _ => st
        (aStep fuel (.fparts st1 rest)).asSt)
    | .stmt st s =>
      .st (match s with
      | .Print value _ =>
        let st1 := { st with deps := { st.deps with uses_io := true } }
        let st2 := (aStep fuel (.expr st1 value)).asSt
        match value with
        | .StringLit _ => { st2 with deps := { st2.deps with uses_strings := true } }
        | _ => st2
      | .VarDecl name var_type value =>
        let st1 := declare_variable_in_current_scope st name
        let st2 := maybe_activate_true_guard st1 name var_type value
        match value with
        | some v => (aStep fuel (.expr st2 v)).asSt
        | none => st2
      | .Assignment name value =>
        let st1 :=
          if is_variable_available st name = false then
            declare_variable_in_current_scope st name
          else st
        (aStep fuel (.expr st1 value)).asSt
      | .If condition then_block else_if_blocks else_block =>
        let st1 := (aStep fuel (.expr st condition)).asSt
        let benv := currentEnv st1
        let gk := (aStep fuel (.guardKey condition)).asKey
        let r1 := (aStep fuel (.blockScope st1 then_block benv gk)).asSEF
        let cont0 : List AnalysisEnv := if r1.2.2 then [] else [r1.2.1]
        let r2 := (aStep fuel (.elifGo r1.1 benv else_if_blocks cont0)).asSEnvs
        match else_block with
        | some blk =>
          let r3 := (aStep fuel (.blockScope r2.1 blk benv none)).asSEF
          let cont2 := if r3.2.2 then r2.2 else r2.2 ++ [r3.2.1]
          applyEnv r3.1 (merge_continuing_envs cont2 benv)
        | none =>
          applyEnv r2.1 (merge_continuing_envs (r2.2 ++ [benv]) benv)
      | .While condition body =>
        let st1 := (aStep fuel (.expr st condition)).asSt
        (aStep fuel (.stmts st1 body)).asSt
      | .Return value =>
        match value with
        | some v => (aStep fuel (.expr st v)).asSt
        | none => st
      | .Exit code => (aStep fuel (.expr st code)).asSt
      | .BufferDecl name size =>
        let st1 := { st with vars := insert name st.vars }
        let st2 := (aStep fuel (.expr st1 size)).asSt
        { st2 with deps := { st2.deps with uses_heap := true } }
      | .FunctionCallS name args =>
        let st1 := { st with deps := { st.deps with uses_funcs := true } }
        let st2 :=
          if name ∈ st1.functions then st1
          else push_error st1
            (.unknownFunction name (find_similar_keyword name ENGLISH_KEYWORDS))
        (aStep fuel (.exprList st2 args)).asSt)
    | .stmts st l =>
      .st (match l with
      | .nil => st
      | .cons s rest =>
        (aStep fuel (.stmts ((aStep fuel (.stmt st s)).asSt) rest)).asSt)
    | .blockGo st l =>
      match l with
      | .nil => .stFlag st false
      | .cons s rest =>
        let st1 := (aStep fuel (.stmt st s)).asSt
        if (aStep fuel (.termS s)).asFlag then .stFlag st1 true
        else
          let r := (aStep fuel (.blockGo st1 rest)).asSF
          .stFlag r.1 r.2
    | .blockScope st l env g =>
      let saved_env := currentEnv st
      let saved_guards := st.active_guards
      let saved_depth := st.block_depth
      let st1 := applyEnv st env
      let st2 := { st1 with block_depth := st1.block_depth + 1 }
      let st3 :=
        match g with
        | some guard => { st2 with active_guards := st2.active_guards ++ [guard] }
        | none => st2
      let r := (aStep fuel (.blockGo st3 l)).asSF
      let resulting := currentEnv r.1
      let st5 := { r.1 with block_depth := saved_depth, active_guards := saved_guards }
      .stEnvFlag (applyEnv st5 saved_env) resulting r.2
    | .elifGo st benv es acc =>
      match es with
      | .nil => .stEnvs st acc
      | .cons cond blk rest =>
        let saved := currentEnv st
        let stA := applyEnv st benv
        let stB := (aStep fuel (.expr stA cond)).asSt
        let stC := applyEnv stB saved
        let r := (aStep fuel (.blockScope stC blk benv none)).asSEF
        let acc2 := if r.2.2 then acc else acc ++ [r.2.1]
        let r2 := (aStep fuel (.elifGo r.1 benv rest acc2)).asSEnvs
        .stEnvs r2.1 r2.2
    | .termS s =>
      .flag (match s with
      | .Return _ => true
      | .Exit _ => true
      | .If _ then_block else_if_blocks else_block =>
        if (aStep fuel (.termB then_block)).asFlag = false then false
        else if (aStep fuel (.termE else_if_blocks)).asFlag = false then false
        else
          match else_block with
          | some blk => (aStep fuel (.termB blk)).asFlag
          | none => false
      | _ => false)
    | .termB l =>
      .flag (match l with
      | .nil => false
      | .cons s rest =>
        (aStep fuel (.termS s)).asFlag || (aStep fuel (.termB rest)).asFlag)
    | .termE es =>
      .flag (match es with
      | .nil => true
      | .cons _ blk rest =>
        (aStep fuel (.termB blk)).asFlag && (aStep fuel (.termE rest)).asFlag)
    | .guardKey e =>
      .key (match e with
      | .Identifier name => some name
      | .StringLit name => some name
      | .UnaryOp .Not operand =>
        ((aStep fuel (.guardKey operand)).asKey).map
          (fun k => "not (" ++ k ++ ")")
      | .BinaryOp left op right =>
        match (match op with
               | .And => some "and"
               | .Or => some "or"
               | _ => none : Option String) with
        | none => none
        | some conn =>
          match (aStep fuel (.guardKey left)).asKey,
              (aStep fuel (.guardKey right)).asKey with
          | some lk, some rk =>
            some ("(" ++ lk ++ ") " ++ conn ++ " (" ++ rk ++ ")")
          | _, _ => none
      | _ => none)

/-- `Analyzer::analyze_expr`. -/
def analyze_expr (fuel : Nat) (st : AState) (e : Expr) : AState :=
  (aStep fuel (.expr st e)).asSt

/-- `Analyzer::analyze_statement`, over the embedded statement fragment. -/
def analyze_statement (fuel : Nat) (st : AState) (s : Statement) : AState :=
  (aStep fuel (.stmt st s)).asSt

/-- `Analyzer::analyze_block_in_scope`: returns the updated analyzer state,
the block's resulting environment and the early-termination flag. -/
def analyze_block_in_scope (fuel : Nat) (st : AState) (l : StmtList)
    (env : AnalysisEnv) (g : Option String) : AState × AnalysisEnv × Bool :=
  (aStep fuel (.blockScope st l env g)).asSEF

/-- `Analyzer::block_always_terminates` (the syntactic walk). -/
def block_always_terminates (fuel : Nat) (l : StmtList) : Bool :=
  (aStep fuel (.termB l)).asFlag

/-- `Analyzer::statement_always_terminates`. -/
def statement_always_terminates (fuel : Nat) (s : Statement) : Bool :=
  (aStep fuel (.termS s)).asFlag

/-- `Analyzer::simple_guard_key`. -/
def simple_guard_key (fuel : Nat) (e : Expr) : Option String :=
  (aStep fuel (.guardKey e)).asKey

/-! ### codegen/mod.rs: the x86-64 emitter fragment

Emitted assembly lines are modelled by the structured `Instr` type, one
constructor per distinct line shape the embedded arms emit (`emit_indent`
of a fixed string becomes one constructor; operands are carried
structurally).  The code generator state keeps the label counter, the
variable table and the emitted code.  `generate_expr` is transcribed for
the integer/boolean/identifier leaves, function-call expressions and
list/element accesses; the remaining arms emit the `unmodeledOp` marker.
The argument loops are higher-order in the expression generator so that
everything stays structurally recursive and kernel-reducible.  A small
machine (`Mach`/`execGo`) executes the emitted fragment; it logs every
memory-read address in `reads`. -/

/-- The registers named by the embedded arms. -/
inductive Reg where
  | rax | rbx | rcx | rdx | rdi | rsi | r8 | r9
deriving DecidableEq

/-- An assembly label `.{pfx}_{n}` as produced by `CodeGen::new_label`. -/
structure Lbl where
  pfx : String
  n : Nat
deriving DecidableEq

/-- The assembly lines emitted by the embedded code-generator arms. -/
inductive Instr where
  | movRaxImm (n : Int)
  | movRaxVar (name : String) (off : Nat)
  | movRegRax (r : Reg)
  | pushRax
  | popReg (r : Reg)
  | subRsp (n : Nat)
  | addRsp (n : Nat)
  | callLbl (f : String)
  | movRcxRax
  | cmpRcxImm (n : Int)
  | movRdxLenRbx
  | cmpRcxRdx
  | jl (l : Lbl)
  | jle (l : Lbl)
  | jmp (l : Lbl)
  | label (l : Lbl)
  | setLastError
  | xorRaxRax
  | movRaxRcx
  | shlRax3
  | addRaxImm (n : Int)
  | addRaxRbx
  | movRaxMemRax
  | decRcx
  | unmodeledOp
deriving DecidableEq

/-- The code-generator state fields used by the embedded arms. -/
structure CState where
  label_counter : Nat
  vars : List (String × Nat)
  code : List Instr
  uses_funcs : Bool
deriving DecidableEq

/-- The all-empty code-generator state. -/
def CState.empty : CState := ⟨0, [], [], false⟩

/-- `CodeGen::emit_indent` of one line. -/
def emit (st : CState) (i : Instr) : CState :=
  { st with code := st.code ++ [i] }

/-- A sequence of consecutive `emit_indent` calls. -/
def emitAll (st : CState) (l : List Instr) : CState :=
  { st with code := st.code ++ l }

/-- The function label: `name.replace(' ', "_").replace('-', "_")`. -/
def funcLabel (name : String) : String :=
  String.mk (name.data.map (fun c => if c = ' ' ∨ c = '-' then '_' else c))

/-- The register of the i-th argument (`param_regs`). -/
def paramReg : Nat → Option Reg
  | 0 => some .rdi
  | 1 => some .rsi
  | 2 => some .rdx
  | 3 => some .rcx
  | 4 => some .r8
  | 5 => some .r9
  | _ => none

/-- The `pop` sequence for the first `k` arguments. -/
def popSeq (k : Nat) : List Instr :=
  (List.range k).filterMap (fun i => (paramReg i).map Instr.popReg)

/-- `ExprList` as a `List`. -/
def exprListToList : ExprList → List Expr
  | .nil => []
  | .cons e rest => e :: exprListToList rest

/-- The push loop of the function-call *expression* arm: evaluate each
argument (in the traversal order given) and push `rax`. -/
def pushRevGo (genE : CState → Expr → CState) : CState → List Expr → CState
  | st, [] => st
  | st, a :: rest => pushRevGo genE (emit (genE st a) .pushRax) rest

/-- The argument loop of the function-call *statement* arm: evaluate each
argument left to right, moving `rax` straight into the i-th parameter
register and pushing only from the seventh argument on. -/
def stmtArgsGo (genE : CState → Expr → CState) :
    CState → ExprList → Nat → CState
  | st, .nil, _ => st
  | st, .cons a rest, i =>
    let st1 := genE st a
    let st2 :=
      match paramReg i with
      | some r => emit st1 (.movRegRax r)
      | none => emit st1 .pushRax
    stmtArgsGo genE st2 rest (i + 1)

/-- The bounds-checked list-access sequence (0-indexed) emitted by the
`Expr::ListAccess` arm after the index value is in `rax` and the list
pointer is on the stack. -/
def listAccessCheck (ok err done : Lbl) : List Instr :=
  [.movRcxRax, .popReg .rbx, .cmpRcxImm 0, .jl err, .movRdxLenRbx, .cmpRcxRdx,
   .jl ok, .label err, .setLastError, .xorRaxRax, .jmp done, .label ok,
   .movRaxRcx, .shlRax3, .addRaxImm 24, .addRaxRbx, .movRaxMemRax, .label done]

/-- The bounds-checked element-access sequence (1-indexed) emitted by the
`Expr::ElementAccess` arm. -/
def elementAccessCheck (ok err done : Lbl) : List Instr :=
  [.movRcxRax, .popReg .rbx, .cmpRcxImm 1, .jl err, .movRdxLenRbx, .cmpRcxRdx,
   .jle ok, .label err, .setLastError, .xorRaxRax, .jmp done, .label ok,
   .decRcx, .movRaxRcx, .shlRax3, .addRaxImm 24, .addRaxRbx, .movRaxMemRax,
   .label done]

/-- `CodeGen::generate_expr`, fuel-structural on the expression depth. -/
def genExprGo : Nat → CState → Expr → CState
  | 0, st, _ => st
  | fuel + 1, st, e =>
    match e with
    | .IntegerLit n => emit st (.movRaxImm n)
    | .BoolLit b => emit st (.movRaxImm (if b then 1 else 0))
    | .Identifier name =>
      match st.vars.lookup name with
      | some off => emit st (.movRaxVar name off)
      | none => st
    | .FunctionCall name args =>
      let argL := exprListToList args
      let st1 := pushRevGo (genExprGo fuel) st argL.reverse
      let st2 := emitAll st1 (popSeq (min argL.length 6))
      let stackArgs := argL.length - 6
      let st3 := if stackArgs % 2 ≠ 0 then emit st2 (.subRsp 8) else st2
      let st4 := emit st3 (.callLbl (funcLabel name))
      let cleanup := stackArgs * 8 + (if stackArgs % 2 ≠ 0 then 8 else 0)
      if cleanup > 0 then emit st4 (.addRsp cleanup) else st4
    | .ListAccess list index =>
      let ok : Lbl := ⟨"list_ok", st.label_counter⟩
      let err : Lbl := ⟨"list_err", st.label_counter + 1⟩
      let done : Lbl := ⟨"list_done", st.label_counter + 2⟩
      let st0 := { st with label_counter := st.label_counter + 3 }
      let st1 := emit (genExprGo fuel st0 list) .pushRax
      let st2 := genExprGo fuel st1 index
      emitAll st2 (listAccessCheck ok err done)
    | .ElementAccess list index =>
      let ok : Lbl := ⟨"elem_ok", st.label_counter⟩
      let err : Lbl := ⟨"elem_err", st.label_counter + 1⟩
      let done : Lbl := ⟨"elem_done", st.label_counter + 2⟩
      let st0 := { st with label_counter := st.label_counter + 3 }
      let st1 := emit (genExprGo fuel st0 list) .pushRax
      let st2 := genExprGo fuel st1 index
      emitAll st2 (elementAccessCheck ok err done)
    | _ => emit st .unmodeledOp

/-- The `Statement::FunctionCall` arm of `CodeGen::generate_statement`. -/
def generate_statement_call (fuel : Nat) (st : CState) (name : String)
    (args : ExprList) : CState :=
  emit (stmtArgsGo (genExprGo fuel) { st with uses_funcs := true } args 0)
    (.callLbl (funcLabel name))

/-- C3's claimed call-site sequence, written from the claim text: evaluate
the arguments right to left pushing each onto the stack, pop the first six
into the parameter registers, insert an 8-byte pad when the number of
stack-passed arguments is odd, call, and release the stack arguments and
pad afterwards. -/
def claimedCallEmit (genE : CState → Expr → CState) (st : CState)
    (name : String) (args : List Expr) : CState :=
  let st1 := pushRevGo genE st args.reverse
  let st2 := emitAll st1 (popSeq (min args.length 6))
  let stackArgs := args.length - 6
  let st3 := if stackArgs % 2 ≠ 0 then emit st2 (.subRsp 8) else st2
  let st4 := emit st3 (.callLbl (funcLabel name))
  let cleanup := stackArgs * 8 + (if stackArgs % 2 ≠ 0 then 8 else 0)
  if cleanup > 0 then emit st4 (.addRsp cleanup) else st4

/-- C3 as the spec states it: *both* call-site arms emit the claimed
push/pop/align/cleanup sequence. -/
def callSiteClaim : Prop :=
  ∀ (fuel : Nat) (st : CState) (name : String) (args : ExprList),
    (generate_statement_call fuel st name args).code
        = (claimedCallEmit (genExprGo fuel) st name (exprListToList args)).code
    ∧ (genExprGo (fuel + 1) st (.FunctionCall name args)).code
        = (claimedCallEmit (genExprGo fuel) st name (exprListToList args)).code

/-- The statement arm's actual behaviour, written from the amended claim
text: arguments are evaluated left to right, each result moved straight
into its parameter register (pushed from the seventh on), with no stack
alignment and no cleanup. -/
def directArgsGo (genE : CState → Expr → CState) :
    CState → List Expr → Nat → CState
  | st, [], _ => st
  | st, a :: rest, i =>
    let st1 := genE st a
    let st2 :=
      match paramReg i with
      | some r => emit st1 (.movRegRax r)
      | none => emit st1 .pushRax
    directArgsGo genE st2 rest (i + 1)

/-- The amended statement-call sequence. -/
def directCallEmit (genE : CState → Expr → CState) (st : CState)
    (name : String) (args : List Expr) : CState :=
  emit (directArgsGo genE st args 0) (.callLbl (funcLabel name))

/-- The machine executing emitted fragments: four general registers, a
stack, the operands of the last `cmp`, the `_last_error` cell, a memory
function and the log of every address read from memory. -/
structure Mach where
  rax : Int
  rbx : Int
  rcx : Int
  rdx : Int
  stack : List Int
  lastCmp : Int × Int
  lastError : Int
  mem : Int → Int
  reads : List Int

/-- Write a register (registers outside the modelled four are ignored). -/
def setReg (m : Mach) (r : Reg) (v : Int) : Mach :=
  match r with
  | .rax => { m with rax := v }
  | .rbx => { m with rbx := v }
  | .rcx => { m with rcx := v }
  | .rdx => { m with rdx := v }
  | _ => m

/-- Position of the first `label l` line. -/
def findLabelGo : List Instr → Lbl → Nat → Option Nat
  | [], _, _ => none
  | .label l2 :: rest, l, k =>
    if l2 = l then some k else findLabelGo rest l (k + 1)
  | _ :: rest, l, k => findLabelGo rest l (k + 1)

/-- Position of the first `label l` line in a code list. -/
def findLabel (code : List Instr) (l : Lbl) : Option Nat :=
  findLabelGo code l 0

/-- Execute the emitted code from `pc`; running off the end, popping an
empty stack or jumping to a missing label halts.  `call`, `sub rsp`,
`add rsp` and the unmodelled marker are no-ops for this machine.  `shl
rax, 3` is modelled as multiplication by 8 (the fragments only shift the
non-negative in-bounds index). -/
def execGo : Nat → List Instr → Nat → Mach → Mach
  | 0, _, _, m => m
  | fuel + 1, code, pc, m =>
    match code.get? pc with
    | none => m
    | some i =>
      match i with
      | .movRaxImm n => execGo fuel code (pc + 1) { m with rax := n }
      | .movRaxVar _ _ => execGo fuel code (pc + 1) m
      | .movRegRax r => execGo fuel code (pc + 1) (setReg m r m.rax)
      | .pushRax => execGo fuel code (pc + 1) { m with stack := m.rax :: m.stack }
      | .popReg r =>
        match m.stack with
        | v :: rest => execGo fuel code (pc + 1) (setReg { m with stack := rest } r v)
        | [] => m
      | .subRsp _ => execGo fuel code (pc + 1) m
      | .addRsp _ => execGo fuel code (pc + 1) m
      | .callLbl _ => execGo fuel code (pc + 1) m
      | .movRcxRax => execGo fuel code (pc + 1) { m with rcx := m.rax }
      | .cmpRcxImm n => execGo fuel code (pc + 1) { m with lastCmp := (m.rcx, n) }
      | .movRdxLenRbx =>
        execGo fuel code (pc + 1)
          { m with rdx := m.mem (m.rbx + 8), reads := m.reads ++ [m.rbx + 8] }
      | .cmpRcxRdx => execGo fuel code (pc + 1) { m with lastCmp := (m.rcx, m.rdx) }
      | .jl l =>
        if m.lastCmp.1 < m.lastCmp.2 then
          match findLabel code l with
          | some j => execGo fuel code j m
          | none => m
        else execGo fuel code (pc + 1) m
      | .jle l =>
        if m.lastCmp.1 ≤ m.lastCmp.2 then
          match findLabel code l with
          | some j => execGo fuel code j m
          | none => m
        else execGo fuel code (pc + 1) m
      | .jmp l =>
        match findLabel code l with
        | some j => execGo fuel code j m
        | none => m
      | .label _ => execGo fuel code (pc + 1) m
      | .setLastError => execGo fuel code (pc + 1) { m with lastError := 1 }
      | .xorRaxRax => execGo fuel code (pc + 1) { m with rax := 0 }
      | .movRaxRcx => execGo fuel code (pc + 1) { m with rax := m.rcx }
      | .shlRax3 => execGo fuel code (pc + 1) { m with rax := m.rax * 8 }
      | .addRaxImm n => execGo fuel code (pc + 1) { m with rax := m.rax + n }
      | .addRaxRbx => execGo fuel code (pc + 1) { m with rax := m.rax + m.rbx }
      | .movRaxMemRax =>
        execGo fuel code (pc + 1)
          { m with rax := m.mem m.rax, reads := m.reads ++ [m.rax] }
      | .decRcx => execGo fuel code (pc + 1) { m with rcx := m.rcx - 1 }
      | .unmodeledOp => execGo fuel code (pc + 1) m

/-- Discriminator for `FormatPart.Variable` (used to separate parser
outcomes). -/
def FormatPart.isVar : FormatPart → Bool
  | .Variable _ _ => true
  | _ => false

/-- C7's re-parse trigger as the spec states it: whenever the trimmed name
part of a placeholder has any non-identifier character (spaces included),
the parser re-tokenizes and re-parses it, yielding `Expression` on success
and `Variable` otherwise. -/
def formatReparseClaim : Prop :=
  ∀ (fuel : Nat) (pc : List Char),
    (trimChars (splitFirstColon pc).1).all (fun c => c.isAlphanum || c = '_') = false →
    processPlaceholder (fuel + 2) pc =
      (match reparseContent fuel (String.mk (trimChars (splitFirstColon pc).1)) with
       | some e => FormatPart.Expression e
           (((splitFirstColon pc).2).map (fun b => String.mk b))
       | none => FormatPart.Variable (String.mk (trimChars (splitFirstColon pc).1))
           (((splitFirstColon pc).2).map (fun b => String.mk b)))

/-- Token stream of `a buffer called "name" is SIZE bytes.`. -/
def bufTokens (name : String) (sizeTok : Token) : List Token :=
  [.A, .Buffer, .Called, .StringLiteral name, .Is, sizeTok, .Bytes, .Period]

/-- Whether an `Except` result is an error. -/
def isErrE {ε α : Type} : Except ε α → Bool
  | .error _ => true
  | .ok _ => false

/-- C5 as the spec states it: a sized buffer declaration errors exactly when
the size is not a positive integer literal of at most 1 GiB. -/
def bufferSizeClaim : Prop :=
  ∀ (fuel : Nat) (name : String) (sizeTok : Token),
    Token.string_is_keyword name = none →
    (isErrE (parseTypedVarDecl (fuel + 2) (bufTokens name sizeTok) 0) = true ↔
      ¬ ∃ n : Int, sizeTok = .IntegerLiteral n ∧ 0 < n ∧ n ≤ 1073741824)

/-- The nested-`If` chain the spec describes for a conditional print: each
`(condition, value)` pair guards a `Print` of its value, with the next pair
in the `else` branch and the default print innermost. -/
def condChain : List (Expr × Expr) → Expr → Statement
  | [], d => .Print d false
  | cv :: rest, d =>
    .If cv.1 (.cons (.Print cv.2 false) .nil) .nil
      (some (.cons (condChain rest d) .nil))

/-- Invariant carried by the `best_match` accumulator of `find_similar_keyword`. -/
def goodBest (word : String) (maxd : Nat) (best : Option (String × Nat)) : Prop :=
  ∀ kw d, best = some (kw, d) →
    levenshtein_distance word kw = d ∧ d ≤ maxd ∧ lenDiff word.length kw.length ≤ 2

/-! Lemmas about the Levenshtein dynamic program: the diagonal of the table
for a string against itself is zero. -/

lemma getLastD_append_singleton (l : List Nat) (a d : Nat) :
    (l ++ [a]).getLastD d = a := by
  induction l with
  | nil => rfl
  | cons x xs ih =>
    cases xs with
    | nil => rfl
    | cons y ys => simpa using ih

lemma map_range_congr (f g : Nat → Nat) (n : Nat) (h : ∀ k, k < n → f k = g k) :
    (List.range n).map f = (List.range n).map g := by
  apply List.map_congr_left
  intro a ha
  exact h a (List.mem_range.mp ha)

lemma levRow_diag (x : Char) : ∀ (ys : List Char) (j i : Nat),
    (∀ (k : Nat) (hk : k < ys.length), j + k = i → ys.get ⟨k, hk⟩ = x) →
    levRow x ys ((List.range (ys.length + 1)).map (fun k => Nat.dist i (j + k)))
        (Nat.dist (i + 1) j)
      = (List.range ys.length).map (fun k => Nat.dist (i + 1) (j + 1 + k)) := by
  intro ys
  induction ys with
  | nil => intro j i _; simp [levRow]
  | cons y ys ih =>
    intro j i hdiag
    have hrange : List.range (ys.length + 1 + 1)
        = 0 :: (List.range (ys.length + 1)).map (fun k => k + 1) :=
      List.range_succ_eq_map (ys.length + 1)
    rw [List.length_cons, hrange]
    simp only [List.map_cons, List.map_map]
    have hprow : ((List.range (ys.length + 1)).map
        ((fun k => Nat.dist i (j + k)) ∘ (fun k => k + 1)))
        = (List.range (ys.length + 1)).map (fun k => Nat.dist i (j + 1 + k)) := by
      apply map_range_congr
      intro k _
      simp only [Function.comp]
      congr 1
      omega
    rw [hprow, levRow]
    simp only [Nat.add_zero]
    have hhead : ((List.range (ys.length + 1)).map
        (fun k => Nat.dist i (j + 1 + k))).headD 0 = Nat.dist i (j + 1) := by
      rw [List.range_succ_eq_map]
      simp
    rw [hhead]
    have hcost : (if x = y then 0 else 1) = 0 ∨ (if x = y then 0 else 1) = 1 := by
      split <;> simp
    have hstep : min (min (Nat.dist i (j + 1) + 1) (Nat.dist (i + 1) j + 1))
        (Nat.dist i j + (if x = y then 0 else 1)) = Nat.dist (i + 1) (j + 1) := by
      rcases Nat.lt_trichotomy i j with hij | hij | hij
      · rcases hcost with hc | hc <;> rw [hc] <;> simp [Nat.dist] <;> omega
      · subst hij
        have hy : y = x := by
          have := hdiag 0 (by simp) (by omega)
          simpa using this
        rw [hy]
        simp [Nat.dist]
      · rcases hcost with hc | hc <;> rw [hc] <;> simp [Nat.dist] <;> omega
    rw [hstep]
    have htail := ih (j + 1) i (by
      intro k hk hjk
      have hk1 : k + 1 < (y :: ys).length := by simpa using Nat.succ_lt_succ hk
      have := hdiag (k + 1) hk1 (by omega)
      simpa using this)
    rw [htail]
    have hshift : ((List.range ys.length).map (fun k => Nat.dist (i + 1) (j + 1 + 1 + k)))
        = (List.range ys.length).map
            ((fun k => Nat.dist (i + 1) (j + 1 + k)) ∘ (fun k => k + 1)) := by
      apply map_range_congr
      intro k _
      simp only [Function.comp]
      congr 1
      omega
    rw [hshift]
    have hfinal : (List.range (ys.length + 1)).map (fun k => Nat.dist (i + 1) (j + 1 + k))
        = Nat.dist (i + 1) (j + 1) :: (List.range ys.length).map
            ((fun k => Nat.dist (i + 1) (j + 1 + k)) ∘ (fun k => k + 1)) := by
      rw [List.range_succ_eq_map]
      simp only [List.map_cons, List.map_map, Nat.add_zero]
    rw [hfinal]

lemma levRows_diag (c : List Char) : ∀ (xs : List Char) (i : Nat),
    xs = c.drop i → i ≤ c.length →
    levRows c xs i ((List.range (c.length + 1)).map (fun k => Nat.dist i k))
      = (List.range (c.length + 1)).map (fun k => Nat.dist c.length k) := by
  intro xs
  induction xs with
  | nil =>
    intro i hdrop hle
    have : i = c.length := by
      have := congrArg List.length hdrop
      simp [List.length_drop] at this
      omega
    subst this
    rfl
  | cons x xs ih =>
    intro i hdrop hle
    have hlt : i < c.length := by
      have := congrArg List.length hdrop
      simp [List.length_drop] at this
      omega
    rw [levRows]
    have hget : ∀ (k : Nat) (hk : k < c.length), 0 + k = i → c.get ⟨k, hk⟩ = x := by
      intro k hk hki
      have hki' : k = i := by omega
      subst hki'
      have hcons : c.drop k = c.get ⟨k, hk⟩ :: c.drop (k + 1) := List.drop_eq_get_cons hk
      rw [hdrop.symm] at hcons
      exact (List.cons.injEq _ _ _ _ ▸ hcons).1.symm
    have hprev : ((List.range (c.length + 1)).map (fun k => Nat.dist i k))
        = (List.range (c.length + 1)).map (fun k => Nat.dist i (0 + k)) := by
      simp
    have hrow := levRow_diag x c 0 i hget
    have hrow' : levRow x c ((List.range (c.length + 1)).map (fun k => Nat.dist i k)) (i + 1)
        = (List.range c.length).map (fun k => Nat.dist (i + 1) (k + 1)) := by
      rw [hprev]
      have h1 : Nat.dist (i + 1) 0 = i + 1 := by simp [Nat.dist]
      conv_lhs => rw [← h1]
      rw [hrow]
      apply map_range_congr
      intro k _
      congr 1
      omega
    have hnew : ((i + 1) :: levRow x c
          ((List.range (c.length + 1)).map (fun k => Nat.dist i k)) (i + 1))
        = (List.range (c.length + 1)).map (fun k => Nat.dist (i + 1) k) := by
      rw [hrow']
      rw [List.range_succ_eq_map, List.map_cons, List.map_map]
      congr 1
      simp [Nat.dist]
    rw [hnew]
    apply ih (i + 1)
    · have htl : (c.drop i).tail = c.drop (i + 1) := by
        rw [← List.drop_drop]
        simp
      rw [← htl, ← hdrop]
      rfl
    · omega

lemma levenshtein_distance_self (w : String) : levenshtein_distance w w = 0 := by
  unfold levenshtein_distance
  set c := lowerStr w.data with hc
  by_cases h0 : c.length = 0
  · simp [h0]
  · simp only [h0, if_false]
    have hinit : List.range (c.length + 1)
        = (List.range (c.length + 1)).map (fun k => Nat.dist 0 k) := by
      simp [Nat.dist]
    rw [hinit]
    rw [levRows_diag c c 0 (by simp) (by omega)]
    rw [List.range_succ]
    rw [List.map_append]
    simp only [List.map_cons, List.map_nil]
    rw [getLastD_append_singleton]
    simp [Nat.dist]

/-! Lemmas about the suggestion search loop. -/

lemma updateBest_good (word : String) (maxd : Nat) (best : Option (String × Nat))
    (kw : String) (hbest : goodBest word maxd best)
    (hd : levenshtein_distance word kw ≤ maxd)
    (hl : lenDiff word.length kw.length ≤ 2) :
    goodBest word maxd (updateBest best kw (levenshtein_distance word kw)) := by
  intro kw' d' h
  cases best with
  | none =>
    simp [updateBest] at h
    obtain ⟨h1, h2⟩ := h
    subst h1; subst h2
    exact ⟨rfl, hd, hl⟩
  | some p =>
    obtain ⟨b, bd⟩ := p
    simp only [updateBest] at h
    by_cases hlt : levenshtein_distance word kw < bd
    · rw [if_pos hlt] at h
      obtain ⟨h1, h2⟩ := Prod.mk.injEq .. ▸ (Option.some.injEq _ _ ▸ h)
      subst h1; subst h2
      exact ⟨rfl, hd, hl⟩
    · rw [if_neg hlt] at h
      exact hbest kw' d' h

lemma fskGo_some (word : String) (maxd : Nat) : ∀ (kws : List String)
    (best : Option (String × Nat)), goodBest word maxd best →
    ∀ s, fskGo word maxd kws best = some s →
      levenshtein_distance word s ≤ maxd ∧ lenDiff word.length s.length ≤ 2 := by
  intro kws
  induction kws with
  | nil =>
    intro best hbest s hs
    cases best with
    | none => simp [fskGo] at hs
    | some p =>
      obtain ⟨kw, d⟩ := p
      simp [fskGo] at hs
      subst hs
      obtain ⟨h1, h2, h3⟩ := hbest kw d rfl
      exact ⟨h1 ▸ h2, h3⟩
  | cons kw rest ih =>
    intro best hbest s hs
    rw [fskGo] at hs
    by_cases hlen : lenDiff word.length kw.length > 2
    · rw [if_pos hlen] at hs
      exact ih best hbest s hs
    · rw [if_neg hlen] at hs
      simp only at hs
      by_cases hd0 : levenshtein_distance word kw = 0
      · rw [if_pos hd0] at hs
        exact absurd hs (by simp)
      · rw [if_neg hd0] at hs
        by_cases hdm : levenshtein_distance word kw ≤ maxd
        · rw [if_pos hdm] at hs
          exact ih _ (updateBest_good word maxd best kw hbest hdm (by omega)) s hs
        · rw [if_neg hdm] at hs
          exact ih best hbest s hs

lemma fskGo_exact (word : String) (maxd : Nat) : ∀ (kws : List String)
    (best : Option (String × Nat)), word ∈ kws →
    fskGo word maxd kws best = none := by
  intro kws
  induction kws with
  | nil => intro best h; exact absurd h (by simp)
  | cons kw rest ih =>
    intro best hmem
    rw [fskGo]
    rcases List.mem_cons.mp hmem with heq | hrest
    · subst heq
      rw [if_neg (by simp [lenDiff])]
      simp only
      rw [if_pos (levenshtein_distance_self word)]
    · by_cases hlen : lenDiff word.length kw.length > 2
      · rw [if_pos hlen]; exact ih best hrest
      · rw [if_neg hlen]
        simp only
        by_cases hd0 : levenshtein_distance word kw = 0
        · rw [if_pos hd0]
        · rw [if_neg hd0]
          by_cases hdm : levenshtein_distance word kw ≤ maxd
          · rw [if_pos hdm]; exact ih _ hrest
          · rw [if_neg hdm]; exact ih best hrest

/-- C8: `find_similar_keyword` returns a suggestion only for words of length at
least 3, with a length gap of at most 2 and case-insensitive edit distance at
most 2 (at most 1 for length-3 words); it returns nothing for words of length
at most 2 and nothing when the word occurs verbatim in the keyword list. -/
theorem find_similar_keyword_bounds :
    (∀ (word : String) (kws : List String) (s : String),
       find_similar_keyword word kws = some s →
       3 ≤ word.length ∧ lenDiff word.length s.length ≤ 2 ∧
         levenshtein_distance word s ≤ (if word.length = 3 then 1 else 2))
    ∧ (∀ (word : String) (kws : List String), word.length ≤ 2 →
         find_similar_keyword word kws = none)
    ∧ (∀ (word : String) (kws : List String), word ∈ kws →
         find_similar_keyword word kws = none) := by
  refine ⟨?_, ?_, ?_⟩
  · intro word kws s hs
    unfold find_similar_keyword at hs
    by_cases hlen : word.length ≤ 2
    · rw [if_pos hlen] at hs; exact absurd hs (by simp)
    · rw [if_neg hlen] at hs
      have hb := fskGo_some word (if 4 ≤ word.length then 2 else 1) kws none (by intro kw d h; cases h) s hs
      refine ⟨by omega, hb.2, ?_⟩
      by_cases h3 : word.length = 3
      · rw [if_pos h3]
        have : ¬ 4 ≤ word.length := by omega
        rw [if_neg this] at hb
        exact hb.1
      · rw [if_neg h3]
        have h4 : 4 ≤ word.length := by omega
        rw [if_pos h4] at hb
        exact hb.1
  · intro word kws hlen
    unfold find_similar_keyword
    rw [if_pos hlen]
  · intro word kws hmem
    unfold find_similar_keyword
    by_cases hlen : word.length ≤ 2
    · rw [if_pos hlen]
    · rw [if_neg hlen]
      exact fskGo_exact word _ kws none hmem

/-- Witness for `find_similar_keyword_bounds`: instantiate each part on
concrete inputs ("prnt" receives the suggestion "print"). -/
theorem find_similar_keyword_bounds_witness :
    (3 ≤ ("prnt" : String).length ∧
       lenDiff ("prnt" : String).length ("print" : String).length ≤ 2 ∧
       levenshtein_distance "prnt" "print" ≤
         (if ("prnt" : String).length = 3 then 1 else 2))
    ∧ find_similar_keyword "ab" ENGLISH_KEYWORDS = none
    ∧ find_similar_keyword "print" ENGLISH_KEYWORDS = none := by
  refine ⟨?_, ?_, ?_⟩
  · exact find_similar_keyword_bounds.1 "prnt" ENGLISH_KEYWORDS "print" (by decide)
  · exact find_similar_keyword_bounds.2.1 "ab" ENGLISH_KEYWORDS (by decide)
  · exact find_similar_keyword_bounds.2.2 "print" ENGLISH_KEYWORDS (by decide)

/-! ### C2: keyword closure between the two keyword tables -/

/-- C2 counterexample: the spec's keyword-closure property is false on the
code.  `string_is_keyword` maps "say" to "print", yet the tokenizer's own word
table does not list "say", so "say" tokenizes to an identifier while "print"
tokenizes to the `Print` keyword token. -/
theorem keyword_closure_counterexample :
    Token.string_is_keyword "say" = some "print"
    ∧ tokenize "say" = [.Identifier "say", .EOF]
    ∧ tokenize "print" = [.Print, .EOF]
    ∧ ¬ keywordClosureClaim := by
  refine ⟨by decide, by decide, by decide, ?_⟩
  intro h
  have := h "say" "print" (by decide)
  have h1 : tokenize "say" = [.Identifier "say", .EOF] := by decide
  have h2 : tokenize "print" = [.Print, .EOF] := by decide
  rw [h1, h2] at this
  exact absurd this (by decide)

lemma synOk_chunk0 : ((keywordSynonyms.drop 0).take 31).all synOkB = true := by
  decide

lemma synOk_chunk1 : ((keywordSynonyms.drop 31).take 31).all synOkB = true := by
  decide

lemma synOk_chunk2 : ((keywordSynonyms.drop 62).take 31).all synOkB = true := by
  decide

lemma synOk_chunk3 : ((keywordSynonyms.drop 93).take 31).all synOkB = true := by
  decide

lemma synOk_chunk4 : ((keywordSynonyms.drop 124).take 31).all synOkB = true := by
  decide

lemma synOk_chunk5 : ((keywordSynonyms.drop 155).take 31).all synOkB = true := by
  decide

lemma synOk_chunk6 : ((keywordSynonyms.drop 186).take 31).all synOkB = true := by
  decide

lemma synOk_chunk7 : ((keywordSynonyms.drop 217).take 31).all synOkB = true := by
  decide

lemma synOk_all : keywordSynonyms.all synOkB = true := by
  have hsplit : keywordSynonyms = (keywordSynonyms.drop 0).take 31 ++ (keywordSynonyms.drop 31).take 31 ++ (keywordSynonyms.drop 62).take 31 ++ (keywordSynonyms.drop 93).take 31 ++ (keywordSynonyms.drop 124).take 31 ++ (keywordSynonyms.drop 155).take 31 ++ (keywordSynonyms.drop 186).take 31 ++ (keywordSynonyms.drop 217).take 31 := by rfl
  rw [hsplit]
  simp only [List.all_append, synOk_chunk0, synOk_chunk1, synOk_chunk2, synOk_chunk3, synOk_chunk4, synOk_chunk5, synOk_chunk6, synOk_chunk7, Bool.true_and]

/-- C2 amended: for every synonym listed in the `string_is_keyword` table
except the 31 divergent ones, tokenizing the synonym in isolation yields the
same token sequence as tokenizing its canonical form. -/
theorem keyword_closure_amended :
    ∀ s ∈ keywordSynonyms, s ∉ divergentSynonyms →
    ∀ c, Token.string_is_keyword s = some c → tokenize s = tokenize c := by
  intro s hs hnd c hc
  have hb := List.all_eq_true.mp synOk_all s hs
  simp only [synOkB] at hb
  rw [hc] at hb
  simp only [decide_eq_false hnd, Bool.false_or] at hb
  exact of_decide_eq_true hb

/-- Witness for `keyword_closure_amended` at the synonym "display". -/
theorem keyword_closure_amended_witness :
    "display" ∈ keywordSynonyms ∧ "display" ∉ divergentSynonyms ∧
    tokenize "display" = tokenize "print" :=
  ⟨by decide, by decide,
   keyword_closure_amended "display" (by decide) (by decide) "print" (by decide)⟩

/-! ### C9: out-of-range numeric literals lex to `IntegerLiteral(0)` -/

lemma skip_whitespace_cons (c : Char) (r : List Char)
    (h : ¬(c = ' ' ∨ c = '\t' ∨ c = '\r')) : skip_whitespace (c :: r) = c :: r := by
  simp [skip_whitespace, h]

lemma digit_char_ne (c : Char) (h : c.isDigit = true) :
    c ≠ '\n' ∧ c ≠ '.' ∧ c ≠ ',' ∧ c ≠ ':' ∧ c ≠ '(' ∧ c ≠ ')' ∧ c ≠ '[' ∧
    c ≠ ']' ∧ c ≠ '-' ∧ c ≠ '\x27' ∧ c ≠ '"' ∧ c ≠ ' ' ∧ c ≠ '\t' ∧ c ≠ '\r' := by
  refine ⟨?_, ?_, ?_, ?_, ?_, ?_, ?_, ?_, ?_, ?_, ?_, ?_, ?_, ?_⟩ <;>
    (intro he; rw [he] at h; exact absurd h (by decide))

lemma readNumRun_digits : ∀ (input acc : List Char),
    (∀ c ∈ input, c.isDigit = true) →
    readNumRun input acc false = (acc ++ input, false, []) := by
  intro input
  induction input with
  | nil => intro acc _; simp [readNumRun]
  | cons c rest ih =>
    intro acc hall
    have hc : c.isDigit = true := hall c (by simp)
    have hstep : readNumRun (c :: rest) acc false = readNumRun rest (acc ++ [c]) false := by
      conv_lhs => rw [readNumRun.eq_def]
      simp [hc]
    rw [hstep, ih (acc ++ [c]) (fun x hx => hall x (by simp [hx]))]
    simp

lemma takeWhile_of_all {p : Char → Bool} : ∀ (l : List Char),
    (∀ c ∈ l, p c = true) → l.takeWhile p = l := by
  intro l
  induction l with
  | nil => intro _; rfl
  | cons c rest ih =>
    intro hall
    rw [List.takeWhile_cons, if_pos (hall c (by simp))]
    rw [ih (fun x hx => hall x (by simp [hx]))]

lemma dropWhile_of_all {p : Char → Bool} : ∀ (l : List Char),
    (∀ c ∈ l, p c = true) → l.dropWhile p = [] := by
  intro l
  induction l with
  | nil => intro _; rfl
  | cons c rest ih =>
    intro hall
    rw [List.dropWhile_cons, if_pos (hall c (by simp))]
    exact ih (fun x hx => hall x (by simp [hx]))

lemma rustParseI64_overflow (base : Nat) (ds : List Char) (hne : ds ≠ [])
    (hlt : i64Max < digitsVal base ds) : rustParseI64 base ds = none := by
  unfold rustParseI64
  rw [if_neg (by simp [hne]), if_neg (by omega)]

lemma read_number_digits (d : Char) (rest : List Char) (hd : d.isDigit = true)
    (hrest : ∀ c ∈ rest, c.isDigit = true) :
    read_number d rest
      = (.IntegerLiteral ((rustParseI64 10 (d :: rest)).getD 0), []) := by
  have hrun : readNumRun rest [d] false = ([d] ++ rest, false, []) :=
    readNumRun_digits rest [d] hrest
  unfold read_number
  by_cases h0 : d = '0'
  · rw [if_pos h0]
    cases rest with
    | nil =>
      dsimp only
      rw [hrun]
      simp
    | cons c r =>
      have hcd : c.isDigit = true := hrest c (by simp)
      have hx : ¬(c = 'x' ∨ c = 'X') := by
        rintro (he | he) <;> (rw [he] at hcd; exact absurd hcd (by decide))
      have hb : ¬(c = 'b' ∨ c = 'B') := by
        rintro (he | he) <;> (rw [he] at hcd; exact absurd hcd (by decide))
      dsimp only
      rw [if_neg hx, if_neg hb]
      dsimp only
      rw [hrun]
      simp
  · rw [if_neg h0]
    dsimp only
    rw [hrun]
    simp

lemma read_number_hex (hs : List Char) (hall : ∀ c ∈ hs, isHexDigitChar c = true)
    (hne : hs ≠ []) :
    read_number '0' ('x' :: hs)
      = (.IntegerLiteral ((rustParseI64 16 hs).getD 0), []) := by
  unfold read_number
  rw [if_pos rfl]
  dsimp only
  rw [if_pos (Or.inl rfl)]
  dsimp only
  unfold read_hex_number
  rw [takeWhile_of_all hs hall, dropWhile_of_all hs hall]
  rw [if_neg (by simp [hne])]

lemma read_number_bin (bs : List Char)
    (hall : ∀ c ∈ bs, c = '0' ∨ c = '1') (hne : bs ≠ []) :
    read_number '0' ('b' :: bs)
      = (.IntegerLiteral ((rustParseI64 2 bs).getD 0), []) := by
  have hall' : ∀ c ∈ bs, (fun c => decide (c = '0') || decide (c = '1')) c = true := by
    intro c hc
    rcases hall c hc with h | h <;> simp [h]
  unfold read_number
  rw [if_pos rfl]
  dsimp only
  rw [if_neg (by decide), if_pos (Or.inl rfl)]
  dsimp only
  unfold read_binary_number
  rw [takeWhile_of_all bs hall', dropWhile_of_all bs hall']
  rw [if_neg (by simp [hne])]

lemma tokenizeGo_nil (fuel : Nat) : tokenizeGo (fuel + 1) [] = [.EOF] := by
  simp [tokenizeGo, skip_whitespace]

lemma tokenizeGo_digit_step (d : Char) (rest : List Char) (fuel : Nat)
    (hd : d.isDigit = true) :
    tokenizeGo (fuel + 1) (d :: rest)
      = (read_number d rest).1 :: tokenizeGo fuel (read_number d rest).2 := by
  obtain ⟨h1, h2, h3, h4, h5, h6, h7, h8, h9, h10, h11, h12, h13, h14⟩ :=
    digit_char_ne d hd
  rw [tokenizeGo, skip_whitespace_cons d rest (by tauto)]
  dsimp only
  rw [if_neg h1, if_neg h2, if_neg h3, if_neg h4, if_neg h5, if_neg h6,
    if_neg h7, if_neg h8, if_neg h9, if_neg h10, if_neg h11, if_pos hd]

lemma overflow_dec (ds : List Char) (hne : ds ≠ []) (hall : ∀ c ∈ ds, c.isDigit = true)
    (hlt : i64Max < digitsVal 10 ds) :
    tokenize (String.mk ds) = [.IntegerLiteral 0, .EOF] := by
  obtain ⟨d, rest, rfl⟩ : ∃ d rest, ds = d :: rest := by
    cases ds with
    | nil => exact absurd rfl hne
    | cons d rest => exact ⟨d, rest, rfl⟩
  show tokenizeGo ((d :: rest).length + 1) (d :: rest) = _
  rw [show (d :: rest).length + 1 = (rest.length + 1) + 1 by simp]
  rw [tokenizeGo_digit_step d rest (rest.length + 1) (hall d (by simp))]
  rw [read_number_digits d rest (hall d (by simp)) (fun c hc => hall c (by simp [hc]))]
  rw [rustParseI64_overflow 10 (d :: rest) (by simp) hlt]
  simp [tokenizeGo_nil]

lemma overflow_hex (hs : List Char) (hne : hs ≠ [])
    (hall : ∀ c ∈ hs, isHexDigitChar c = true) (hlt : i64Max < digitsVal 16 hs) :
    tokenize (String.mk ('0' :: 'x' :: hs)) = [.IntegerLiteral 0, .EOF] := by
  show tokenizeGo (('0' :: 'x' :: hs).length + 1) ('0' :: 'x' :: hs) = _
  rw [show ('0' :: 'x' :: hs).length + 1 = (hs.length + 2) + 1 by simp]
  rw [tokenizeGo_digit_step '0' ('x' :: hs) (hs.length + 2) (by decide)]
  rw [read_number_hex hs hall hne]
  rw [rustParseI64_overflow 16 hs hne hlt]
  have : hs.length + 2 = (hs.length + 1) + 1 := by omega
  rw [this]
  simp [tokenizeGo_nil]

lemma overflow_bin (bs : List Char) (hne : bs ≠ [])
    (hall : ∀ c ∈ bs, c = '0' ∨ c = '1') (hlt : i64Max < digitsVal 2 bs) :
    tokenize (String.mk ('0' :: 'b' :: bs)) = [.IntegerLiteral 0, .EOF] := by
  show tokenizeGo (('0' :: 'b' :: bs).length + 1) ('0' :: 'b' :: bs) = _
  rw [show ('0' :: 'b' :: bs).length + 1 = (bs.length + 2) + 1 by simp]
  rw [tokenizeGo_digit_step '0' ('b' :: bs) (bs.length + 2) (by decide)]
  rw [read_number_bin bs hall hne]
  rw [rustParseI64_overflow 2 bs hne hlt]
  have : bs.length + 2 = (bs.length + 1) + 1 := by omega
  rw [this]
  simp [tokenizeGo_nil]

/-- C9: tokenizing a numeric literal never fails; a decimal, hexadecimal or
binary integer literal whose digit string denotes a value outside the `i64`
range lexes to `IntegerLiteral(0)` (the failed parse is replaced by 0 via
`unwrap_or(0)`), with no error. -/
theorem tokenize_numeric_overflow :
    (∀ ds : List Char, ds ≠ [] → (∀ c ∈ ds, c.isDigit = true) →
       i64Max < digitsVal 10 ds →
       tokenize (String.mk ds) = [.IntegerLiteral 0, .EOF])
    ∧ (∀ hs : List Char, hs ≠ [] → (∀ c ∈ hs, isHexDigitChar c = true) →
       i64Max < digitsVal 16 hs →
       tokenize (String.mk ('0' :: 'x' :: hs)) = [.IntegerLiteral 0, .EOF])
    ∧ (∀ bs : List Char, bs ≠ [] → (∀ c ∈ bs, c = '0' ∨ c = '1') →
       i64Max < digitsVal 2 bs →
       tokenize (String.mk ('0' :: 'b' :: bs)) = [.IntegerLiteral 0, .EOF]) :=
  ⟨overflow_dec, overflow_hex, overflow_bin⟩

/-- Witness for `tokenize_numeric_overflow`: `2^63` written in decimal,
hexadecimal and binary each lex to `IntegerLiteral(0)`. -/
theorem tokenize_numeric_overflow_witness :
    tokenize "9223372036854775808" = [.IntegerLiteral 0, .EOF]
    ∧ tokenize "0x8000000000000000" = [.IntegerLiteral 0, .EOF]
    ∧ tokenize "0b1000000000000000000000000000000000000000000000000000000000000000"
        = [.IntegerLiteral 0, .EOF] := by
  refine ⟨?_, ?_, ?_⟩
  · exact tokenize_numeric_overflow.1 ("9223372036854775808" : String).data
      (by decide) (by decide) (by decide)
  · exact tokenize_numeric_overflow.2.1 ("8000000000000000" : String).data
      (by decide) (by decide) (by decide)
  · exact tokenize_numeric_overflow.2.2
      ("1000000000000000000000000000000000000000000000000000000000000000" : String).data
      (by decide) (by decide) (by decide)

/-! ### C5: buffer size validation -/

/-- C5 counterexample: a buffer sized by a (non-integer) identifier is
accepted and produces a `BufferDecl`, although the claim demands an error for
every non-integer size. -/
theorem buffer_size_counterexample :
    parseTypedVarDecl 2 (bufTokens "b" (.Identifier "config_size")) 0
      = .ok (.BufferDecl "b" (.Identifier "config_size"), 7)
    ∧ ¬ bufferSizeClaim := by
  constructor
  · rfl
  · intro h
    have hiff := h 0 "b" (.Identifier "config_size") (by decide)
    have hr : ¬ ∃ n : Int, (Token.Identifier "config_size") = .IntegerLiteral n
        ∧ 0 < n ∧ n ≤ 1073741824 := by
      rintro ⟨n, hn, -, -⟩
      cases hn
    have := hiff.mpr hr
    rw [show parseTypedVarDecl 2 (bufTokens "b" (.Identifier "config_size")) 0
      = .ok (.BufferDecl "b" (.Identifier "config_size"), 7) from rfl] at this
    exact absurd this (by simp [isErrE])

/-- C5 amended: for a sized buffer declaration the parser errors with the
invalid-buffer-size template exactly on an integer literal that is zero or
negative, an integer literal above 1 GiB, or a size expression that is
neither an integer literal nor an identifier; a positive integer literal of
at most 1 GiB yields the `BufferDecl`, and an identifier size is also
accepted (deferred to later validation). -/
lemma bufsize_base (n : Int) :
    parseTypedVarDecl 2 (bufTokens "buf" (.IntegerLiteral n)) 0
      = (if n ≤ 0 then
          .error (.invalidBufferSize "buf" "Buffer size must be a positive integer"
            "a buffer called \"buf\" is 1024 bytes.")
        else if n > 1073741824 then
          .error (.invalidBufferSize "buf"
            "Buffer size exceeds maximum allowed (1073741824 bytes)"
            "Consider using smaller buffers or streaming for large data.")
        else .ok (.BufferDecl "buf" (.IntegerLit n), 7)) := rfl

lemma bufsize_ident (v : String) :
    parseTypedVarDecl 2 (bufTokens "buf" (.Identifier v)) 0
      = .ok (.BufferDecl "buf" (.Identifier v), 7) := rfl

lemma bufsize_float (t : String) :
    parseTypedVarDecl 2 (bufTokens "buf" (.FloatLiteral t)) 0
      = .error (.invalidBufferSize "buf"
          "Buffer size must be a numeric literal or constant variable"
          "a buffer called \"buf\" is 1024 bytes.") := rfl

theorem buffer_size_validation :
    (∀ n : Int, n ≤ 0 →
      parseTypedVarDecl 2 (bufTokens "buf" (.IntegerLiteral n)) 0
        = .error (.invalidBufferSize "buf" "Buffer size must be a positive integer"
            "a buffer called \"buf\" is 1024 bytes."))
    ∧ (∀ n : Int, 0 < n → n ≤ 1073741824 →
      parseTypedVarDecl 2 (bufTokens "buf" (.IntegerLiteral n)) 0
        = .ok (.BufferDecl "buf" (.IntegerLit n), 7))
    ∧ (∀ n : Int, 1073741824 < n →
      parseTypedVarDecl 2 (bufTokens "buf" (.IntegerLiteral n)) 0
        = .error (.invalidBufferSize "buf"
            "Buffer size exceeds maximum allowed (1073741824 bytes)"
            "Consider using smaller buffers or streaming for large data."))
    ∧ (∀ v : String,
      parseTypedVarDecl 2 (bufTokens "buf" (.Identifier v)) 0
        = .ok (.BufferDecl "buf" (.Identifier v), 7))
    ∧ (∀ t : String,
      parseTypedVarDecl 2 (bufTokens "buf" (.FloatLiteral t)) 0
        = .error (.invalidBufferSize "buf"
            "Buffer size must be a numeric literal or constant variable"
            "a buffer called \"buf\" is 1024 bytes.")) := by
  refine ⟨?_, ?_, ?_, bufsize_ident, bufsize_float⟩
  · intro n hn
    rw [bufsize_base n, if_pos hn]
  · intro n hn1 hn2
    rw [bufsize_base n, if_neg (by omega), if_neg (by omega)]
  · intro n hn
    rw [bufsize_base n, if_neg (by omega), if_pos (by omega)]

/-- Witness for `buffer_size_validation` on concrete sizes 0, 1024, `2^30+1`,
an identifier and a float. -/
theorem buffer_size_validation_witness :
    parseTypedVarDecl 2 (bufTokens "buf" (.IntegerLiteral 0)) 0
      = .error (.invalidBufferSize "buf" "Buffer size must be a positive integer"
          "a buffer called \"buf\" is 1024 bytes.")
    ∧ parseTypedVarDecl 2 (bufTokens "buf" (.IntegerLiteral 1024)) 0
      = .ok (.BufferDecl "buf" (.IntegerLit 1024), 7)
    ∧ parseTypedVarDecl 2 (bufTokens "buf" (.IntegerLiteral 1073741825)) 0
      = .error (.invalidBufferSize "buf"
          "Buffer size exceeds maximum allowed (1073741824 bytes)"
          "Consider using smaller buffers or streaming for large data.")
    ∧ parseTypedVarDecl 2 (bufTokens "buf" (.Identifier "sz")) 0
      = .ok (.BufferDecl "buf" (.Identifier "sz"), 7)
    ∧ parseTypedVarDecl 2 (bufTokens "buf" (.FloatLiteral "1.5")) 0
      = .error (.invalidBufferSize "buf"
          "Buffer size must be a numeric literal or constant variable"
          "a buffer called \"buf\" is 1024 bytes.") := by
  have h := buffer_size_validation
  exact ⟨h.1 0 (by omega), h.2.1 1024 (by omega) (by omega),
    h.2.2.1 1073741825 (by omega), h.2.2.2.1 "sz", h.2.2.2.2 "1.5"⟩

/-! ### C6: conditional print desugaring -/

lemma buildChain_eq_condChain (conds : List (Expr × Expr)) (d : Expr) :
    buildChain conds d = condChain conds d := by
  induction conds with
  | nil => rfl
  | cons cv rest ih =>
    have h : buildChain (cv :: rest) d
        = .If cv.1 (.cons (.Print cv.2 false) .nil) .nil
            (some (.cons (buildChain rest d) .nil)) := by
      unfold buildChain
      rw [List.reverse_cons, List.foldl_append]
      rfl
    rw [h, ih]
    rfl

lemma condPrint_unfold (f : Nat) (toks : List Token) (pos : Nat) (default : Expr) :
    parseConditionalPrint (f + 1) toks pos default = (do
      let p := skip_noise toks (pos + 1)
      let (cond, p1) ← (parseStep f (.condition toks p)).asExpr
      let p2 := skip_noise toks p1
      let (_, p3) := expectTok toks p2 .Print
      let p4 := skip_noise toks p3
      let (val, p5) ← (parseStep f (.primary toks p4)).asExpr
      let p6 := skip_noise toks p5
      let (conds, p7) ← (parseStep f (.collectC toks p6 [(cond, val)])).asConds
      .ok (buildChain conds default, p7)) := rfl

lemma cpd_chain (fuel : Nat) (toks : List Token) (pos : Nat) (default : Expr)
    (stmt : Statement) (p' : Nat)
    (h : parseConditionalPrint fuel toks pos default = .ok (stmt, p')) :
    ∃ conds : List (Expr × Expr), stmt = condChain conds default := by
  cases fuel with
  | zero =>
    exact absurd h (by simp [parseConditionalPrint, parseStep, PCall.outOfFuel,
      PRes.asStmt])
  | succ f =>
    rw [condPrint_unfold f toks pos default] at h
    dsimp only [bind, Except.bind] at h
    rcases hc1 : (parseStep f (.condition toks (skip_noise toks (pos + 1)))).asExpr
      with e | ⟨cond, p1⟩ <;> rw [hc1] at h
    · simp at h
    · dsimp only at h
      rcases hc2 : (parseStep f (.primary toks
          (skip_noise toks (expectTok toks (skip_noise toks p1) .Print).2))).asExpr
        with e | ⟨val, p5⟩ <;> rw [hc2] at h
      · simp at h
      · dsimp only at h
        rcases hc3 : (parseStep f (.collectC toks (skip_noise toks p5)
            [(cond, val)])).asConds with e | ⟨conds, p7⟩ <;> rw [hc3] at h
        · simp at h
        · dsimp only at h
          simp only [Except.ok.injEq, Prod.mk.injEq] at h
          exact ⟨conds, by rw [← h.1]; exact buildChain_eq_condChain conds default⟩

lemma cpd_tail (fuel : Nat) (toks : List Token) (value : Expr) (wn : Bool) (pos : Nat)
    (hc : currentTok toks pos = .Comma)
    (hbut : currentTok toks (skip_noise toks (pos + 1)) ≠ .But)
    (hif : currentTok toks (skip_noise toks (pos + 1)) ≠ .If) :
    parsePrintTail (fuel + 1) toks value wn pos = .ok (.Print value wn, pos) := by
  simp only [parsePrintTail, parseStep, PRes.asStmt, hc]
  simp [tokIn, hbut, hif]

/-- C6: (1) whatever `parse_conditional_print` returns is the nested-`If`
chain of some list of `(condition, value)` pairs around the default print;
(2) when the separator after a plain print value is a comma not followed by
`but`/`if`, the parser restores its position to the comma and returns the
plain `Print`. -/
theorem conditional_print_desugar :
    (∀ (fuel : Nat) (toks : List Token) (pos : Nat) (default : Expr)
        (stmt : Statement) (p' : Nat),
      parseConditionalPrint fuel toks pos default = .ok (stmt, p') →
      ∃ conds : List (Expr × Expr), stmt = condChain conds default)
    ∧ (∀ (fuel : Nat) (toks : List Token) (value : Expr) (wn : Bool) (pos : Nat),
      currentTok toks pos = .Comma →
      currentTok toks (skip_noise toks (pos + 1)) ≠ .But →
      currentTok toks (skip_noise toks (pos + 1)) ≠ .If →
      parsePrintTail (fuel + 1) toks value wn pos = .ok (.Print value wn, pos)) :=
  ⟨cpd_chain, cpd_tail⟩

/-- Witness for `conditional_print_desugar`: part (1) on the token stream of
`if c print "Y", otherwise print "W"` with default `"X"`, part (2) on a
comma followed by a plain identifier. -/
theorem conditional_print_desugar_witness :
    (∃ conds : List (Expr × Expr),
      (Statement.If (.Identifier "c") (.cons (.Print (.StringLit "Y") false) .nil) .nil
        (some (.cons
          (.If (.BoolLit true) (.cons (.Print (.StringLit "W") false) .nil) .nil
            (some (.cons (.Print (.StringLit "X") false) .nil))) .nil)))
        = condChain conds (.StringLit "X"))
    ∧ parsePrintTail 6 [Token.Comma, Token.Identifier "x"] (.StringLit "hi") false 0
        = .ok (.Print (.StringLit "hi") false, 0) :=
  ⟨conditional_print_desugar.1 40
      [.If, .Identifier "c", .Print, .StringLiteral "Y", .Comma, .Otherwise,
        .Print, .StringLiteral "W", .Period]
      0 (.StringLit "X") _ 8 rfl,
    conditional_print_desugar.2 5 [Token.Comma, Token.Identifier "x"]
      (.StringLit "hi") false 0 rfl (by decide) (by decide)⟩

/-! ### C7: format placeholders -/

lemma splitFirstColon_append (a b : List Char) (h : ':' ∉ a) :
    splitFirstColon (a ++ ':' :: b) = (a, some b) := by
  induction a with
  | nil => simp [splitFirstColon]
  | cons c rest ih =>
    have hc : c ≠ ':' := fun he => h (he ▸ List.mem_cons_self c rest)
    have h' : ':' ∉ rest := fun m => h (List.mem_cons_of_mem _ m)
    simp [splitFirstColon, hc, ih h']

lemma collectPlaceholder_split (pc rest : List Char) (h : '}' ∉ pc) :
    collectPlaceholder (pc ++ '}' :: rest) = (pc, rest) := by
  induction pc with
  | nil => simp [collectPlaceholder]
  | cons c tl ih =>
    have hc : c ≠ '}' := fun he => h (he ▸ List.mem_cons_self c tl)
    have h' : '}' ∉ tl := fun m => h (List.mem_cons_of_mem _ m)
    simp [collectPlaceholder, hc, ih h']

lemma formatGo_nil_asParts (fuel : Nat) :
    (parseStep fuel (.formatGo [] [])).asParts = .nil := by
  cases fuel <;> rfl

lemma all_false_of_contains_space (l : List Char) (h : l.contains ' ' = true) :
    l.all (fun c => c.isAlphanum || c = '_') = false := by
  have hmem : ' ' ∈ l := by simpa using h
  by_contra hall
  have h2 : l.all (fun c => c.isAlphanum || c = '_') = true := by
    cases hb : l.all (fun c => c.isAlphanum || c = '_') with
    | false => exact absurd hb hall
    | true => rfl
  have h3 := List.all_eq_true.mp h2 ' ' hmem
  simp at h3

lemma formatGo_step (fuel : Nat) (c : Char) (rest : List Char) (hc : c ≠ '{') :
    (parseStep (fuel + 1) (.formatGo ('{' :: c :: rest) [])).asParts
      = .cons (parseStep fuel (.placeholder (collectPlaceholder (c :: rest)).1)).asPart
          ((parseStep fuel (.formatGo (collectPlaceholder (c :: rest)).2 [])).asParts) := by
  simp only [parseStep, PRes.asParts]
  split
  all_goals try rfl
  all_goals simp_all

/-- C7 counterexample: the placeholder `{a-b}` has a non-identifier character
in its name, and re-parsing its content would succeed (the lexer reads `a-b`
as one identifier word), yet `process_placeholder` classifies it as a
`Variable` because the re-parse is attempted only when the content contains
a space. -/
theorem format_reparse_counterexample :
    processPlaceholder 50 "a-b".data = .Variable "a-b" none
    ∧ reparseContent 48 "a-b" = some (.Identifier "a-b")
    ∧ ¬ formatReparseClaim := by
  refine ⟨rfl, rfl, fun h => ?_⟩
  have h1 := h 48 "a-b".data (by decide)
  exact absurd (congrArg FormatPart.isVar h1) (by decide)

/-- C7 amended: (1) the placeholder content is split at the first colon and
everything after it is kept verbatim as the format spec; (2) the trimmed
name part is re-tokenized and re-parsed only when it contains a space (and
a non-identifier character), giving an `Expression` on a fully consumed
parse and a `Variable` otherwise — a name with non-identifier characters
but no space stays a `Variable`; (3) containing a space already implies the
non-identifier-character test, so the space is the only effective trigger;
(4) a format string consisting of one brace-free placeholder parses to
exactly that placeholder's part. -/
theorem format_placeholder_split :
    (∀ (fuel : Nat) (a b : List Char), ':' ∉ a →
      (processPlaceholder (fuel + 1) (a ++ ':' :: b)).format = some (String.mk b))
    ∧ (∀ (fuel : Nat) (pc : List Char),
      processPlaceholder (fuel + 2) pc =
        if (trimChars (splitFirstColon pc).1).contains ' ' = true
            ∧ (trimChars (splitFirstColon pc).1).all
                (fun c => c.isAlphanum || c = '_') = false then
          match reparseContent fuel (String.mk (trimChars (splitFirstColon pc).1)) with
          | some e => .Expression e (((splitFirstColon pc).2).map (fun x => String.mk x))
          | none => .Variable (String.mk (trimChars (splitFirstColon pc).1))
              (((splitFirstColon pc).2).map (fun x => String.mk x))
        else .Variable (String.mk (trimChars (splitFirstColon pc).1))
            (((splitFirstColon pc).2).map (fun x => String.mk x)))
    ∧ (∀ l : List Char, l.contains ' ' = true →
      l.all (fun c => c.isAlphanum || c = '_') = false)
    ∧ (∀ (fuel : Nat) (pc : List Char), '{' ∉ pc → '}' ∉ pc →
      parse_format_string (fuel + 2) (String.mk ('{' :: pc ++ ['}']))
        = .cons (processPlaceholder fuel pc) .nil) := by
  refine ⟨?_, ?_, all_false_of_contains_space, ?_⟩
  · intro fuel a b h
    simp only [processPlaceholder, parseStep, PRes.asPart]
    rw [splitFirstColon_append a b h]
    cases htp : (parseStep fuel (.tryParse (String.mk (trimChars a)))).asOExpr with
    | none => simp [FormatPart.format]
    | some e => simp [FormatPart.format]
  · intro fuel pc
    simp only [processPlaceholder, parseStep, PRes.asPart, PRes.asOExpr,
      reparseContent]
    cases hsp : (trimChars (splitFirstColon pc).1).contains ' ' with
    | false => simp [hsp]
    | true =>
      have hall := all_false_of_contains_space _ hsp
      simp [hsp, hall]
  · intro fuel pc h1 h2
    cases pc with
    | nil =>
      show (FormatPartList.cons (parseStep fuel (.placeholder [])).asPart
          ((parseStep fuel (.formatGo [] [])).asParts))
        = .cons (processPlaceholder fuel []) .nil
      rw [formatGo_nil_asParts]
      rfl
    | cons c pc' =>
      have hc : c ≠ '{' := fun he => h1 (he ▸ List.mem_cons_self c pc')
      have hcp : collectPlaceholder (c :: (pc' ++ ['}'])) = (c :: pc', []) := by
        simpa using collectPlaceholder_split (c :: pc') [] h2
      calc parse_format_string (fuel + 2) (String.mk ('{' :: (c :: pc') ++ ['}']))
          = (parseStep (fuel + 1) (.formatGo ('{' :: c :: (pc' ++ ['}'])) [])).asParts :=
            rfl
        _ = .cons (parseStep fuel
                (.placeholder (collectPlaceholder (c :: (pc' ++ ['}']))).1)).asPart
              ((parseStep fuel
                (.formatGo (collectPlaceholder (c :: (pc' ++ ['}']))).2 [])).asParts) :=
            formatGo_step fuel c (pc' ++ ['}']) hc
        _ = .cons (processPlaceholder fuel (c :: pc')) .nil := by
            rw [hcp, formatGo_nil_asParts]
            rfl

/-- Witness for `format_placeholder_split`: the placeholder `value:08x`
keeps `08x` verbatim, `a b` fails the identifier test, and `{x}` parses to
its single placeholder part. -/
theorem format_placeholder_split_witness :
    (processPlaceholder 10 ("value".data ++ ':' :: "08x".data)).format = some "08x"
    ∧ "a b".data.all (fun c => c.isAlphanum || c = '_') = false
    ∧ parse_format_string 12 (String.mk ('{' :: "x".data ++ ['}']))
        = .cons (processPlaceholder 10 "x".data) .nil :=
  ⟨format_placeholder_split.1 9 "value".data "08x".data (by decide),
   format_placeholder_split.2.2.1 "a b".data (by decide),
   format_placeholder_split.2.2.2 10 "x".data (by decide) (by decide)⟩

/-! ### C1: if-statement scope merging -/

lemma asSt_st (s : AState) : (ARes.st s).asSt = s := rfl

lemma asSF_stFlag (s : AState) (f : Bool) : (ARes.stFlag s f).asSF = (s, f) := rfl

lemma asSEF_stEnvFlag (s : AState) (e : AnalysisEnv) (f : Bool) :
    (ARes.stEnvFlag s e f).asSEF = (s, e, f) := rfl

lemma asSEnvs_stEnvs (s : AState) (es : List AnalysisEnv) :
    (ARes.stEnvs s es).asSEnvs = (s, es) := rfl

lemma asFlag_flag (b : Bool) : (ARes.flag b).asFlag = b := rfl

lemma asKey_key (k : Option String) : (ARes.key k).asKey = k := rfl

lemma mem_foldl_filter (rest : List AnalysisEnv) (init : Finset String)
    (x : String) :
    (x ∈ rest.foldl (fun acc env => acc.filter (fun n => n ∈ env.always)) init) ↔
      x ∈ init ∧ ∀ e ∈ rest, x ∈ e.always := by
  induction rest generalizing init with
  | nil => simp
  | cons e rest ih =>
    simp only [List.foldl_cons, ih, Finset.mem_filter, List.mem_cons]
    constructor
    · rintro ⟨⟨h1, h2⟩, h3⟩
      exact ⟨h1, fun env henv => henv.elim (fun he => he ▸ h2) (h3 env)⟩
    · rintro ⟨h1, h2⟩
      exact ⟨⟨h1, h2 e (Or.inl rfl)⟩, fun env henv => h2 env (Or.inr henv)⟩

lemma mem_foldl_union (envs : List AnalysisEnv) (init : Finset String)
    (k x : String) :
    (x ∈ envs.foldl (fun acc env => acc ∪ env.guarded k) init) ↔
      x ∈ init ∨ ∃ e ∈ envs, x ∈ e.guarded k := by
  induction envs generalizing init with
  | nil => simp
  | cons e rest ih =>
    simp only [List.foldl_cons, ih, Finset.mem_union, List.mem_cons]
    constructor
    · rintro (⟨h | h⟩ | ⟨env, henv, h⟩)
      · exact Or.inl h
      · exact Or.inr ⟨e, Or.inl rfl, h⟩
      · exact Or.inr ⟨env, Or.inr henv, h⟩
    · rintro (h | ⟨env, henv | henv, h⟩)
      · exact Or.inl (Or.inl h)
      · exact Or.inl (Or.inr (henv ▸ h))
      · exact Or.inr ⟨env, henv, h⟩

lemma mem_merge_always (envs : List AnalysisEnv) (fb : AnalysisEnv)
    (x : String) (h : envs ≠ []) :
    (x ∈ (merge_continuing_envs envs fb).always) ↔ ∀ e ∈ envs, x ∈ e.always := by
  cases envs with
  | nil => exact absurd rfl h
  | cons e0 rest =>
    simp only [merge_continuing_envs, mem_foldl_filter, List.mem_cons]
    constructor
    · rintro ⟨h1, h2⟩
      exact fun env henv => henv.elim (fun he => he ▸ h1) (h2 env)
    · intro h2
      exact ⟨h2 e0 (Or.inl rfl), fun env henv => h2 env (Or.inr henv)⟩

lemma mem_merge_guarded (envs : List AnalysisEnv) (fb : AnalysisEnv)
    (k x : String) (h : envs ≠ []) :
    (x ∈ (merge_continuing_envs envs fb).guarded k) ↔
      ∃ e ∈ envs, x ∈ e.guarded k := by
  cases envs with
  | nil => exact absurd rfl h
  | cons e0 rest =>
    simp only [merge_continuing_envs, mem_foldl_union, Finset.not_mem_empty,
      false_or]

lemma blockGo_flag (fuel : Nat) (st : AState) (l : StmtList) :
    ((aStep fuel (.blockGo st l)).asSF).2 = (aStep fuel (.termB l)).asFlag := by
  induction fuel generalizing st l with
  | zero => rfl
  | succ f ih =>
    cases l with
    | nil => rfl
    | cons s rest =>
      simp only [aStep]
      cases htf : (aStep f (.termS s)).asFlag with
      | true => simp [htf, asSF_stFlag, asFlag_flag]
      | false => simp [htf, asSF_stFlag, asFlag_flag, ih]

lemma currentEnv_applyEnv (st : AState) (env : AnalysisEnv) :
    currentEnv (applyEnv st env) = env := rfl

lemma expr_env_preserved (fuel : Nat) :
    (∀ (st : AState) (e : Expr),
      currentEnv ((aStep fuel (.expr st e)).asSt) = currentEnv st)
    ∧ (∀ (st : AState) (es : ExprList),
      currentEnv ((aStep fuel (.exprList st es)).asSt) = currentEnv st)
    ∧ (∀ (st : AState) (ps : FormatPartList),
      currentEnv ((aStep fuel (.fparts st ps)).asSt) = currentEnv st) := by
  induction fuel with
  | zero => exact ⟨fun st e => rfl, fun st es => rfl, fun st ps => rfl⟩
  | succ f ih =>
    refine ⟨fun st e => ?_, fun st es => ?_, fun st ps => ?_⟩
    · cases e with
      | BinaryOp left op right =>
        simp only [aStep, asSt_st]
        rw [ih.1, ih.1]
      | UnaryOp op operand =>
        simp only [aStep, asSt_st]
        rw [ih.1]
      | PropertyCheck value property =>
        simp only [aStep, asSt_st]
        rw [ih.1]
      | FunctionCall name args =>
        simp only [aStep, asSt_st]
        rw [ih.2.1]
        split_ifs <;> simp [currentEnv, push_error]
      | FormatString parts =>
        simp only [aStep, asSt_st]
        rw [ih.2.2]
        simp [currentEnv]
      | ListAccess list index =>
        simp only [aStep, asSt_st]
        rw [ih.1, ih.1]
      | Identifier name =>
        simp only [aStep, asSt_st]
        split_ifs <;>
          simp [currentEnv, push_unknown_variable, push_error, track_identifier,
            track_typo_candidate]
      | _ => simp [aStep, asSt_st, currentEnv]
    · cases es with
      | nil => rfl
      | cons e rest =>
        simp only [aStep, asSt_st]
        rw [ih.2.1, ih.1]
    · cases ps with
      | nil => rfl
      | cons p rest =>
        simp only [aStep, asSt_st]
        rw [ih.2.2]
        cases p with
        | Expression e fmt => rw [ih.1]
        | Variable name fmt =>
          dsimp only
          split_ifs <;>
            simp [currentEnv, push_unknown_variable, push_error, track_identifier,
              track_typo_candidate]
        | Literal s => rfl

/-- C1: (1) merging no continuing branches falls back to the given
environment; (2) with at least one continuing branch, a variable is in the
merged `always` set exactly when it is in every continuing branch's
`always` set; (3) a variable is guarded under key `k` in the merge exactly
when some continuing branch guards it under `k`; (4) the termination flag
computed by `analyze_block_in_scope`'s statement walk (which stops at the
first always-terminating statement) coincides with the syntactic
`block_always_terminates` test; (5) consequently, after an `if` with no
`else` branch the incoming environment joins the merge: the resulting
`always` set only shrinks relative to the incoming one, and every incoming
guarded entry survives. -/
theorem if_scope_merge :
    (∀ fb : AnalysisEnv, merge_continuing_envs [] fb = fb)
    ∧ (∀ (envs : List AnalysisEnv) (fb : AnalysisEnv) (x : String), envs ≠ [] →
      ((x ∈ (merge_continuing_envs envs fb).always) ↔ ∀ e ∈ envs, x ∈ e.always))
    ∧ (∀ (envs : List AnalysisEnv) (fb : AnalysisEnv) (k x : String), envs ≠ [] →
      ((x ∈ (merge_continuing_envs envs fb).guarded k) ↔
        ∃ e ∈ envs, x ∈ e.guarded k))
    ∧ (∀ (fuel : Nat) (st : AState) (l : StmtList) (env : AnalysisEnv)
        (g : Option String),
      (analyze_block_in_scope (fuel + 1) st l env g).2.2
        = block_always_terminates fuel l)
    ∧ (∀ (fuel : Nat) (st : AState) (cond : Expr) (thenB : StmtList)
        (elifs : ElifList) (k x : String),
      ((x ∈ (currentEnv (analyze_statement (fuel + 1) st
          (.If cond thenB elifs none))).always) → x ∈ (currentEnv st).always)
      ∧ ((x ∈ (currentEnv st).guarded k) →
        x ∈ (currentEnv (analyze_statement (fuel + 1) st
          (.If cond thenB elifs none))).guarded k)) := by
  refine ⟨fun fb => rfl,
    fun envs fb x h => mem_merge_always envs fb x h,
    fun envs fb k x h => mem_merge_guarded envs fb k x h,
    fun fuel st l env g => ?_,
    fun fuel st cond thenB elifs k x => ?_⟩
  · simp only [analyze_block_in_scope, block_always_terminates, aStep,
      asSEF_stEnvFlag]
    exact blockGo_flag fuel _ l
  · constructor
    · intro hx
      simp only [analyze_statement, aStep, asSt_st, currentEnv_applyEnv] at hx
      have hnil : ((aStep fuel (.elifGo
          ((aStep fuel (.blockScope ((aStep fuel (.expr st cond)).asSt) thenB
            (currentEnv ((aStep fuel (.expr st cond)).asSt))
            ((aStep fuel (.guardKey cond)).asKey))).asSEF).1
          (currentEnv ((aStep fuel (.expr st cond)).asSt)) elifs
          (if ((aStep fuel (.blockScope ((aStep fuel (.expr st cond)).asSt) thenB
            (currentEnv ((aStep fuel (.expr st cond)).asSt))
            ((aStep fuel (.guardKey cond)).asKey))).asSEF).2.2 then []
           else [((aStep fuel (.blockScope ((aStep fuel (.expr st cond)).asSt) thenB
            (currentEnv ((aStep fuel (.expr st cond)).asSt))
            ((aStep fuel (.guardKey cond)).asKey))).asSEF).2.1]))).asSEnvs).2
          ++ [currentEnv ((aStep fuel (.expr st cond)).asSt)] ≠ [] := by
        simp
      have h2 := (mem_merge_always _ _ x hnil).mp hx
        (currentEnv ((aStep fuel (.expr st cond)).asSt)) (by simp)
      rwa [(expr_env_preserved fuel).1 st cond] at h2
    · intro hx
      simp only [analyze_statement, aStep, asSt_st, currentEnv_applyEnv]
      refine (mem_merge_guarded _ _ k x (by simp)).mpr
        ⟨currentEnv ((aStep fuel (.expr st cond)).asSt), by simp, ?_⟩
      rwa [(expr_env_preserved fuel).1 st cond]

/-- Witness for `if_scope_merge`: a concrete two-branch merge — `b` survives
the `always` intersection of `{a, b}` and `{b, c}`, and the guarded entry
`g ↦ x` contributed by one branch survives the union. -/
theorem if_scope_merge_witness :
    (("b" ∈ (merge_continuing_envs
        [⟨{"a", "b"}, fun _ => ∅⟩, ⟨{"b", "c"}, fun k => if k = "g" then {"x"} else ∅⟩]
        ⟨∅, fun _ => ∅⟩).always) ↔
      ∀ e ∈ [(⟨{"a", "b"}, fun _ => ∅⟩ : AnalysisEnv),
        ⟨{"b", "c"}, fun k => if k = "g" then {"x"} else ∅⟩], "b" ∈ e.always)
    ∧ (("x" ∈ (merge_continuing_envs
        [⟨{"a", "b"}, fun _ => ∅⟩, ⟨{"b", "c"}, fun k => if k = "g" then {"x"} else ∅⟩]
        ⟨∅, fun _ => ∅⟩).guarded "g") ↔
      ∃ e ∈ [(⟨{"a", "b"}, fun _ => ∅⟩ : AnalysisEnv),
        ⟨{"b", "c"}, fun k => if k = "g" then {"x"} else ∅⟩], "x" ∈ e.guarded "g") :=
  ⟨if_scope_merge.2.1 _ _ "b" (by simp),
   if_scope_merge.2.2.1 _ _ "g" "x" (by simp)⟩

/-! ### C10: the `_iter` scope-check exemption -/

lemma errors_declare (st : AState) (name : String) :
    (declare_variable_in_current_scope st name).errors = st.errors := by
  unfold declare_variable_in_current_scope
  split_ifs <;> rfl

lemma errors_guard (st : AState) (name : String) (vt : Option VType)
    (v : Option Expr) :
    (maybe_activate_true_guard st name vt v).errors = st.errors := by
  unfold maybe_activate_true_guard
  dsimp only
  split_ifs <;> rfl

lemma fparts_nil (fuel : Nat) (st : AState) :
    (aStep fuel (.fparts st .nil)).asSt = st := by
  cases fuel <;> rfl

lemma iter_errors_go (fuel : Nat) :
    (∀ (st : AState) (e : Expr),
      AErr.unknownVariable "_iter" ∈ ((aStep fuel (.expr st e)).asSt).errors →
      AErr.unknownVariable "_iter" ∈ st.errors)
    ∧ (∀ (st : AState) (es : ExprList),
      AErr.unknownVariable "_iter" ∈ ((aStep fuel (.exprList st es)).asSt).errors →
      AErr.unknownVariable "_iter" ∈ st.errors)
    ∧ (∀ (st : AState) (ps : FormatPartList),
      AErr.unknownVariable "_iter" ∈ ((aStep fuel (.fparts st ps)).asSt).errors →
      AErr.unknownVariable "_iter" ∈ st.errors)
    ∧ (∀ (st : AState) (s : Statement),
      AErr.unknownVariable "_iter" ∈ ((aStep fuel (.stmt st s)).asSt).errors →
      AErr.unknownVariable "_iter" ∈ st.errors)
    ∧ (∀ (st : AState) (l : StmtList),
      AErr.unknownVariable "_iter" ∈ ((aStep fuel (.stmts st l)).asSt).errors →
      AErr.unknownVariable "_iter" ∈ st.errors)
    ∧ (∀ (st : AState) (l : StmtList),
      AErr.unknownVariable "_iter" ∈ (((aStep fuel (.blockGo st l)).asSF).1).errors →
      AErr.unknownVariable "_iter" ∈ st.errors)
    ∧ (∀ (st : AState) (l : StmtList) (env : AnalysisEnv) (g : Option String),
      AErr.unknownVariable "_iter"
          ∈ (((aStep fuel (.blockScope st l env g)).asSEF).1).errors →
      AErr.unknownVariable "_iter" ∈ st.errors)
    ∧ (∀ (st : AState) (benv : AnalysisEnv) (es : ElifList)
        (acc : List AnalysisEnv),
      AErr.unknownVariable "_iter"
          ∈ (((aStep fuel (.elifGo st benv es acc)).asSEnvs).1).errors →
      AErr.unknownVariable "_iter" ∈ st.errors) := by
  induction fuel with
  | zero =>
    exact ⟨fun st e h => h, fun st es h => h, fun st ps h => h, fun st s h => h,
      fun st l h => h, fun st l h => h, fun st l env g h => h,
      fun st benv es acc h => h⟩
  | succ f ih =>
    obtain ⟨ihe, ihel, ihfp, ihs, ihss, ihbg, ihbs, ihei⟩ := ih
    refine ⟨fun st e h => ?_, fun st es h => ?_, fun st ps h => ?_,
      fun st s h => ?_, fun st l h => ?_, fun st l h => ?_,
      fun st l env g h => ?_, fun st benv es acc h => ?_⟩
    · simp only [aStep, asSt_st] at h
      cases e <;> dsimp only at h
      case IntegerLit n => exact h
      case FloatLit t => exact h
      case StringLit s => exact h
      case BoolLit b => exact h
      case BinaryOp left op right =>
        have h2 := ihe _ right h
        exact ihe st left h2
      case UnaryOp op operand => exact ihe st operand h
      case PropertyCheck value property => exact ihe st value h
      case FunctionCall name args =>
        have h2 := ihel _ args h
        split_ifs at h2 with hf
        · exact h2
        · simp only [push_error, List.mem_append, List.mem_singleton] at h2
          rcases h2 with h2 | h2
          · exact h2
          · exact absurd h2 (by simp)
      case FormatString parts =>
        have h2 := ihfp _ parts h
        exact h2
      case ListAccess list index =>
        have h2 := ihe _ index h
        exact ihe st list h2
      case ElementAccess list index => exact h
      case Identifier name =>
        split_ifs at h with h1 h2
        · simp only [push_unknown_variable, push_error, track_identifier,
            List.mem_append, List.mem_singleton] at h
          rcases h with h | h
          · exact h
          · injection h with hn
            exact absurd hn.symm h1.2
        · exact h
        · exact h
    · simp only [aStep, asSt_st] at h
      cases es <;> dsimp only at h
      case nil => exact h
      case cons e rest =>
        have h2 := ihel _ rest h
        exact ihe st e h2
    · simp only [aStep, asSt_st] at h
      cases ps <;> dsimp only at h
      case nil => exact h
      case cons p rest =>
        have h2 := ihfp _ rest h
        cases p <;> dsimp only at h2
        case Expression e fmt => exact ihe st e h2
        case Variable name fmt =>
          split_ifs at h2 with h1 hk
          · simp only [push_unknown_variable, push_error, track_identifier,
              List.mem_append, List.mem_singleton] at h2
            rcases h2 with h2 | h2
            · exact h2
            · injection h2 with hn
              exact absurd hn.symm h1.2
          · exact h2
          · exact h2
        case Literal s => exact h2
    · simp only [aStep, asSt_st] at h
      cases s <;> dsimp only at h
      case Print value wn =>
        have h2 : AErr.unknownVariable "_iter"
            ∈ (((aStep f (.expr { st with
                deps := { st.deps with uses_io := true } } value)).asSt).errors) := by
          cases value <;> dsimp only at h <;> exact h
        have h3 := ihe _ value h2
        exact h3
      case VarDecl name vt value =>
        cases value <;> dsimp only at h
        case some v =>
          have h2 := ihe _ v h
          rwa [errors_guard, errors_declare] at h2
        case none => rwa [errors_guard, errors_declare] at h
      case Assignment name value =>
        have h2 := ihe _ value h
        split_ifs at h2 with hv
        · rwa [errors_declare] at h2
        · exact h2
      case If cond thenB elifs elseB =>
        cases elseB <;> dsimp only at h
        case some blk =>
          have h2 := ihbs _ blk _ none h
          have h3 := ihei _ _ elifs _ h2
          have h4 := ihbs _ thenB _ _ h3
          exact ihe st cond h4
        case none =>
          have h3 := ihei _ _ elifs _ h
          have h4 := ihbs _ thenB _ _ h3
          exact ihe st cond h4
      case While cond body =>
        have h2 := ihss _ body h
        exact ihe st cond h2
      case Return value =>
        cases value <;> dsimp only at h
        case some v => exact ihe st v h
        case none => exact h
      case Exit code => exact ihe st code h
      case BufferDecl name size =>
        have h2 := ihe _ size h
        exact h2
      case FunctionCallS name args =>
        have h2 := ihel _ args h
        split_ifs at h2 with hf
        · exact h2
        · simp only [push_error, List.mem_append, List.mem_singleton] at h2
          rcases h2 with h2 | h2
          · exact h2
          · exact absurd h2 (by simp)
    · simp only [aStep, asSt_st] at h
      cases l <;> dsimp only at h
      case nil => exact h
      case cons s rest =>
        have h2 := ihss _ rest h
        exact ihs st s h2
    · simp only [aStep] at h
      cases l <;> dsimp only at h
      case nil => exact h
      case cons s rest =>
        split_ifs at h with ht
        · exact ihs st s h
        · have h2 := ihbg _ rest h
          exact ihs st s h2
    · simp only [aStep] at h
      cases g <;> dsimp only at h
      case some guard =>
        have h2 := ihbg _ l h
        exact h2
      case none =>
        have h2 := ihbg _ l h
        exact h2
    · simp only [aStep] at h
      cases es <;> dsimp only at h
      case nil => exact h
      case cons cond blk rest =>
        have h2 := ihei _ _ rest _ h
        have h3 := ihbs _ blk _ _ h2
        have h4 := ihe _ cond h3
        exact h4

/-- C10: the identifier `_iter` is exempt from scope checking — analyzing a
bare `_iter` identifier expression or a format-string variable part named
`_iter` leaves the error list unchanged in any state, and more generally no
expression or statement analysis ever adds an `Unknown variable: _iter`
diagnostic. -/
theorem iter_scope_exempt :
    (∀ (fuel : Nat) (st : AState),
      (analyze_expr (fuel + 1) st (.Identifier "_iter")).errors = st.errors)
    ∧ (∀ (fuel : Nat) (st : AState) (fmt : Option String),
      (analyze_expr (fuel + 2) st
          (.FormatString (.cons (.Variable "_iter" fmt) .nil))).errors
        = st.errors)
    ∧ (∀ (fuel : Nat) (st : AState) (e : Expr),
      AErr.unknownVariable "_iter" ∈ (analyze_expr fuel st e).errors →
      AErr.unknownVariable "_iter" ∈ st.errors)
    ∧ (∀ (fuel : Nat) (st : AState) (s : Statement),
      AErr.unknownVariable "_iter" ∈ (analyze_statement fuel st s).errors →
      AErr.unknownVariable "_iter" ∈ st.errors) := by
  refine ⟨fun fuel st => ?_, fun fuel st fmt => ?_,
    fun fuel st e h => (iter_errors_go fuel).1 st e h,
    fun fuel st s h => (iter_errors_go fuel).2.2.2.1 st s h⟩
  · simp [analyze_expr, aStep, asSt_st, track_identifier]
  · simp [analyze_expr, aStep, asSt_st, track_identifier, fparts_nil]

/-- Witness for `iter_scope_exempt`: an `_iter` error present beforehand is
traced back to the input state by part (3) at a concrete analysis, and part
(1) evaluates on the empty state. -/
theorem iter_scope_exempt_witness :
    AErr.unknownVariable "_iter" ∈
      ({ AState.empty with errors := [AErr.unknownVariable "_iter"] } : AState).errors
    ∧ (analyze_expr 1 AState.empty (.Identifier "_iter")).errors
        = AState.empty.errors :=
  ⟨iter_scope_exempt.2.2.1 1
      { AState.empty with errors := [AErr.unknownVariable "_iter"] }
      (.Identifier "x") (by decide),
    iter_scope_exempt.1 0 AState.empty⟩

/-! ### C3: call-site convention -/

lemma stmtArgsGo_eq (genE : CState → Expr → CState) :
    ∀ (args : ExprList) (st : CState) (i : Nat),
      stmtArgsGo genE st args i = directArgsGo genE st (exprListToList args) i
  | .nil, st, i => rfl
  | .cons a rest, st, i => by
    simp only [stmtArgsGo, directArgsGo, exprListToList]
    exact stmtArgsGo_eq genE rest _ _

/-- C3 counterexample: a one-argument call.  The *expression* arm pushes the
argument and pops it into `rdi` as claimed, but the *statement* arm moves
`rax` straight into `rdi` with no push/pop (and in general no stack
alignment or cleanup), so the claim fails for statement call sites. -/
theorem call_convention_counterexample :
    (generate_statement_call 2 CState.empty "f" (.cons (.IntegerLit 1) .nil)).code
        = [.movRaxImm 1, .movRegRax .rdi, .callLbl "f"]
    ∧ (genExprGo 3 CState.empty (.FunctionCall "f" (.cons (.IntegerLit 1) .nil))).code
        = [.movRaxImm 1, .pushRax, .popReg .rdi, .callLbl "f"]
    ∧ ¬ callSiteClaim := by
  refine ⟨rfl, rfl, fun h => ?_⟩
  have h1 := (h 2 CState.empty "f" (.cons (.IntegerLit 1) .nil)).1
  exact absurd h1 (by decide)

/-- C3 amended: the *expression* call arm emits exactly the claimed
sequence — arguments evaluated right to left and pushed, the first six
popped into `rdi, rsi, rdx, rcx, r8, r9`, an 8-byte pad when the number of
stack-passed arguments is odd, the call, and the stack-argument/pad
cleanup.  The *statement* call arm instead evaluates arguments left to
right, moves each result directly into its parameter register (pushing
only from the seventh argument on) and calls with no alignment pad and no
cleanup. -/
theorem call_convention :
    (∀ (fuel : Nat) (st : CState) (name : String) (args : ExprList),
      genExprGo (fuel + 1) st (.FunctionCall name args)
        = claimedCallEmit (genExprGo fuel) st name (exprListToList args))
    ∧ (∀ (fuel : Nat) (st : CState) (name : String) (args : ExprList),
      generate_statement_call fuel st name args
        = directCallEmit (genExprGo fuel) { st with uses_funcs := true } name
            (exprListToList args)) := by
  refine ⟨fun fuel st name args => rfl, fun fuel st name args => ?_⟩
  unfold generate_statement_call directCallEmit
  rw [stmtArgsGo_eq]

/-! ### C4: bounds-checked list and element access -/

/-- C4, syntactic part: the two access arms emit the list/element check
sequence (compare, conditional jumps, shared error block setting
`_last_error` and zeroing `rax`) right after the list and index
subexpressions, with three fresh labels. -/
theorem access_emits_check :
    (∀ (fuel : Nat) (st : CState) (list index : Expr),
      genExprGo (fuel + 1) st (.ListAccess list index)
        = emitAll (genExprGo fuel (emit (genExprGo fuel
              { st with label_counter := st.label_counter + 3 } list) .pushRax)
              index)
            (listAccessCheck ⟨"list_ok", st.label_counter⟩
              ⟨"list_err", st.label_counter + 1⟩
              ⟨"list_done", st.label_counter + 2⟩))
    ∧ (∀ (fuel : Nat) (st : CState) (list index : Expr),
      genExprGo (fuel + 1) st (.ElementAccess list index)
        = emitAll (genExprGo fuel (emit (genExprGo fuel
              { st with label_counter := st.label_counter + 3 } list) .pushRax)
              index)
            (elementAccessCheck ⟨"elem_ok", st.label_counter⟩
              ⟨"elem_err", st.label_counter + 1⟩
              ⟨"elem_done", st.label_counter + 2⟩)) :=
  ⟨fun fuel st list index => rfl, fun fuel st list index => rfl⟩

/-- C4, semantic part: executing the emitted check with the index in `rax`
and the list pointer on top of the stack.  List access (0-indexed): on
`index < 0` or `index ≥ length` the machine sets `_last_error := 1`,
yields `rax = 0`, and the only address it ever read is the length field —
the element is not read; in bounds it yields the element at
`ptr + 24 + 8·index`.  Element access (1-indexed): the same with bounds
`1 ≤ index ≤ length` and element `ptr + 24 + 8·(index − 1)`. -/
theorem bounds_checked_access :
    (∀ (c : Nat) (idx ptr b0 c0 d0 e0 : Int) (lc : Int × Int)
        (rest : List Int) (mem : Int → Int),
      (idx < 0 ∨ mem (ptr + 8) ≤ idx →
        (execGo 30 (listAccessCheck ⟨"list_ok", c⟩ ⟨"list_err", c + 1⟩
            ⟨"list_done", c + 2⟩) 0
            ⟨idx, b0, c0, d0, ptr :: rest, lc, e0, mem, []⟩).lastError = 1
        ∧ (execGo 30 (listAccessCheck ⟨"list_ok", c⟩ ⟨"list_err", c + 1⟩
            ⟨"list_done", c + 2⟩) 0
            ⟨idx, b0, c0, d0, ptr :: rest, lc, e0, mem, []⟩).rax = 0
        ∧ ∀ a ∈ (execGo 30 (listAccessCheck ⟨"list_ok", c⟩ ⟨"list_err", c + 1⟩
            ⟨"list_done", c + 2⟩) 0
            ⟨idx, b0, c0, d0, ptr :: rest, lc, e0, mem, []⟩).reads, a = ptr + 8)
      ∧ (0 ≤ idx → idx < mem (ptr + 8) →
        (execGo 30 (listAccessCheck ⟨"list_ok", c⟩ ⟨"list_err", c + 1⟩
            ⟨"list_done", c + 2⟩) 0
            ⟨idx, b0, c0, d0, ptr :: rest, lc, e0, mem, []⟩).rax
          = mem (ptr + 24 + idx * 8)
        ∧ (execGo 30 (listAccessCheck ⟨"list_ok", c⟩ ⟨"list_err", c + 1⟩
            ⟨"list_done", c + 2⟩) 0
            ⟨idx, b0, c0, d0, ptr :: rest, lc, e0, mem, []⟩).lastError = e0
        ∧ (execGo 30 (listAccessCheck ⟨"list_ok", c⟩ ⟨"list_err", c + 1⟩
            ⟨"list_done", c + 2⟩) 0
            ⟨idx, b0, c0, d0, ptr :: rest, lc, e0, mem, []⟩).reads
          = [ptr + 8, ptr + 24 + idx * 8]))
    ∧ (∀ (c : Nat) (idx ptr b0 c0 d0 e0 : Int) (lc : Int × Int)
        (rest : List Int) (mem : Int → Int),
      (idx < 1 ∨ mem (ptr + 8) < idx →
        (execGo 30 (elementAccessCheck ⟨"elem_ok", c⟩ ⟨"elem_err", c + 1⟩
            ⟨"elem_done", c + 2⟩) 0
            ⟨idx, b0, c0, d0, ptr :: rest, lc, e0, mem, []⟩).lastError = 1
        ∧ (execGo 30 (elementAccessCheck ⟨"elem_ok", c⟩ ⟨"elem_err", c + 1⟩
            ⟨"elem_done", c + 2⟩) 0
            ⟨idx, b0, c0, d0, ptr :: rest, lc, e0, mem, []⟩).rax = 0
        ∧ ∀ a ∈ (execGo 30 (elementAccessCheck ⟨"elem_ok", c⟩ ⟨"elem_err", c + 1⟩
            ⟨"elem_done", c + 2⟩) 0
            ⟨idx, b0, c0, d0, ptr :: rest, lc, e0, mem, []⟩).reads, a = ptr + 8)
      ∧ (1 ≤ idx → idx ≤ mem (ptr + 8) →
        (execGo 30 (elementAccessCheck ⟨"elem_ok", c⟩ ⟨"elem_err", c + 1⟩
            ⟨"elem_done", c + 2⟩) 0
            ⟨idx, b0, c0, d0, ptr :: rest, lc, e0, mem, []⟩).rax
          = mem (ptr + 24 + (idx - 1) * 8)
        ∧ (execGo 30 (elementAccessCheck ⟨"elem_ok", c⟩ ⟨"elem_err", c + 1⟩
            ⟨"elem_done", c + 2⟩) 0
            ⟨idx, b0, c0, d0, ptr :: rest, lc, e0, mem, []⟩).lastError = e0
        ∧ (execGo 30 (elementAccessCheck ⟨"elem_ok", c⟩ ⟨"elem_err", c + 1⟩
            ⟨"elem_done", c + 2⟩) 0
            ⟨idx, b0, c0, d0, ptr :: rest, lc, e0, mem, []⟩).reads
          = [ptr + 8, ptr + 24 + (idx - 1) * 8])) := by
  constructor
  · intro c idx ptr b0 c0 d0 e0 lc rest mem
    constructor
    · intro hv
      by_cases h1 : idx < 0
      · refine ⟨?_, ?_, ?_⟩ <;>
          simp [execGo, listAccessCheck, findLabel, findLabelGo, setReg, h1]
      · have h2 : mem (ptr + 8) ≤ idx := hv.resolve_left h1
        have h3 : ¬ (idx < mem (ptr + 8)) := not_lt.mpr h2
        refine ⟨?_, ?_, ?_⟩ <;>
          simp [execGo, listAccessCheck, findLabel, findLabelGo, setReg, h1, h3]
    · intro h1 h2
      have h1' : ¬ (idx < 0) := not_lt.mpr h1
      refine ⟨?_, ?_, ?_⟩ <;>
        simp [execGo, listAccessCheck, findLabel, findLabelGo, setReg, h1', h2] <;>
        ring_nf
  · intro c idx ptr b0 c0 d0 e0 lc rest mem
    constructor
    · intro hv
      by_cases h1 : idx < 1
      · refine ⟨?_, ?_, ?_⟩ <;>
          simp [execGo, elementAccessCheck, findLabel, findLabelGo, setReg, h1]
      · have h2 : mem (ptr + 8) < idx := hv.resolve_left h1
        have h3 : ¬ (idx ≤ mem (ptr + 8)) := not_le.mpr h2
        refine ⟨?_, ?_, ?_⟩ <;>
          simp [execGo, elementAccessCheck, findLabel, findLabelGo, setReg, h1, h3]
    · intro h1 h2
      have h1' : ¬ (idx < 1) := not_lt.mpr h1
      refine ⟨?_, ?_, ?_⟩ <;>
        simp [execGo, elementAccessCheck, findLabel, findLabelGo, setReg, h1', h2] <;>
        ring_nf

/-- Witness for `bounds_checked_access`: an out-of-bounds and an in-bounds
access of a 3-element list at pointer 100 (length cell at 108). -/
theorem bounds_checked_access_witness :
    ((execGo 30 (listAccessCheck ⟨"list_ok", 0⟩ ⟨"list_err", 1⟩
        ⟨"list_done", 2⟩) 0
        ⟨5, 0, 0, 0, [100], (0, 0), 0,
          (fun a => if a = 108 then 3 else 77), []⟩).lastError = 1)
    ∧ ((execGo 30 (elementAccessCheck ⟨"elem_ok", 0⟩ ⟨"elem_err", 1⟩
        ⟨"elem_done", 2⟩) 0
        ⟨2, 0, 0, 0, [100], (0, 0), 0,
          (fun a => if a = 108 then 3 else 77), []⟩).rax
      = (fun a : Int => if a = 108 then 3 else 77) (100 + 24 + (2 - 1) * 8)) :=
  ⟨((bounds_checked_access.1 0 5 100 0 0 0 0 (0, 0) []
      (fun a => if a = 108 then 3 else 77)).1 (by norm_num)).1,
   ((bounds_checked_access.2 0 2 100 0 0 0 0 (0, 0) []
      (fun a => if a = 108 then 3 else 77)).2 (by norm_num) (by norm_num)).1⟩

end Vox
